import Mathlib

/-!
Cadence history subsystem: SQL history manager and history V2 store utilities

A shallow embedding of

* `common/persistence/sql/sqlHistoryManager.go`
  (`AppendHistoryEvents`, `overWriteHistoryEvents`, `lockEventForUpdate`,
  `GetWorkflowExecutionHistory`),
* `common/persistence/historyV2StoreUtil.go`
  (`DeleteWorkflowExecutionHistoryV2`, `ReadFullPageV2Events`,
  `ReadFullPageV2EventsByBatch`, `GetBeginNodeID`),
* `service/worker/replicator/replicationTask.go`
  (the three replication tasks with `Execute`, `HandleErr` and `RetryErr`),

followed by the theorems that settle the claims about them.

Conventions of the embedding.

* `int64` and `int` values are `Int`; the two arithmetic operations of the reader
  (`FirstEventID - 1`, `offset + 1`) wrap around with `wrapInt64`.
* Go `error` values are the inductive `Err`; a Go `error` result is `Option Err`
  (`none` is `nil`), a `(value, error)` result is `Except Err value`.
* `[]byte` is `List Nat`; a `nil` slice and an empty slice are both `[]`
  (the sources only ever test `len`).
* Driver calls are answered by an explicit driver value and every call that
  is issued is recorded, in order, in a call log returned next to the result.
* Domain and run identifiers are kept as already parsed UUID values
  (`sqldb.MustParseUUID` is declared outside the sources).
-/

namespace Cadence

/-! ## Basic types -/

/-- Byte slices (`[]byte`). -/
abbrev Bytes := List Nat

/-- A parsed 128-bit identifier (`sqldb.UUID`). -/
abbrev UUID := Nat

/-- Two-complement wrap-around of a 64-bit signed integer. -/
def wrapInt64 (x : Int) : Int := (x + 2 ^ 63) % 2 ^ 64 - 2 ^ 63

/-- The values an `int64` can hold. -/
def isInt64 (x : Int) : Prop := -(2 ^ 63) ≤ x ∧ x < 2 ^ 63

instance (x : Int) : Decidable (isInt64 x) := by
  unfold isInt64; infer_instance

/-- Go `error` values that occur in the embedded code.

`ConditionFailedError` is `persistence.ConditionFailedError`;
`InternalServiceError`, `ServiceBusyError` and `EntityNotExistsError` are the
thrift error types of `.gen/go/shared`; `MySQLError` is `mysql.MySQLError`;
`ErrNoRows` is `sql.ErrNoRows`; `errorString` stands for every other error
value (for instance those built by `fmt.Errorf`); `RetryTaskError` is
`shared.RetryTaskError`, whose optional fields are pointers. -/
inductive Err where
  | ConditionFailedError (Msg : String)
  | InternalServiceError (Message : String)
  | ServiceBusyError (Message : String)
  | EntityNotExistsError (Message : String)
  | MySQLError (Number : Nat) (Message : String)
  | ErrNoRows
  | errorString (s : String)
  | RetryTaskError (Message : String) (DomainId WorkflowId RunId : Option String)
      (NextEventId : Option Int)
deriving DecidableEq, Repr

namespace Err

/-- The text `err.Error()` used when an error is formatted with `%v`. -/
def text : Err → String
  | ConditionFailedError m => m
  | InternalServiceError m => m
  | ServiceBusyError m => m
  | EntityNotExistsError m => m
  | MySQLError n m => "Error " ++ toString n ++ ": " ++ m
  | ErrNoRows => "sql: no rows in result set"
  | errorString s => s
  | RetryTaskError m _ _ _ _ => m

/-- Type test `err.(*persistence.ConditionFailedError)`. -/
def isConditionFailed : Err → Bool
  | ConditionFailedError _ => true
  | _ => false

/-- Type test for `*workflow.InternalServiceError`. -/
def isInternalService : Err → Bool
  | InternalServiceError _ => true
  | _ => false

/-- Type test for `*shared.ServiceBusyError`. -/
def isServiceBusy : Err → Bool
  | ServiceBusyError _ => true
  | _ => false

/-- Type test for `*workflow.EntityNotExistsError`. -/
def isEntityNotExists : Err → Bool
  | EntityNotExistsError _ => true
  | _ => false

end Err

/-- The type `persistence.DataBlob`. -/
structure DataBlob where
  Encoding : String
  Data : Bytes
deriving DecidableEq, Repr

/-- The type `shared.WorkflowExecution` with its run id already parsed. -/
structure WorkflowExecution where
  WorkflowId : String
  RunId : UUID
deriving DecidableEq, Repr

/-! ## The SQL driver interface (`sqldb`) -/

/-- The type `sqldb.EventsRow`. -/
structure EventsRow where
  DomainID : UUID
  WorkflowID : String
  RunID : UUID
  FirstEventID : Int
  BatchVersion : Int
  RangeID : Int
  TxID : Int
  Data : Bytes
  DataEncoding : String
deriving DecidableEq, Repr

/-- The type `sqldb.EventsFilter`; the three pointer fields are optional. -/
structure EventsFilter where
  DomainID : UUID
  WorkflowID : String
  RunID : UUID
  FirstEventID : Option Int
  NextEventID : Option Int
  PageSize : Option Int
deriving DecidableEq, Repr

/-- The driver calls the history manager may issue, as they appear in the log. -/
inductive DBCall where
  | InsertIntoEvents (row : EventsRow)
  | SelectFromEvents (filter : EventsFilter)
  | LockEvents (filter : EventsFilter)
  | UpdateEvents (row : EventsRow)
deriving DecidableEq, Repr

/-- The answers of the driver (`sqldb.Interface` and `sqldb.Tx`).

Each method of the history manager issues every driver call at most once, so
an answer is a function of the argument of the call.  `UpdateEvents` answers
with the outcome of `result.RowsAffected()` when the statement itself
succeeded. -/
structure DB where
  InsertIntoEvents : EventsRow → Option Err
  SelectFromEvents : EventsFilter → Except Err (List EventsRow)
  LockEvents : EventsFilter → Except Err EventsRow
  UpdateEvents : EventsRow → Except Err (Except Err Int)

/-- Constants and helpers of the `sql` and `common` packages that the embedded
functions use and that are declared outside the sources. -/
structure SqlEnv where
  /-- The constant `common.EmptyVersion`. -/
  EmptyVersion : Int
  /-- The constant `ErrDupEntry` of the `sql` package. -/
  ErrDupEntry : Nat
  /-- The helper `serializePageToken`. -/
  serializePageToken : Int → Bytes
  /-- The helper `deserializePageToken`. -/
  deserializePageToken : Bytes → Except Err Int

/-! ## Requests and responses of the history store -/

/-- The type `persistence.InternalAppendHistoryEventsRequest`. -/
structure InternalAppendHistoryEventsRequest where
  DomainID : UUID
  Execution : WorkflowExecution
  FirstEventID : Int
  EventBatchVersion : Int
  RangeID : Int
  TransactionID : Int
  Events : DataBlob
  Overwrite : Bool
deriving DecidableEq, Repr

/-- The type `persistence.InternalGetWorkflowExecutionHistoryRequest`. -/
structure InternalGetWorkflowExecutionHistoryRequest where
  LastEventBatchVersion : Int
  DomainID : UUID
  Execution : WorkflowExecution
  FirstEventID : Int
  NextEventID : Int
  PageSize : Int
  NextPageToken : Bytes
deriving DecidableEq, Repr

/-- The type `persistence.InternalGetWorkflowExecutionHistoryResponse`. -/
structure InternalGetWorkflowExecutionHistoryResponse where
  History : List DataBlob
  LastEventBatchVersion : Int
  NextPageToken : Bytes
deriving DecidableEq, Repr

/-- The zero value `&p.InternalGetWorkflowExecutionHistoryResponse{}`. -/
def emptyResponse : InternalGetWorkflowExecutionHistoryResponse :=
  { History := [], LastEventBatchVersion := 0, NextPageToken := [] }

/-! ## `sqlHistoryManager.GetWorkflowExecutionHistory` -/

/-- The local state of the `for _, v := range rows` loop. -/
structure ScanState where
  history : List DataBlob
  lastEventBatchVersion : Int
  offset : Int
deriving DecidableEq, Repr

/-- The version a row is compared with: `common.EmptyVersion` unless
`v.BatchVersion > 0` (lines 114, 117-119). -/
def eventBatchVersion (env : SqlEnv) (v : EventsRow) : Int :=
  if v.BatchVersion > 0 then v.BatchVersion else env.EmptyVersion

/-- The blob built from a row (lines 113, 115-116). -/
def eventBatch (v : EventsRow) : DataBlob :=
  { Data := v.Data, Encoding := v.DataEncoding }

/-- One iteration of the loop body (lines 113-124). -/
def scanRow (env : SqlEnv) (s : ScanState) (v : EventsRow) : ScanState :=
  let s1 : ScanState :=
    if eventBatchVersion env v ≥ s.lastEventBatchVersion then
      { s with history := s.history ++ [eventBatch v],
               lastEventBatchVersion := eventBatchVersion env v }
    else s
  { s1 with offset := v.FirstEventID }

/-- The whole loop (lines 112-125). -/
def scanRows (env : SqlEnv) (s : ScanState) (rows : List EventsRow) : ScanState :=
  rows.foldl (scanRow env) s

/-- The offset the read starts from (lines 78-87): `FirstEventID - 1`, or the
offset carried by a non-empty page token. -/
def startOffset (env : SqlEnv) (request : InternalGetWorkflowExecutionHistoryRequest) :
    Except Err Int :=
  if request.NextPageToken.length > 0 then
    match env.deserializePageToken request.NextPageToken with
    | .error _ => .error (.InternalServiceError
        ("invalid next page token [" ++
          " ".intercalate (request.NextPageToken.map toString) ++ "]"))
    | .ok newOffset => .ok newOffset
  else .ok (wrapInt64 (request.FirstEventID - 1))

/-- The filter handed to `SelectFromEvents` (lines 89-96). -/
def selectFilter (request : InternalGetWorkflowExecutionHistoryRequest) (offset : Int) :
    EventsFilter :=
  { DomainID := request.DomainID,
    WorkflowID := request.Execution.WorkflowId,
    RunID := request.Execution.RunId,
    FirstEventID := some (wrapInt64 (offset + 1)),
    NextEventID := some request.NextEventID,
    PageSize := some request.PageSize }

/-- The response built from a non-empty row list (lines 109-135). -/
def buildResponse (env : SqlEnv) (request : InternalGetWorkflowExecutionHistoryRequest)
    (offset : Int) (rows : List EventsRow) : InternalGetWorkflowExecutionHistoryResponse :=
  let s := scanRows env
    { history := [], lastEventBatchVersion := request.LastEventBatchVersion,
      offset := offset } rows
  let nextPageToken : Bytes :=
    if (rows.length : Int) ≥ request.PageSize then env.serializePageToken s.offset else []
  { History := s.history,
    LastEventBatchVersion := s.lastEventBatchVersion,
    NextPageToken := nextPageToken }

/-- The method `sqlHistoryManager.GetWorkflowExecutionHistory` (lines 75-136):
the result together with the log of driver calls. -/
def GetWorkflowExecutionHistory (env : SqlEnv) (db : DB)
    (request : InternalGetWorkflowExecutionHistoryRequest) :
    Except Err InternalGetWorkflowExecutionHistoryResponse × List DBCall :=
  match startOffset env request with
  | .error e => (.error e, [])
  | .ok offset =>
    let filter := selectFilter request offset
    match db.SelectFromEvents filter with
    | .error .ErrNoRows => (.ok emptyResponse, [.SelectFromEvents filter])
    | .ok [] => (.ok emptyResponse, [.SelectFromEvents filter])
    | .error err =>
      (.error (.InternalServiceError ("GetWorkflowExecutionHistory: " ++ err.text)),
        [.SelectFromEvents filter])
    | .ok rows => (.ok (buildResponse env request offset rows), [.SelectFromEvents filter])

/-! ## `sqlHistoryManager.AppendHistoryEvents` and the overwrite path -/

/-- The filter handed to `LockEvents` (lines 173-178). -/
def lockFilter (req : InternalAppendHistoryEventsRequest) (row : EventsRow) : EventsFilter :=
  { DomainID := row.DomainID,
    WorkflowID := req.Execution.WorkflowId,
    RunID := row.RunID,
    FirstEventID := some req.FirstEventID,
    NextEventID := none,
    PageSize := none }

/-- The function `lockEventForUpdate` (lines 172-193).  The row returned by
`LockEvents` replaces the parameter `row`, as in the source. -/
def lockEventForUpdate (tx : DB) (req : InternalAppendHistoryEventsRequest) (row : EventsRow) :
    Option Err × List DBCall :=
  let filter := lockFilter req row
  match tx.LockEvents filter with
  | .error err => (some err, [.LockEvents filter])
  | .ok row =>
    if row.RangeID > req.RangeID then
      (some (.ConditionFailedError
        ("expected rangedID <=" ++ toString req.RangeID ++ ", got " ++ toString row.RangeID)),
       [.LockEvents filter])
    else if row.TxID ≥ req.TransactionID then
      (some (.ConditionFailedError
        ("expected txID < " ++ toString req.TransactionID ++ ", got " ++ toString row.TxID)),
       [.LockEvents filter])
    else (none, [.LockEvents filter])

/-- The closure run inside the transaction by `overWriteHistoryEvents`
(lines 153-169). -/
def overWriteHistoryEventsTx (tx : DB) (request : InternalAppendHistoryEventsRequest)
    (row : EventsRow) : Option Err × List DBCall :=
  match lockEventForUpdate tx request row with
  | (some err, log) => (some err, log)
  | (none, log) =>
    match tx.UpdateEvents row with
    | .error err => (some err, log ++ [.UpdateEvents row])
    | .ok (.error err) => (some err, log ++ [.UpdateEvents row])
    | .ok (.ok rowsAffected) =>
      if rowsAffected ≠ 1 then
        (some (.errorString ("expected 1 row to be affected, got " ++ toString rowsAffected)),
         log ++ [.UpdateEvents row])
      else (none, log ++ [.UpdateEvents row])

/-- Modelled from the spec: `sqlStore.txExecute` is declared outside the sources.
Section 4.A: the closure runs inside one transaction.  Section 7: a
condition-failed error is surfaced to the caller as it is, and a driver error
is wrapped once at the store boundary as an internal-service-error.  Failures
to begin or to commit the transaction are not modelled. -/
def txExecute (operation : String) (body : Option Err) : Option Err :=
  match body with
  | none => none
  | some (.ConditionFailedError m) => some (.ConditionFailedError m)
  | some (.InternalServiceError m) => some (.InternalServiceError m)
  | some err => some (.InternalServiceError (operation ++ ": " ++ err.text))

/-- The method `sqlHistoryManager.overWriteHistoryEvents` (lines 152-170). -/
def overWriteHistoryEvents (db : DB) (request : InternalAppendHistoryEventsRequest)
    (row : EventsRow) : Option Err × List DBCall :=
  let r := overWriteHistoryEventsTx db request row
  (txExecute "AppendHistoryEvents" r.1, r.2)

/-- The row built from an append request (lines 51-61). -/
def appendRow (request : InternalAppendHistoryEventsRequest) : EventsRow :=
  { DomainID := request.DomainID,
    WorkflowID := request.Execution.WorkflowId,
    RunID := request.Execution.RunId,
    FirstEventID := request.FirstEventID,
    BatchVersion := request.EventBatchVersion,
    RangeID := request.RangeID,
    TxID := request.TransactionID,
    Data := request.Events.Data,
    DataEncoding := request.Events.Encoding }

/-- The method `sqlHistoryManager.AppendHistoryEvents` (lines 50-73): the
returned error together with the log of driver calls. -/
def AppendHistoryEvents (env : SqlEnv) (db : DB) (request : InternalAppendHistoryEventsRequest) :
    Option Err × List DBCall :=
  let row := appendRow request
  if request.Overwrite then overWriteHistoryEvents db request row
  else
    match db.InsertIntoEvents row with
    | some err =>
      match err with
      | .MySQLError number _ =>
        if number = env.ErrDupEntry then
          (some (.ConditionFailedError
            ("AppendHistoryEvents: event already exist: " ++ err.text)),
           [.InsertIntoEvents row])
        else
          (some (.InternalServiceError ("AppendHistoryEvents: " ++ err.text)),
           [.InsertIntoEvents row])
      | _ =>
        (some (.InternalServiceError ("AppendHistoryEvents: " ++ err.text)),
         [.InsertIntoEvents row])
    | none => (none, [.InsertIntoEvents row])

/-! ## A table of event rows behind the driver -/

/-- The key columns (domain, workflow, run) of a filter select a row. -/
def sameExecution (f : EventsFilter) (r : EventsRow) : Bool :=
  r.DomainID == f.DomainID && r.WorkflowID == f.WorkflowID && r.RunID == f.RunID

/-- The first-event-id of a row lies in the range `[FirstEventID, NextEventID)`
of a filter; an absent bound does not restrict. -/
def inRange (f : EventsFilter) (r : EventsRow) : Bool :=
  (match f.FirstEventID with
   | some a => decide (a ≤ r.FirstEventID)
   | none => true) &&
  (match f.NextEventID with
   | some b => decide (r.FirstEventID < b)
   | none => true)

/-- Modelled from the spec: the driver behind `SelectFromEvents` is declared
outside the sources.  Section 4.A: range scan by first-event-id in
`[first, next)` with a caller-supplied page size, rows returned in ascending
first-event-id order.  The table is the list of its rows in primary-key order,
so the scan keeps the matching rows in list order and cuts after `PageSize`. -/
def selectFromEvents (table : List EventsRow) (f : EventsFilter) : List EventsRow :=
  let rows := table.filter (fun r => sameExecution f r && inRange f r)
  match f.PageSize with
  | some n => rows.take n.toNat
  | none => rows

/-- The table lists the rows of every execution by strictly ascending
first-event-id: the primary key (domain, workflow, run, first-event-id) is
unique and the list is in key order. -/
def TableOrdered (table : List EventsRow) : Prop :=
  table.Pairwise (fun a b =>
    a.DomainID = b.DomainID → a.WorkflowID = b.WorkflowID → a.RunID = b.RunID →
      a.FirstEventID < b.FirstEventID)

/-- Modelled from the spec: a driver that answers from a fixed table
(section 4.A).  `InsertIntoEvents` reports the duplicate-entry code for an
existing primary key, `LockEvents` returns the row of the execution at the
first-event-id of the filter, `UpdateEvents` reports the number of rows with
the primary key of the row.  The table is the same for every call. -/
def tableDB (env : SqlEnv) (table : List EventsRow) : DB :=
  { InsertIntoEvents := fun row =>
      if table.any (fun r => r.DomainID == row.DomainID && r.WorkflowID == row.WorkflowID &&
          r.RunID == row.RunID && r.FirstEventID == row.FirstEventID)
      then some (.MySQLError env.ErrDupEntry "Duplicate entry") else none,
    SelectFromEvents := fun f => .ok (selectFromEvents table f),
    LockEvents := fun f =>
      match table.find? (fun r => sameExecution f r &&
          (f.FirstEventID == some r.FirstEventID)) with
      | some r => .ok r
      | none => .error .ErrNoRows,
    UpdateEvents := fun row =>
      .ok (.ok ((table.filter (fun r => r.DomainID == row.DomainID &&
          r.WorkflowID == row.WorkflowID && r.RunID == row.RunID &&
          r.FirstEventID == row.FirstEventID)).length : Int)) }

/-- Reading page by page: each response hands its `NextPageToken` and its
`LastEventBatchVersion` to the next request, until a response carries an empty
token; the batches of all pages are concatenated and the driver calls of all
reads are logged in order.  `none` means that the given number of reads did
not reach the last page. -/
def readAllPages (env : SqlEnv) (db : DB) :
    Nat → InternalGetWorkflowExecutionHistoryRequest →
      Option (Except Err (List DataBlob) × List DBCall)
  | 0, _ => none
  | fuel + 1, request =>
    match GetWorkflowExecutionHistory env db request with
    | (.error e, log) => some (.error e, log)
    | (.ok resp, log) =>
      if resp.NextPageToken.length = 0 then some (.ok resp.History, log)
      else
        match readAllPages env db fuel
            { request with NextPageToken := resp.NextPageToken,
                           LastEventBatchVersion := resp.LastEventBatchVersion } with
        | none => none
        | some (.error e, rest) => some (.error e, log ++ rest)
        | some (.ok batches, rest) => some (.ok (resp.History ++ batches), log ++ rest)

/-- The rows a log of driver calls scanned in a table: the rows returned to
each `SelectFromEvents` call, in call order. -/
def scannedRows (table : List EventsRow) (log : List DBCall) : List EventsRow :=
  log.flatMap (fun c =>
    match c with
    | .SelectFromEvents f => selectFromEvents table f
    | _ => [])

/-- The rows of the execution of a request whose first-event-id lies in
`[first, request.NextEventID)`, in table order. -/
def rowsInRange (table : List EventsRow) (request : InternalGetWorkflowExecutionHistoryRequest)
    (first : Int) : List EventsRow :=
  selectFromEvents table
    { DomainID := request.DomainID,
      WorkflowID := request.Execution.WorkflowId,
      RunID := request.Execution.RunId,
      FirstEventID := some first,
      NextEventID := some request.NextEventID,
      PageSize := none }

/-- Modelled from the spec: the constants and helpers declared outside the
sources, with the values the spec gives.  Section 3: the default version
EMPTY is -1.  Section 6: the duplicate-key code of MySQL is 1062, and a page
token encodes one int64 offset, is round-trippable, and is empty only for
start and no more pages; here the offset is written as eight base-256 digits,
least significant first. -/
def specEnv : SqlEnv :=
  { EmptyVersion := -1,
    ErrDupEntry := 1062,
    serializePageToken := fun offset =>
      (List.range 8).map (fun i => ((offset % 2 ^ 64).toNat / 256 ^ i) % 256),
    deserializePageToken := fun token =>
      if token.length = 8 then
        .ok (wrapInt64 ((List.range 8).foldl
          (fun acc i => acc + (token.getD i 0 : Int) * 256 ^ i) 0))
      else .error (.errorString "invalid token") }

/-! ## `DeleteWorkflowExecutionHistoryV2` (historyV2StoreUtil.go) -/

/-- The type `persistence.DeleteHistoryBranchRequest`. -/
structure DeleteHistoryBranchRequest where
  BranchToken : Bytes
  ShardID : Option Int
deriving DecidableEq, Repr

/-- The type `persistence.GetHistoryTreeRequest` (the fields the function sets). -/
structure GetHistoryTreeRequest where
  BranchToken : Bytes
  ShardID : Option Int
deriving DecidableEq, Repr

/-- The type `persistence.CompleteForkBranchRequest`. -/
structure CompleteForkBranchRequest where
  BranchToken : Bytes
  Success : Bool
  ShardID : Option Int
deriving DecidableEq, Repr

/-- The type `persistence.HistoryBranchDetail`; `ForkTime` is a point in time
in nanoseconds. -/
structure HistoryBranchDetail where
  TreeID : String
  BranchID : String
  ForkTime : Int
  Info : String
deriving DecidableEq, Repr

/-- The type `persistence.GetHistoryTreeResponse` (the field the function reads). -/
structure GetHistoryTreeResponse where
  ForkingInProgressBranches : List HistoryBranchDetail
deriving DecidableEq, Repr

/-- What `DeleteWorkflowExecutionHistoryV2` does to the outside, in order:
calls of the history V2 manager and the warning it logs (with the detail
string). -/
inductive V2Call where
  | DeleteHistoryBranch (request : DeleteHistoryBranchRequest)
  | GetHistoryTree (request : GetHistoryTreeRequest)
  | CompleteForkBranch (request : CompleteForkBranchRequest)
  | Warn (detailInfo : String)
deriving DecidableEq, Repr

/-- The surroundings of `DeleteWorkflowExecutionHistoryV2`.

The manager is stateful: every answer is a function of the calls made so far
and of the request, so that two equal requests may be answered differently.
`timeNow` is the reading of `time.Now()` (nanoseconds) after the given calls.
`NewHistoryBranchTokenFromAnother` is declared outside the sources. -/
structure V2World where
  DeleteHistoryBranch : List V2Call → DeleteHistoryBranchRequest → Option Err
  GetHistoryTree : List V2Call → GetHistoryTreeRequest → Except Err GetHistoryTreeResponse
  CompleteForkBranch : List V2Call → CompleteForkBranchRequest → Option Err
  timeNow : List V2Call → Int
  NewHistoryBranchTokenFromAnother : String → Bytes → Except Err Bytes

/-- The duration `time.Minute`, in nanoseconds. -/
def timeMinute : Int := 60 * 1000000000

/-- How the loop over the forks in progress ends: by a `return` from the
function, or by running out of forks. -/
inductive LoopExit where
  | returned (err : Err)
  | finished
deriving DecidableEq, Repr

/-- The loop `for _, br := range resp.ForkingInProgressBranches` (lines 96-120):
given the detail string and the call log so far, the way the loop ends with
the detail string and the call log at that point. -/
def forkLoop (w : V2World) (branchToken : Bytes) (shardID : Option Int) :
    List HistoryBranchDetail → String → List V2Call → LoopExit × String × List V2Call
  | [], logInfo, log => (.finished, logInfo, log)
  | br :: rest, logInfo, log =>
    if w.timeNow log > br.ForkTime + timeMinute then
      let logInfo1 := logInfo ++ ";" ++ br.Info
      match w.NewHistoryBranchTokenFromAnother br.BranchID branchToken with
      | .error err => (.returned err, logInfo1, log)
      | .ok bt =>
        let request : CompleteForkBranchRequest :=
          { Success := true, BranchToken := bt, ShardID := shardID }
        match w.CompleteForkBranch log request with
        | some err => (.returned err, logInfo1, log ++ [.CompleteForkBranch request])
        | none => forkLoop w branchToken shardID rest logInfo1 (log ++ [.CompleteForkBranch request])
    else
      (.returned (.ServiceBusyError "waiting for forking to complete"), logInfo, log)

/-- The function `DeleteWorkflowExecutionHistoryV2` (lines 67-127): the returned
error and the log of what it did.  The deferred warning is logged when the
function returns. -/
def DeleteWorkflowExecutionHistoryV2 (w : V2World) (branchToken : Bytes) (shardID : Option Int) :
    Option Err × List V2Call :=
  let del : DeleteHistoryBranchRequest := { BranchToken := branchToken, ShardID := shardID }
  match w.DeleteHistoryBranch [] del with
  | none => (none, [.DeleteHistoryBranch del])
  | some err =>
    if !err.isConditionFailed then (some err, [.DeleteHistoryBranch del])
    else
      let tree : GetHistoryTreeRequest := { BranchToken := branchToken, ShardID := shardID }
      let log1 : List V2Call := [.DeleteHistoryBranch del, .GetHistoryTree tree]
      match w.GetHistoryTree [.DeleteHistoryBranch del] tree with
      | .error err => (some err, log1)
      | .ok resp =>
        if resp.ForkingInProgressBranches.length > 0 then
          match forkLoop w branchToken shardID resp.ForkingInProgressBranches "" log1 with
          | (.returned err, logInfo, log) => (some err, log ++ [.Warn logInfo])
          | (.finished, logInfo, log) =>
            (w.DeleteHistoryBranch log del, log ++ [.DeleteHistoryBranch del, .Warn logInfo])
        else
          (w.DeleteHistoryBranch log1 del, log1 ++ [.DeleteHistoryBranch del])

/-! ## The shadow rule, in the words of the spec -/

/-- The shadow rule as the spec words it: scan the rows in order with a
running maximum `m`; a row is kept exactly when its version is at least the
running maximum at that point, and the running maximum then becomes the
version of that row.  `version` says which version a row is compared with. -/
def shadowRule (version : EventsRow → Int) : Int → List EventsRow → List EventsRow
  | _, [] => []
  | m, r :: rs =>
    if version r ≥ m then r :: shadowRule version (version r) rs
    else shadowRule version m rs

/-- The running maximum after the scan of the shadow rule. -/
def shadowMax (version : EventsRow → Int) : Int → List EventsRow → Int
  | m, [] => m
  | m, r :: rs =>
    if version r ≥ m then shadowMax version (version r) rs
    else shadowMax version m rs

/-- The first-event-id of the last row of a list, or the given default. -/
def lastFirstEventID (offset : Int) (rows : List EventsRow) : Int :=
  match rows.getLast? with
  | some r => r.FirstEventID
  | none => offset

/-! ## Sample values -/

/-- A row of the sample execution with the given first-event-id and stored
batch version. -/
def sampleRow (firstEventID batchVersion : Int) : EventsRow :=
  { DomainID := 1, WorkflowID := "wf", RunID := 2, FirstEventID := firstEventID,
    BatchVersion := batchVersion, RangeID := 1, TxID := 1,
    Data := [firstEventID.toNat], DataEncoding := "json" }

/-- A first-page read request for the sample execution. -/
def sampleRead (lastEventBatchVersion firstEventID nextEventID pageSize : Int) :
    InternalGetWorkflowExecutionHistoryRequest :=
  { LastEventBatchVersion := lastEventBatchVersion, DomainID := 1,
    Execution := { WorkflowId := "wf", RunId := 2 },
    FirstEventID := firstEventID, NextEventID := nextEventID,
    PageSize := pageSize, NextPageToken := [] }

/-- A driver whose `SelectFromEvents` returns the given rows whatever the
filter, and whose other calls fail. -/
def rowsDB (rows : List EventsRow) : DB :=
  { InsertIntoEvents := fun _ => some (.errorString "unused"),
    SelectFromEvents := fun _ => .ok rows,
    LockEvents := fun _ => .error (.errorString "unused"),
    UpdateEvents := fun _ => .error (.errorString "unused") }

/-- Three rows as `TestOverwriteAndShadowingHistoryEvents` leaves them: a
batch of version 123, its rewrite of version 1234 and a stale batch of
version 123 behind it. -/
def sampleRows : List EventsRow :=
  [sampleRow 7 123, sampleRow 8 1234, sampleRow 10 123]

/-- An append request for the sample execution at first-event-id 3. -/
def sampleAppend (rangeID transactionID : Int) (overwrite : Bool) :
    InternalAppendHistoryEventsRequest :=
  { DomainID := 1, Execution := { WorkflowId := "wf", RunId := 2 },
    FirstEventID := 3, EventBatchVersion := -1, RangeID := rangeID,
    TransactionID := transactionID,
    Events := { Encoding := "json", Data := [4] }, Overwrite := overwrite }

/-- A table of the sample execution: two batches of version 123, their rewrite
of version 1234 at first-event-id 8, a stale batch of version 123 behind it,
and a further batch of version 1234. -/
def sampleTable : List EventsRow :=
  [sampleRow 1 123, sampleRow 3 123, sampleRow 8 1234, sampleRow 10 123, sampleRow 13 1234]

/-! ## Vocabulary for the fork loop -/

/-- The token rebuilt for a fork in progress (line 100), when the rebuild
succeeds. -/
def rebuiltToken (w : V2World) (branchToken : Bytes) (br : HistoryBranchDetail) : Bytes :=
  match w.NewHistoryBranchTokenFromAnother br.BranchID branchToken with
  | .ok bt => bt
  | .error _ => []

/-- The request with which a stale fork is completed (lines 104-110). -/
def completeRequest (w : V2World) (branchToken : Bytes) (shardID : Option Int)
    (br : HistoryBranchDetail) : CompleteForkBranchRequest :=
  { Success := true, BranchToken := rebuiltToken w branchToken br, ShardID := shardID }

/-- One `CompleteForkBranch` call for each of the given forks, in list order. -/
def completeCalls (w : V2World) (branchToken : Bytes) (shardID : Option Int)
    (brs : List HistoryBranchDetail) : List V2Call :=
  brs.map (fun br => .CompleteForkBranch (completeRequest w branchToken shardID br))

/-- The detail string after the given forks were found stale (line 98). -/
def detailInfo (logInfo : String) (brs : List HistoryBranchDetail) : String :=
  brs.foldl (fun acc br => acc ++ ";" ++ br.Info) logInfo

/-- Every fork of the list is stale when the loop examines it, its token
rebuild succeeds and its `CompleteForkBranch` call succeeds.  The loop
examines a fork after the calls in `log` and the completion of the forks
listed before it. -/
def StaleCompleted (w : V2World) (branchToken : Bytes) (shardID : Option Int)
    (log : List V2Call) (brs : List HistoryBranchDetail) : Prop :=
  ∀ pre br post, brs = pre ++ br :: post →
    br.ForkTime + timeMinute < w.timeNow (log ++ completeCalls w branchToken shardID pre) ∧
    (∃ bt, w.NewHistoryBranchTokenFromAnother br.BranchID branchToken = .ok bt) ∧
    w.CompleteForkBranch (log ++ completeCalls w branchToken shardID pre)
      (completeRequest w branchToken shardID br) = none

/-- The request `DeleteWorkflowExecutionHistoryV2` deletes with (lines 68-71, 122-125). -/
def deleteRequest (branchToken : Bytes) (shardID : Option Int) : DeleteHistoryBranchRequest :=
  { BranchToken := branchToken, ShardID := shardID }

/-- The request with which the tree is read (lines 83-86). -/
def treeRequest (branchToken : Bytes) (shardID : Option Int) : GetHistoryTreeRequest :=
  { BranchToken := branchToken, ShardID := shardID }

/-- The call log when the fork loop starts. -/
def logBeforeLoop (branchToken : Bytes) (shardID : Option Int) : List V2Call :=
  [.DeleteHistoryBranch (deleteRequest branchToken shardID),
   .GetHistoryTree (treeRequest branchToken shardID)]

/-- The log entry is a `DeleteHistoryBranch` call. -/
def V2Call.isDeleteHistoryBranch : V2Call → Bool
  | .DeleteHistoryBranch _ => true
  | _ => false

/-- The fork in progress of the sample tree, forked at time 0. -/
def sampleFork : HistoryBranchDetail :=
  { TreeID := "tree", BranchID := "child", ForkTime := 0, Info := "fork of child" }

/-- A world for the delete protocol: the first `DeleteHistoryBranch` (no call
made before it) fails with `ConditionFailedError` and later ones succeed, the
tree lists `sampleFork` as in progress, `CompleteForkBranch` succeeds, the
clock reads `now` nanoseconds, and a rebuilt token puts the length of the
branch id before the token it is rebuilt from. -/
def sampleWorld (now : Int) : V2World :=
  { DeleteHistoryBranch := fun log _ =>
      if log.length = 0 then some (.ConditionFailedError "forking in progress") else none,
    GetHistoryTree := fun _ _ => .ok { ForkingInProgressBranches := [sampleFork] },
    CompleteForkBranch := fun _ _ => none,
    timeNow := fun _ => now,
    NewHistoryBranchTokenFromAnother := fun branchID token => .ok (branchID.length :: token) }

/-! ## Replication tasks (replicationTask.go) -/

/-- The type `shared.HistoryEvent`; the attributes of the event are an
uninterpreted payload. -/
structure HistoryEvent where
  EventId : Option Int
  Version : Option Int
  Attributes : Bytes
deriving DecidableEq, Repr

/-- The type `shared.History`: one batch of events. -/
structure History where
  Events : List HistoryEvent
deriving DecidableEq, Repr

/-- The type `shared.ReplicationInfo`. -/
structure ReplicationInfo where
  Version : Option Int
  LastEventId : Option Int
deriving DecidableEq, Repr

/-- The type `definition.WorkflowIdentifier`. -/
structure WorkflowIdentifier where
  DomainID : String
  WorkflowID : String
  RunID : String
deriving DecidableEq, Repr

/-- The metric scopes of package `metrics` the tasks use. -/
inductive MetricScope where
  | SyncActivityTaskScope
  | HistoryReplicationTaskScope
  | HistoryMetadataReplicationTaskScope
  | HistoryRereplicationByActivityReplicationScope
  | HistoryRereplicationByHistoryReplicationScope
  | HistoryRereplicationByHistoryMetadataReplicationScope
deriving DecidableEq, Repr

/-- The metric names of package `metrics` the tasks use. -/
inductive MetricName where
  | CadenceClientRequests
  | CadenceClientLatency
  | ReplicatorMessages
  | ReplicatorLatency
deriving DecidableEq, Repr

/-- The type `replicator.SyncActicvityTaskAttributes`; pointer fields are
optional. -/
structure SyncActicvityTaskAttributes where
  DomainId : Option String
  WorkflowId : Option String
  RunId : Option String
  Version : Option Int
  ScheduledId : Option Int
  ScheduledTime : Option Int
  StartedId : Option Int
  StartedTime : Option Int
  LastHeartbeatTime : Option Int
  Details : Bytes
  Attempt : Option Int
  LastFailureReason : Option String
  LastWorkerIdentity : Option String
  LastFailureDetails : Bytes
deriving DecidableEq, Repr

/-- The type `replicator.HistoryTaskAttributes`. -/
structure HistoryTaskAttributes where
  TargetClusters : List String
  DomainId : Option String
  WorkflowId : Option String
  RunId : Option String
  FirstEventId : Option Int
  NextEventId : Option Int
  Version : Option Int
  ReplicationInfo : List (String × Cadence.ReplicationInfo)
  History : Option Cadence.History
  NewRunHistory : Option Cadence.History
  EventStoreVersion : Option Int
  NewRunEventStoreVersion : Option Int
  ResetWorkflow : Option Bool
  NewRunNDC : Option Bool
deriving DecidableEq, Repr

/-- The type `replicator.HistoryMetadataTaskAttributes`. -/
structure HistoryMetadataTaskAttributes where
  TargetClusters : List String
  DomainId : Option String
  WorkflowId : Option String
  RunId : Option String
  FirstEventId : Option Int
  NextEventId : Option Int
deriving DecidableEq, Repr

/-- The type `history.SyncActivityRequest`. -/
structure SyncActivityRequest where
  DomainId : Option String
  WorkflowId : Option String
  RunId : Option String
  Version : Option Int
  ScheduledId : Option Int
  ScheduledTime : Option Int
  StartedId : Option Int
  StartedTime : Option Int
  LastHeartbeatTime : Option Int
  Details : Bytes
  Attempt : Option Int
  LastFailureReason : Option String
  LastWorkerIdentity : Option String
  LastFailureDetails : Bytes
deriving DecidableEq, Repr

/-- The type `shared.WorkflowExecution` as the thrift code generates it, with
pointer fields. -/
structure SharedWorkflowExecution where
  WorkflowId : Option String
  RunId : Option String
deriving DecidableEq, Repr

/-- The type `history.ReplicateEventsRequest`. -/
structure ReplicateEventsRequest where
  SourceCluster : Option String
  DomainUUID : Option String
  WorkflowExecution : Option SharedWorkflowExecution
  FirstEventId : Option Int
  NextEventId : Option Int
  Version : Option Int
  ReplicationInfo : List (String × Cadence.ReplicationInfo)
  History : Option Cadence.History
  NewRunHistory : Option Cadence.History
  ForceBufferEvents : Option Bool
  EventStoreVersion : Option Int
  NewRunEventStoreVersion : Option Int
  ResetWorkflow : Option Bool
  NewRunNDC : Option Bool
deriving DecidableEq, Repr

/-- What a replication task does to the outside, in order: calls of the
history client and of the history rereplicator, metrics, error logs of the
task, and sleeps.  `LockID` and `UnlockID` stand for the acquire and the
release of the id-keyed mutex in the field `resendLock` (line 58), whose type
`locks.IDMutex` is declared outside the sources. -/
inductive ReplCall where
  | SyncActivity (request : SyncActivityRequest)
  | ReplicateEvents (request : ReplicateEventsRequest)
  | SendMultiWorkflowHistory (domainID workflowID beginRunID : String) (beginEventID : Int)
      (endRunID : String) (endEventID : Int)
  | IncCounter (scope : MetricScope) (name : MetricName)
  | StartTimer (scope : MetricScope) (name : MetricName)
  | StopTimer (scope : MetricScope) (name : MetricName)
  | LogError (msg : String) (err : Err)
  | Sleep (nanoseconds : Int)
  | LockID (identifier : String)
  | UnlockID (identifier : String)
deriving DecidableEq, Repr

/-- The log entry is a `SendMultiWorkflowHistory` call. -/
def ReplCall.isSendMultiWorkflowHistory : ReplCall → Bool
  | .SendMultiWorkflowHistory _ _ _ _ _ _ => true
  | _ => false

/-- The log entry is a call of the history client, that is, the call an
`Execute` of an activity or history task makes. -/
def ReplCall.isHistoryClientCall : ReplCall → Bool
  | .SyncActivity _ => true
  | .ReplicateEvents _ => true
  | _ => false

/-- The values the functions of the dynamic configuration `Config` return. -/
structure ReplicatorConfig where
  ReplicatorActivityBufferRetryCount : Int
  ReplicatorHistoryBufferRetryCount : Int
  ReplicationTaskMaxRetryCount : Int
  /-- A duration in nanoseconds. -/
  ReplicationTaskMaxRetryDuration : Int
deriving DecidableEq, Repr

/-- The surroundings of a replication task.

The history client and the history rereplicator are stateful: every answer
is a function of the calls made so far and of the arguments.  `timeNow` is
the reading of `timeSource.Now()` (nanoseconds) after the given calls.
`config` holds the values the configuration functions return.
`isTransientRetryableError` is declared outside the sources.  Contexts and
their timeouts are not modelled. -/
structure ReplWorld where
  SyncActivity : List ReplCall → SyncActivityRequest → Option Err
  ReplicateEvents : List ReplCall → ReplicateEventsRequest → Option Err
  SendMultiWorkflowHistory : List ReplCall → String → String → String → Int → String → Int →
    Option Err
  timeNow : List ReplCall → Int
  config : ReplicatorConfig
  isTransientRetryableError : Err → Bool

/-- The type `workflowReplicationTask` (lines 44-59): the fields that hold
data; the message, the logger and the clients are in the surroundings. -/
structure workflowReplicationTask where
  metricsScope : MetricScope
  startTime : Int
  queueID : WorkflowIdentifier
  taskID : Int
  attempt : Int
deriving DecidableEq, Repr

/-- The type `activityReplicationTask` (lines 61-64). -/
structure activityReplicationTask extends workflowReplicationTask where
  req : SyncActivityRequest
deriving DecidableEq, Repr

/-- The type `historyReplicationTask` (lines 66-69). -/
structure historyReplicationTask extends workflowReplicationTask where
  req : ReplicateEventsRequest
deriving DecidableEq, Repr

/-- The type `historyMetadataReplicationTask` (lines 71-76). -/
structure historyMetadataReplicationTask extends workflowReplicationTask where
  sourceCluster : String
  firstEventID : Int
  nextEventID : Int
deriving DecidableEq, Repr

/-- The constant `replicationTaskRetryDelay` (line 84), 500 microseconds in
nanoseconds. -/
def replicationTaskRetryDelay : Int := 500 * 1000

/-- The function `newActivityReplicationTask` (lines 87-132), for a task
message that carries activity attributes; `now` is the reading of
`timeSource.Now()`. -/
def newActivityReplicationTask (attr : SyncActicvityTaskAttributes) (now : Int) :
    activityReplicationTask :=
  { metricsScope := .SyncActivityTaskScope,
    startTime := now,
    queueID := { DomainID := attr.DomainId.getD "", WorkflowID := attr.WorkflowId.getD "",
                 RunID := attr.RunId.getD "" },
    taskID := attr.ScheduledId.getD 0,
    attempt := 0,
    req :=
      { DomainId := attr.DomainId,
        WorkflowId := attr.WorkflowId,
        RunId := attr.RunId,
        Version := attr.Version,
        ScheduledId := attr.ScheduledId,
        ScheduledTime := attr.ScheduledTime,
        StartedId := attr.StartedId,
        StartedTime := attr.StartedTime,
        LastHeartbeatTime := attr.LastHeartbeatTime,
        Details := attr.Details,
        Attempt := attr.Attempt,
        LastFailureReason := attr.LastFailureReason,
        LastWorkerIdentity := attr.LastWorkerIdentity,
        LastFailureDetails := attr.LastFailureDetails } }

/-- The function `newHistoryReplicationTask` (lines 134-182). -/
def newHistoryReplicationTask (attr : HistoryTaskAttributes) (sourceCluster : String)
    (now : Int) : historyReplicationTask :=
  { metricsScope := .HistoryReplicationTaskScope,
    startTime := now,
    queueID := { DomainID := attr.DomainId.getD "", WorkflowID := attr.WorkflowId.getD "",
                 RunID := attr.RunId.getD "" },
    taskID := attr.FirstEventId.getD 0,
    attempt := 0,
    req :=
      { SourceCluster := some sourceCluster,
        DomainUUID := attr.DomainId,
        WorkflowExecution := some { WorkflowId := attr.WorkflowId, RunId := attr.RunId },
        FirstEventId := attr.FirstEventId,
        NextEventId := attr.NextEventId,
        Version := attr.Version,
        ReplicationInfo := attr.ReplicationInfo,
        History := attr.History,
        NewRunHistory := attr.NewRunHistory,
        ForceBufferEvents := some false,
        EventStoreVersion := attr.EventStoreVersion,
        NewRunEventStoreVersion := attr.NewRunEventStoreVersion,
        ResetWorkflow := attr.ResetWorkflow,
        NewRunNDC := attr.NewRunNDC } }

/-- The function `newHistoryMetadataReplicationTask` (lines 184-215). -/
def newHistoryMetadataReplicationTask (attr : HistoryMetadataTaskAttributes)
    (sourceCluster : String) (now : Int) : historyMetadataReplicationTask :=
  { metricsScope := .HistoryMetadataReplicationTaskScope,
    startTime := now,
    queueID := { DomainID := attr.DomainId.getD "", WorkflowID := attr.WorkflowId.getD "",
                 RunID := attr.RunId.getD "" },
    taskID := attr.FirstEventId.getD 0,
    attempt := 0,
    sourceCluster := sourceCluster,
    firstEventID := attr.FirstEventId.getD 0,
    nextEventID := attr.NextEventId.getD 0 }

/-- The method `workflowReplicationTask.convertRetryTaskError` (lines 371-374)
followed by the getters `GetRunId` and `GetNextEventId`: for a
`RetryTaskError` the run id (empty when unset) and the next event id (0 when
unset), for any other error nothing. -/
def convertRetryTaskError : Err → Option (String × Int)
  | .RetryTaskError _ _ _ runId nextEventId => some (runId.getD "", nextEventId.getD 0)
  | _ => none

/-- The method `activityReplicationTask.Execute` (lines 217-221), run after the
calls in `log`. -/
def activityReplicationTask.Execute (w : ReplWorld) (t : activityReplicationTask)
    (log : List ReplCall) : Option Err × List ReplCall :=
  (w.SyncActivity log t.req, log ++ [.SyncActivity t.req])

/-- The method `activityReplicationTask.HandleErr` (lines 223-254). -/
def activityReplicationTask.HandleErr (w : ReplWorld) (t : activityReplicationTask)
    (err : Err) (log : List ReplCall) : Option Err × List ReplCall :=
  if t.attempt < w.config.ReplicatorActivityBufferRetryCount then (some err, log)
  else
    match convertRetryTaskError err with
    | none => (some err, log)
    | some (runId, nextEventId) =>
      if runId = "" then (some err, log)
      else
        let log1 := log ++
          [.IncCounter .HistoryRereplicationByActivityReplicationScope .CadenceClientRequests,
           .StartTimer .HistoryRereplicationByActivityReplicationScope .CadenceClientLatency]
        let beginRunID := runId
        let beginEventID := nextEventId
        let endRunID := t.queueID.RunID
        let endEventID := wrapInt64 (t.taskID + 1)
        let log2 := log1 ++ [.SendMultiWorkflowHistory t.queueID.DomainID t.queueID.WorkflowID
          beginRunID beginEventID endRunID endEventID]
        match w.SendMultiWorkflowHistory log1 t.queueID.DomainID t.queueID.WorkflowID
            beginRunID beginEventID endRunID endEventID with
        | some resendErr =>
          (some err, log2 ++ [.LogError "error resend history" resendErr,
            .StopTimer .HistoryRereplicationByActivityReplicationScope .CadenceClientLatency])
        | none =>
          let r := t.Execute w log2
          (r.1, r.2 ++
            [.StopTimer .HistoryRereplicationByActivityReplicationScope .CadenceClientLatency])

/-- The method `historyReplicationTask.Execute` (lines 256-260). -/
def historyReplicationTask.Execute (w : ReplWorld) (t : historyReplicationTask)
    (log : List ReplCall) : Option Err × List ReplCall :=
  (w.ReplicateEvents log t.req, log ++ [.ReplicateEvents t.req])

/-- The method `historyReplicationTask.HandleErr` (lines 262-292). -/
def historyReplicationTask.HandleErr (w : ReplWorld) (t : historyReplicationTask)
    (err : Err) (log : List ReplCall) : Option Err × List ReplCall :=
  if t.attempt < w.config.ReplicatorHistoryBufferRetryCount then (some err, log)
  else
    match convertRetryTaskError err with
    | none => (some err, log)
    | some (runId, nextEventId) =>
      if runId = "" then (some err, log)
      else
        let log1 := log ++
          [.IncCounter .HistoryRereplicationByHistoryReplicationScope .CadenceClientRequests,
           .StartTimer .HistoryRereplicationByHistoryReplicationScope .CadenceClientLatency]
        let beginRunID := runId
        let beginEventID := nextEventId
        let endRunID := t.queueID.RunID
        let endEventID := t.taskID
        let log2 := log1 ++ [.SendMultiWorkflowHistory t.queueID.DomainID t.queueID.WorkflowID
          beginRunID beginEventID endRunID endEventID]
        match w.SendMultiWorkflowHistory log1 t.queueID.DomainID t.queueID.WorkflowID
            beginRunID beginEventID endRunID endEventID with
        | some resendErr =>
          (some err, log2 ++ [.LogError "error resend history" resendErr,
            .StopTimer .HistoryRereplicationByHistoryReplicationScope .CadenceClientLatency])
        | none =>
          let r := t.Execute w log2
          (r.1, r.2 ++
            [.StopTimer .HistoryRereplicationByHistoryReplicationScope .CadenceClientLatency])

/-- The method `historyMetadataReplicationTask.Execute` (lines 294-304). -/
def historyMetadataReplicationTask.Execute (w : ReplWorld)
    (t : historyMetadataReplicationTask) (log : List ReplCall) : Option Err × List ReplCall :=
  let log1 := log ++
    [.IncCounter .HistoryRereplicationByHistoryMetadataReplicationScope .CadenceClientRequests,
     .StartTimer .HistoryRereplicationByHistoryMetadataReplicationScope .CadenceClientLatency]
  (w.SendMultiWorkflowHistory log1 t.queueID.DomainID t.queueID.WorkflowID
      t.queueID.RunID t.firstEventID t.queueID.RunID t.nextEventID,
    log1 ++ [.SendMultiWorkflowHistory t.queueID.DomainID t.queueID.WorkflowID
        t.queueID.RunID t.firstEventID t.queueID.RunID t.nextEventID,
      .StopTimer .HistoryRereplicationByHistoryMetadataReplicationScope .CadenceClientLatency])

/-- The method `historyMetadataReplicationTask.HandleErr` (lines 306-332). -/
def historyMetadataReplicationTask.HandleErr (w : ReplWorld)
    (t : historyMetadataReplicationTask) (err : Err) (log : List ReplCall) :
    Option Err × List ReplCall :=
  match convertRetryTaskError err with
  | none => (some err, log)
  | some (runId, nextEventId) =>
    if runId = "" then (some err, log)
    else
      let log1 := log ++
        [.IncCounter .HistoryRereplicationByHistoryReplicationScope .CadenceClientRequests,
         .StartTimer .HistoryRereplicationByHistoryReplicationScope .CadenceClientLatency]
      let beginRunID := runId
      let beginEventID := nextEventId
      let endRunID := t.queueID.RunID
      let endEventID := t.taskID
      let log2 := log1 ++ [.SendMultiWorkflowHistory t.queueID.DomainID t.queueID.WorkflowID
        beginRunID beginEventID endRunID endEventID]
      match w.SendMultiWorkflowHistory log1 t.queueID.DomainID t.queueID.WorkflowID
          beginRunID beginEventID endRunID endEventID with
      | some resendErr =>
        (some err, log2 ++ [.LogError "error resend history" resendErr,
          .StopTimer .HistoryRereplicationByHistoryReplicationScope .CadenceClientLatency])
      | none =>
        let r := t.Execute w log2
        (r.1, r.2 ++
          [.StopTimer .HistoryRereplicationByHistoryReplicationScope .CadenceClientLatency])

/-- The method `workflowReplicationTask.RetryErr` (lines 334-345): the answer,
the task with its attempt incremented, and the log.  `attempt` is an `int` of
64 bits. -/
def workflowReplicationTask.RetryErr (w : ReplWorld) (t : workflowReplicationTask)
    (err : Err) (log : List ReplCall) : Bool × workflowReplicationTask × List ReplCall :=
  let t1 : workflowReplicationTask := { t with attempt := wrapInt64 (t.attempt + 1) }
  if t1.attempt ≤ w.config.ReplicationTaskMaxRetryCount ∧
      w.timeNow log - t1.startTime ≤ w.config.ReplicationTaskMaxRetryDuration ∧
      w.isTransientRetryableError err = true then
    (true, t1, log ++ [.Sleep replicationTaskRetryDelay])
  else (false, t1, log)

/-- Successive `RetryErr` calls on one task, one for each of the given errors:
the answers in order. -/
def retryAnswers (w : ReplWorld) :
    workflowReplicationTask → List Err → List ReplCall → List Bool
  | _, [], _ => []
  | t, err :: errs, log =>
    let r := t.RetryErr w err log
    r.1 :: retryAnswers w r.2.1 errs r.2.2

/-- A retry-task error that asks for re-replication from run `run-0`, event 50. -/
def sampleRetryError : Err :=
  .RetryTaskError "retry task" (some "domain") (some "wf") (some "run-0") (some 50)

/-- The attributes of the history task of the re-replication scenario: first
event id 100, next event id 110. -/
def sampleHistoryAttributes : HistoryTaskAttributes :=
  { TargetClusters := [], DomainId := some "domain", WorkflowId := some "wf",
    RunId := some "run-1", FirstEventId := some 100, NextEventId := some 110,
    Version := some 1, ReplicationInfo := [], History := none, NewRunHistory := none,
    EventStoreVersion := none, NewRunEventStoreVersion := none, ResetWorkflow := none,
    NewRunNDC := none }

/-- The attributes of an activity task scheduled at event 7. -/
def sampleActivityAttributes : SyncActicvityTaskAttributes :=
  { DomainId := some "domain", WorkflowId := some "wf", RunId := some "run-1",
    Version := some 1, ScheduledId := some 7, ScheduledTime := none, StartedId := none,
    StartedTime := none, LastHeartbeatTime := none, Details := [], Attempt := none,
    LastFailureReason := none, LastWorkerIdentity := none, LastFailureDetails := [] }

/-- The attributes of a history-metadata task for events 100 to 110. -/
def sampleMetadataAttributes : HistoryMetadataTaskAttributes :=
  { TargetClusters := [], DomainId := some "domain", WorkflowId := some "wf",
    RunId := some "run-1", FirstEventId := some 100, NextEventId := some 110 }

/-- Surroundings for the replication tasks: the history client succeeds, the
rereplicator answers `resend`, the clock reads 0, both buffer retry counts
are 3, at most 5 retries within one second, and service-busy and
internal-service errors are transient. -/
def sampleReplWorld (resend : Option Err) : ReplWorld :=
  { SyncActivity := fun _ _ => none,
    ReplicateEvents := fun _ _ => none,
    SendMultiWorkflowHistory := fun _ _ _ _ _ _ _ => resend,
    timeNow := fun _ => 0,
    config :=
      { ReplicatorActivityBufferRetryCount := 3,
        ReplicatorHistoryBufferRetryCount := 3,
        ReplicationTaskMaxRetryCount := 5,
        ReplicationTaskMaxRetryDuration := 1000000000 },
    isTransientRetryableError := fun e => e.isServiceBusy || e.isInternalService }

/-- An error that is not a retry-task error with a run id. -/
def notRetryWithRun (err : Err) : Prop :=
  convertRetryTaskError err = none ∨ ∃ nextEventId, convertRetryTaskError err = some ("", nextEventId)

/-! ## `ReadFullPageV2Events` (historyV2StoreUtil.go) -/

/-- The type `persistence.ReadHistoryBranchRequest`. -/
structure ReadHistoryBranchRequest where
  BranchToken : Bytes
  MinNodeID : Int
  MaxNodeID : Int
  PageSize : Int
  NextPageToken : Bytes
  ShardID : Option Int
deriving DecidableEq, Repr

/-- The type `persistence.ReadHistoryBranchResponse`. -/
structure ReadHistoryBranchResponse where
  HistoryEvents : List HistoryEvent
  NextPageToken : Bytes
  Size : Int
  LastFirstEventID : Int
deriving DecidableEq, Repr

/-- The type `persistence.ReadHistoryBranchByBatchResponse`. -/
structure ReadHistoryBranchByBatchResponse where
  History : List History
  NextPageToken : Bytes
  Size : Int
  LastFirstEventID : Int
deriving DecidableEq, Repr

/-- The read methods of `HistoryV2Manager`.  The manager is stateful: every
answer is a function of the read requests made so far and of the request. -/
structure HistoryReader where
  ReadHistoryBranch :
    List ReadHistoryBranchRequest → ReadHistoryBranchRequest →
      Except Err ReadHistoryBranchResponse
  ReadHistoryBranchByBatch :
    List ReadHistoryBranchRequest → ReadHistoryBranchRequest →
      Except Err ReadHistoryBranchByBatchResponse

/-- The loop of `ReadFullPageV2Events` (lines 135-146) with its local state:
the request (whose `NextPageToken` the loop overwrites), the events and the
size gathered so far, and the read requests made so far.  The result is the
returned value, the request as the loop leaves it, and the read requests
made; `none` means that the given number of reads did not end the loop.
`size` is an `int` of 64 bits. -/
def ReadFullPageV2EventsLoop (mgr : HistoryReader) :
    Nat → ReadHistoryBranchRequest → List HistoryEvent → Int → List ReadHistoryBranchRequest →
      Option (Except Err (List HistoryEvent × Int × Bytes) × ReadHistoryBranchRequest ×
        List ReadHistoryBranchRequest)
  | 0, _, _, _, _ => none
  | fuel + 1, req, historyEvents, size, calls =>
    match mgr.ReadHistoryBranch calls req with
    | .error err => some (.error err, req, calls ++ [req])
    | .ok response =>
      if ((historyEvents ++ response.HistoryEvents).length : Int) ≥ req.PageSize ∨
          response.NextPageToken.length = 0 then
        some (.ok (historyEvents ++ response.HistoryEvents, wrapInt64 (size + response.Size),
          response.NextPageToken), req, calls ++ [req])
      else
        ReadFullPageV2EventsLoop mgr fuel { req with NextPageToken := response.NextPageToken }
          (historyEvents ++ response.HistoryEvents) (wrapInt64 (size + response.Size))
          (calls ++ [req])

/-- The function `ReadFullPageV2Events` (lines 132-147), allowed the given
number of reads. -/
def ReadFullPageV2Events (mgr : HistoryReader) (fuel : Nat) (req : ReadHistoryBranchRequest) :
    Option (Except Err (List HistoryEvent × Int × Bytes) × ReadHistoryBranchRequest ×
      List ReadHistoryBranchRequest) :=
  ReadFullPageV2EventsLoop mgr fuel req [] 0 []

/-- The request made after the given pages were read: the first request with
the `NextPageToken` of the last page read. -/
def requestAfter (req : ReadHistoryBranchRequest) (pages : List ReadHistoryBranchResponse) :
    ReadHistoryBranchRequest :=
  pages.foldl (fun r p => { r with NextPageToken := p.NextPageToken }) req

/-- The requests with which the given pages are read, in order: the first
request, then for each further page the request that carries the token of the
page before it. -/
def pageRequests (req : ReadHistoryBranchRequest) :
    List ReadHistoryBranchResponse → List ReadHistoryBranchRequest
  | [] => []
  | p :: ps => req :: pageRequests { req with NextPageToken := p.NextPageToken } ps

/-- The events of the given pages, concatenated in order. -/
def pageEvents (pages : List ReadHistoryBranchResponse) : List HistoryEvent :=
  pages.flatMap (fun p => p.HistoryEvents)

/-- The pages the manager returns to the successive reads of a full-page
read, the last of them being the first page at which the number of events
gathered (those in `seen` and those of the pages so far) reaches
`req.PageSize` or whose `NextPageToken` is empty.  The reads follow the
requests in `calls`. -/
def ReadsPages (mgr : HistoryReader) (req : ReadHistoryBranchRequest)
    (seen : List HistoryEvent) (calls : List ReadHistoryBranchRequest)
    (pages : List ReadHistoryBranchResponse) : Prop :=
  ∀ pre p post, pages = pre ++ p :: post →
    mgr.ReadHistoryBranch (calls ++ pageRequests req pre) (requestAfter req pre) = .ok p ∧
    ((((seen ++ pageEvents (pre ++ [p])).length : Int) ≥ req.PageSize ∨
        p.NextPageToken.length = 0) ↔ post = [])

/-- A page with `n` events, the given token and the given size. -/
def samplePage (n : Nat) (token : Bytes) (size : Int) : ReadHistoryBranchResponse :=
  { HistoryEvents :=
      (List.range n).map (fun i => { EventId := some i, Version := none, Attributes := [] }),
    NextPageToken := token, Size := size, LastFirstEventID := 0 }

/-- A manager that answers the first read with a page of 2 events and the
second with a page of 3 events, both with a token, and fails afterwards. -/
def sampleReader : HistoryReader :=
  { ReadHistoryBranch := fun calls _ =>
      match calls.length with
      | 0 => .ok (samplePage 2 [1] 10)
      | 1 => .ok (samplePage 3 [2] 20)
      | _ => .error (.errorString "no more pages"),
    ReadHistoryBranchByBatch := fun _ _ => .error (.errorString "unused") }

/-- A read request with page size 4. -/
def sampleReadRequest : ReadHistoryBranchRequest :=
  { BranchToken := [7], MinNodeID := 1, MaxNodeID := 100, PageSize := 4,
    NextPageToken := [], ShardID := some 1 }

/-! ## `ReadFullPageV2EventsByBatch` and `GetBeginNodeID` (historyV2StoreUtil.go) -/

/-- The loop of `ReadFullPageV2EventsByBatch` (lines 156-170) with its local
state: the request (whose `NextPageToken` the loop overwrites), the batches
gathered, the number of events read, the size gathered, and the read requests
made so far.  The result is the returned value, the request as the loop
leaves it, and the read requests made; `none` means that the given number of
reads did not end the loop.  `size` is an `int` of 64 bits; `eventsRead`
counts events held in memory, which stay below that bound. -/
def ReadFullPageV2EventsByBatchLoop (mgr : HistoryReader) :
    Nat → ReadHistoryBranchRequest → List History → Int → Int →
      List ReadHistoryBranchRequest →
      Option (Except Err (List History × Int × Bytes) × ReadHistoryBranchRequest ×
        List ReadHistoryBranchRequest)
  | 0, _, _, _, _, _ => none
  | fuel + 1, req, historyBatches, eventsRead, size, calls =>
    match mgr.ReadHistoryBranchByBatch calls req with
    | .error err => some (.error err, req, calls ++ [req])
    | .ok response =>
      let eventsRead1 :=
        response.History.foldl (fun n batch => n + (batch.Events.length : Int)) eventsRead
      if eventsRead1 ≥ req.PageSize ∨ response.NextPageToken.length = 0 then
        some (.ok (historyBatches ++ response.History, wrapInt64 (size + response.Size),
          response.NextPageToken), req, calls ++ [req])
      else
        ReadFullPageV2EventsByBatchLoop mgr fuel
          { req with NextPageToken := response.NextPageToken }
          (historyBatches ++ response.History) eventsRead1 (wrapInt64 (size + response.Size))
          (calls ++ [req])

/-- The function `ReadFullPageV2EventsByBatch` (lines 152-171), allowed the
given number of reads. -/
def ReadFullPageV2EventsByBatch (mgr : HistoryReader) (fuel : Nat)
    (req : ReadHistoryBranchRequest) :
    Option (Except Err (List History × Int × Bytes) × ReadHistoryBranchRequest ×
      List ReadHistoryBranchRequest) :=
  ReadFullPageV2EventsByBatchLoop mgr fuel req [] 0 0 []

/-- The number of events in the batches of a page. -/
def batchEventCount (batches : List History) : Int :=
  (batches.map (fun batch => (batch.Events.length : Int))).sum

/-- The request made after the given batch pages were read. -/
def batchRequestAfter (req : ReadHistoryBranchRequest)
    (pages : List ReadHistoryBranchByBatchResponse) : ReadHistoryBranchRequest :=
  pages.foldl (fun r p => { r with NextPageToken := p.NextPageToken }) req

/-- The requests with which the given batch pages are read, in order. -/
def batchPageRequests (req : ReadHistoryBranchRequest) :
    List ReadHistoryBranchByBatchResponse → List ReadHistoryBranchRequest
  | [] => []
  | p :: ps => req :: batchPageRequests { req with NextPageToken := p.NextPageToken } ps

/-- The batches of the given pages, concatenated in order. -/
def pageBatches (pages : List ReadHistoryBranchByBatchResponse) : List History :=
  pages.flatMap (fun p => p.History)

/-- The pages the manager returns to the successive reads of a full-page read
by batch, the last of them being the first page at which the number of events
read (`seen` and the events of all batches of the pages so far) reaches
`req.PageSize` or whose `NextPageToken` is empty.  The reads follow the
requests in `calls`. -/
def ReadsBatchPages (mgr : HistoryReader) (req : ReadHistoryBranchRequest) (seen : Int)
    (calls : List ReadHistoryBranchRequest) (pages : List ReadHistoryBranchByBatchResponse) :
    Prop :=
  ∀ pre p post, pages = pre ++ p :: post →
    mgr.ReadHistoryBranchByBatch (calls ++ batchPageRequests req pre)
        (batchRequestAfter req pre) = .ok p ∧
    ((seen + batchEventCount (pageBatches (pre ++ [p])) ≥ req.PageSize ∨
        p.NextPageToken.length = 0) ↔ post = [])

/-- Pages the manager returns to successive reads none of which ends a
full-page read: after each of them fewer than `req.PageSize` events are
gathered and its `NextPageToken` is not empty. -/
def ReadsOn (mgr : HistoryReader) (req : ReadHistoryBranchRequest) (seen : List HistoryEvent)
    (calls : List ReadHistoryBranchRequest) (pages : List ReadHistoryBranchResponse) : Prop :=
  ∀ pre p post, pages = pre ++ p :: post →
    mgr.ReadHistoryBranch (calls ++ pageRequests req pre) (requestAfter req pre) = .ok p ∧
    ¬ ((((seen ++ pageEvents (pre ++ [p])).length : Int) ≥ req.PageSize ∨
        p.NextPageToken.length = 0))

/-- Batch pages the manager returns to successive reads none of which ends a
full-page read by batch. -/
def ReadsBatchOn (mgr : HistoryReader) (req : ReadHistoryBranchRequest) (seen : Int)
    (calls : List ReadHistoryBranchRequest) (pages : List ReadHistoryBranchByBatchResponse) :
    Prop :=
  ∀ pre p post, pages = pre ++ p :: post →
    mgr.ReadHistoryBranchByBatch (calls ++ batchPageRequests req pre)
        (batchRequestAfter req pre) = .ok p ∧
    ¬ (seen + batchEventCount (pageBatches (pre ++ [p])) ≥ req.PageSize ∨
        p.NextPageToken.length = 0)

/-- The type `shared.HistoryBranchRange`; pointer fields are optional. -/
structure HistoryBranchRange where
  BranchID : Option String
  BeginNodeID : Option Int
  EndNodeID : Option Int
deriving DecidableEq, Repr

/-- The type `shared.HistoryBranch`. -/
structure HistoryBranch where
  TreeID : Option String
  BranchID : Option String
  Ancestors : List HistoryBranchRange
deriving DecidableEq, Repr

/-- The function `GetBeginNodeID` (lines 174-181).  `none` stands for the panic
of dereferencing an `EndNodeID` that is not set. -/
def GetBeginNodeID (bi : HistoryBranch) : Option Int :=
  if bi.Ancestors.length = 0 then some 1
  else
    let idx := bi.Ancestors.length - 1
    match bi.Ancestors.get? idx with
    | some ancestor => ancestor.EndNodeID
    | none => none

/-- The log entry is a call of the id-keyed mutex. -/
def ReplCall.isLockCall : ReplCall → Bool
  | .LockID _ => true
  | .UnlockID _ => true
  | _ => false

/-- A batch with `n` events. -/
def sampleBatch (n : Nat) : History :=
  { Events :=
      (List.range n).map (fun i => { EventId := some i, Version := none, Attributes := [] }) }

/-- A batch page with the given batches, token and size. -/
def sampleBatchPage (batches : List History) (token : Bytes) (size : Int) :
    ReadHistoryBranchByBatchResponse :=
  { History := batches, NextPageToken := token, Size := size, LastFirstEventID := 0 }

/-- A manager that answers the first read by batch with five batches holding
two events in all (three of the batches are empty) and the second with one
batch of three events, both with a token, and fails afterwards. -/
def sampleBatchReader : HistoryReader :=
  { ReadHistoryBranch := fun _ _ => .error (.errorString "unused"),
    ReadHistoryBranchByBatch := fun calls _ =>
      match calls.length with
      | 0 => .ok (sampleBatchPage
          [sampleBatch 0, sampleBatch 1, sampleBatch 0, sampleBatch 0, sampleBatch 1] [1] 10)
      | 1 => .ok (sampleBatchPage [sampleBatch 3] [2] 20)
      | _ => .error (.errorString "no more pages") }

/-- A manager that forever returns empty pages with the token `[1]`. -/
def emptyPagesReader : HistoryReader :=
  { ReadHistoryBranch := fun _ _ =>
      .ok { HistoryEvents := [], NextPageToken := [1], Size := 0, LastFirstEventID := 0 },
    ReadHistoryBranchByBatch := fun _ _ =>
      .ok { History := [], NextPageToken := [1], Size := 0, LastFirstEventID := 0 } }

/-- The log entry is a `CompleteForkBranch` call. -/
def V2Call.isCompleteForkBranch : V2Call → Bool
  | .CompleteForkBranch _ => true
  | _ => false

/-- A fork of the sample tree forked at the given time. -/
def sampleForkAt (branchID : String) (forkTime : Int) : HistoryBranchDetail :=
  { TreeID := "tree", BranchID := branchID, ForkTime := forkTime, Info := "fork of " ++ branchID }

/-- The sample world with the given list of forks in progress. -/
def sampleWorldWith (now : Int) (forks : List HistoryBranchDetail) : V2World :=
  { sampleWorld now with
    GetHistoryTree := fun _ _ => .ok { ForkingInProgressBranches := forks } }

/-! ## Lemmas on the scan loop -/

theorem scanRows_nil (env : SqlEnv) (s : ScanState) : scanRows env s [] = s := rfl

theorem scanRows_cons (env : SqlEnv) (s : ScanState) (v : EventsRow) (rows : List EventsRow) :
    scanRows env s (v :: rows) = scanRows env (scanRow env s v) rows := rfl

theorem scanRows_append (env : SqlEnv) (s : ScanState) (xs ys : List EventsRow) :
    scanRows env s (xs ++ ys) = scanRows env (scanRows env s xs) ys := by
  simp [scanRows, List.foldl_append]

theorem lastFirstEventID_cons (offset : Int) (v : EventsRow) (rows : List EventsRow) :
    lastFirstEventID offset (v :: rows) = lastFirstEventID v.FirstEventID rows := by
  cases rows with
  | nil => simp [lastFirstEventID]
  | cons w ws =>
    simp only [lastFirstEventID, List.getLast?_cons_cons]
    rw [List.getLast?_eq_getLast (w :: ws) (by simp)]

/-- The loop computes the shadow rule on the compared versions: the history
grows by the blobs of the kept rows, the version becomes the running maximum,
and the offset is the first-event-id of the last row scanned. -/
theorem scanRows_eq (env : SqlEnv) (rows : List EventsRow) (s : ScanState) :
    scanRows env s rows =
      { history := s.history ++
          (shadowRule (eventBatchVersion env) s.lastEventBatchVersion rows).map eventBatch,
        lastEventBatchVersion :=
          shadowMax (eventBatchVersion env) s.lastEventBatchVersion rows,
        offset := lastFirstEventID s.offset rows } := by
  induction rows generalizing s with
  | nil => simp [scanRows_nil, shadowRule, shadowMax, lastFirstEventID]
  | cons v rows ih =>
    rw [scanRows_cons, ih, lastFirstEventID_cons]
    by_cases h : eventBatchVersion env v ≥ s.lastEventBatchVersion
    · simp [scanRow, shadowRule, shadowMax, h]
    · simp [scanRow, shadowRule, shadowMax, h]

theorem shadowRule_sublist (version : EventsRow → Int) (rows : List EventsRow) (m : Int) :
    (shadowRule version m rows).Sublist rows := by
  induction rows generalizing m with
  | nil => simp [shadowRule]
  | cons r rs ih =>
    unfold shadowRule
    split
    · exact (ih _).cons₂ r
    · exact (ih _).cons r

theorem shadowRule_ge (version : EventsRow → Int) (rows : List EventsRow) (m : Int) :
    ∀ r ∈ shadowRule version m rows, m ≤ version r := by
  induction rows generalizing m with
  | nil => simp [shadowRule]
  | cons r rs ih =>
    unfold shadowRule
    split
    · rename_i h
      intro x hx
      rcases List.mem_cons.mp hx with rfl | hx
      · exact h
      · exact le_trans h (ih _ x hx)
    · exact ih m

theorem shadowRule_pairwise (version : EventsRow → Int) (rows : List EventsRow) (m : Int) :
    ((shadowRule version m rows).map version).Pairwise (fun a b => a ≤ b) := by
  induction rows generalizing m with
  | nil => simp [shadowRule]
  | cons r rs ih =>
    unfold shadowRule
    split
    · rw [List.map_cons, List.pairwise_cons]
      refine ⟨?_, ih _⟩
      intro b hb
      obtain ⟨x, hx, rfl⟩ := List.mem_map.mp hb
      exact shadowRule_ge version rs _ x hx
    · exact ih m

theorem shadowMax_ge (version : EventsRow → Int) (rows : List EventsRow) (m : Int) :
    m ≤ shadowMax version m rows := by
  induction rows generalizing m with
  | nil => simp [shadowMax]
  | cons r rs ih =>
    unfold shadowMax
    split
    · rename_i h
      exact le_trans h (ih _)
    · exact ih m

/-- A successful read of a non-empty row list answers with `buildResponse`. -/
theorem GetWorkflowExecutionHistory_rows (env : SqlEnv) (db : DB)
    (request : InternalGetWorkflowExecutionHistoryRequest) (offset : Int)
    (rows : List EventsRow) (hoff : startOffset env request = .ok offset)
    (hsel : db.SelectFromEvents (selectFilter request offset) = .ok rows) (hne : rows ≠ []) :
    GetWorkflowExecutionHistory env db request =
      (.ok (buildResponse env request offset rows),
        [.SelectFromEvents (selectFilter request offset)]) := by
  unfold GetWorkflowExecutionHistory
  simp only [hoff, hsel]

/-- A read for which the driver returns no rows answers with the zero
response. -/
theorem GetWorkflowExecutionHistory_empty (env : SqlEnv) (db : DB)
    (request : InternalGetWorkflowExecutionHistoryRequest) (offset : Int)
    (hoff : startOffset env request = .ok offset)
    (hsel : db.SelectFromEvents (selectFilter request offset) = .ok []) :
    GetWorkflowExecutionHistory env db request =
      (.ok emptyResponse, [.SelectFromEvents (selectFilter request offset)]) := by
  unfold GetWorkflowExecutionHistory
  simp only [hoff, hsel]

/-! ## Claims on `GetWorkflowExecutionHistory` -/

/-- C1 (as stated, refuted): with the stored batch version of the row as the
compared version, the row with batch version 0 read with
`LastEventBatchVersion = 0` would be kept by the shadow rule (0 ≥ 0), but the
code compares it as `EmptyVersion` and returns no batch. -/
theorem C1_counterexample :
    (GetWorkflowExecutionHistory specEnv (rowsDB [sampleRow 1 0]) (sampleRead 0 1 5 10)).1
        = .ok { History := [], LastEventBatchVersion := 0, NextPageToken := [] } ∧
      shadowRule (fun r => r.BatchVersion) (sampleRead 0 1 5 10).LastEventBatchVersion
        [sampleRow 1 0] = [sampleRow 1 0] := by
  constructor
  · rfl
  · decide

/-- C1 (amended): for every request and every non-empty row list returned by
`SelectFromEvents`, the returned history is the shadow rule run on the
compared version of each row (its batch version when positive, otherwise
`EmptyVersion`), starting from `request.LastEventBatchVersion`; hence the
returned batches are a subsequence of the rows in store order, their compared
versions are non-decreasing, and none is below `request.LastEventBatchVersion`. -/
theorem C1_shadow_rule (env : SqlEnv) (db : DB)
    (request : InternalGetWorkflowExecutionHistoryRequest) (offset : Int)
    (rows : List EventsRow) (hoff : startOffset env request = .ok offset)
    (hsel : db.SelectFromEvents (selectFilter request offset) = .ok rows) (hne : rows ≠ []) :
    ∃ resp, (GetWorkflowExecutionHistory env db request).1 = .ok resp ∧
      resp.History =
        (shadowRule (eventBatchVersion env) request.LastEventBatchVersion rows).map eventBatch ∧
      (shadowRule (eventBatchVersion env) request.LastEventBatchVersion rows).Sublist rows ∧
      ((shadowRule (eventBatchVersion env) request.LastEventBatchVersion rows).map
        (eventBatchVersion env)).Pairwise (fun a b => a ≤ b) ∧
      ∀ r ∈ shadowRule (eventBatchVersion env) request.LastEventBatchVersion rows,
        request.LastEventBatchVersion ≤ eventBatchVersion env r := by
  refine ⟨buildResponse env request offset rows, ?_, ?_, ?_, ?_, ?_⟩
  · rw [GetWorkflowExecutionHistory_rows env db request offset rows hoff hsel hne]
  · simp [buildResponse, scanRows_eq]
  · exact shadowRule_sublist _ _ _
  · exact shadowRule_pairwise _ _ _
  · exact shadowRule_ge _ _ _

/-- C1 (witness): the amended shadow rule at the three sample rows read with
`LastEventBatchVersion = 0`. -/
theorem C1_shadow_rule_witness :
    startOffset specEnv (sampleRead 0 1 25 10) = .ok 0 ∧
      (rowsDB sampleRows).SelectFromEvents (selectFilter (sampleRead 0 1 25 10) 0)
        = .ok sampleRows ∧
      sampleRows ≠ [] ∧
      ∃ resp, (GetWorkflowExecutionHistory specEnv (rowsDB sampleRows)
          (sampleRead 0 1 25 10)).1 = .ok resp ∧
        resp.History =
          (shadowRule (eventBatchVersion specEnv) (sampleRead 0 1 25 10).LastEventBatchVersion
            sampleRows).map eventBatch ∧
        (shadowRule (eventBatchVersion specEnv) (sampleRead 0 1 25 10).LastEventBatchVersion
          sampleRows).Sublist sampleRows ∧
        ((shadowRule (eventBatchVersion specEnv) (sampleRead 0 1 25 10).LastEventBatchVersion
          sampleRows).map (eventBatchVersion specEnv)).Pairwise (fun a b => a ≤ b) ∧
        ∀ r ∈ shadowRule (eventBatchVersion specEnv)
            (sampleRead 0 1 25 10).LastEventBatchVersion sampleRows,
          (sampleRead 0 1 25 10).LastEventBatchVersion ≤ eventBatchVersion specEnv r :=
  ⟨rfl, rfl, by decide,
    C1_shadow_rule specEnv (rowsDB sampleRows) (sampleRead 0 1 25 10) 0 sampleRows rfl rfl
      (by decide)⟩

/-! ## Claims on `AppendHistoryEvents` -/

/-- The outcome of `lockEventForUpdate` when `LockEvents` returns a row. -/
theorem lockEventForUpdate_locked (tx : DB) (req : InternalAppendHistoryEventsRequest)
    (row existing : EventsRow) (hlock : tx.LockEvents (lockFilter req row) = .ok existing) :
    lockEventForUpdate tx req row =
      (if existing.RangeID > req.RangeID then
        some (.ConditionFailedError
          ("expected rangedID <=" ++ toString req.RangeID ++ ", got " ++
            toString existing.RangeID))
      else if existing.TxID ≥ req.TransactionID then
        some (.ConditionFailedError
          ("expected txID < " ++ toString req.TransactionID ++ ", got " ++
            toString existing.TxID))
      else none, [.LockEvents (lockFilter req row)]) := by
  unfold lockEventForUpdate
  simp only [hlock]
  split_ifs <;> rfl

/-- When the token check fails the overwrite returns `ConditionFailedError`
after the single `LockEvents` call. -/
theorem AppendHistoryEvents_overwrite_rejected (env : SqlEnv) (db : DB)
    (request : InternalAppendHistoryEventsRequest) (existing : EventsRow)
    (hov : request.Overwrite = true)
    (hlock : db.LockEvents (lockFilter request (appendRow request)) = .ok existing)
    (hno : ¬ (existing.RangeID ≤ request.RangeID ∧ existing.TxID < request.TransactionID)) :
    (∃ m, (AppendHistoryEvents env db request).1 = some (.ConditionFailedError m)) ∧
      (AppendHistoryEvents env db request).2 =
        [.LockEvents (lockFilter request (appendRow request))] := by
  unfold AppendHistoryEvents overWriteHistoryEvents overWriteHistoryEventsTx
  simp only [hov, if_true, lockEventForUpdate_locked db request _ existing hlock]
  by_cases h1 : existing.RangeID > request.RangeID
  · simp [h1, txExecute]
  · have h2 : existing.TxID ≥ request.TransactionID := by
      by_contra h
      exact hno ⟨not_lt.mp h1, not_le.mp h⟩
    simp [h1, h2, txExecute]

/-- When the token check passes the overwrite issues `LockEvents` and then
`UpdateEvents` with the row of the request. -/
theorem AppendHistoryEvents_overwrite_accepted (env : SqlEnv) (db : DB)
    (request : InternalAppendHistoryEventsRequest) (existing : EventsRow)
    (hov : request.Overwrite = true)
    (hlock : db.LockEvents (lockFilter request (appendRow request)) = .ok existing)
    (hyes : existing.RangeID ≤ request.RangeID ∧ existing.TxID < request.TransactionID) :
    (AppendHistoryEvents env db request).2 =
        [.LockEvents (lockFilter request (appendRow request)),
         .UpdateEvents (appendRow request)] := by
  have h1 : ¬ existing.RangeID > request.RangeID := not_lt.mpr hyes.1
  have h2 : ¬ existing.TxID ≥ request.TransactionID := not_le.mpr hyes.2
  unfold AppendHistoryEvents overWriteHistoryEvents overWriteHistoryEventsTx
  simp only [hov, if_true, lockEventForUpdate_locked db request _ existing hlock, h1, h2,
    if_false]
  cases hu : db.UpdateEvents (appendRow request) with
  | error err => simp
  | ok res =>
    cases res with
    | error err => simp
    | ok n =>
      by_cases hn : n = 1
      · simp [hn]
      · simp [hn]

/-- C2: for an overwrite whose target row is returned by `LockEvents`, the
token check of `lockEventForUpdate` passes exactly when
`existing.RangeID ≤ request.RangeID` and `existing.TxID < request.TransactionID`;
otherwise the append fails with `ConditionFailedError` and no `UpdateEvents`
is issued, while a passing check is followed by the update of the row.  The
same range id with a higher transaction id passes; an equal transaction id
fails. -/
theorem C2_overwrite_token_check (env : SqlEnv) (db : DB)
    (request : InternalAppendHistoryEventsRequest) (existing : EventsRow)
    (hov : request.Overwrite = true)
    (hlock : db.LockEvents (lockFilter request (appendRow request)) = .ok existing) :
    ((lockEventForUpdate db request (appendRow request)).1 = none ↔
        existing.RangeID ≤ request.RangeID ∧ existing.TxID < request.TransactionID) ∧
      (¬ (existing.RangeID ≤ request.RangeID ∧ existing.TxID < request.TransactionID) →
        (∃ m, (AppendHistoryEvents env db request).1 = some (.ConditionFailedError m)) ∧
        ∀ row, DBCall.UpdateEvents row ∉ (AppendHistoryEvents env db request).2) ∧
      (existing.RangeID ≤ request.RangeID ∧ existing.TxID < request.TransactionID →
        (AppendHistoryEvents env db request).2 =
          [.LockEvents (lockFilter request (appendRow request)),
           .UpdateEvents (appendRow request)]) ∧
      (existing.RangeID = request.RangeID → existing.TxID < request.TransactionID →
        (lockEventForUpdate db request (appendRow request)).1 = none) ∧
      (existing.TxID = request.TransactionID →
        ∃ m, (AppendHistoryEvents env db request).1 = some (.ConditionFailedError m)) := by
  have hiff : (lockEventForUpdate db request (appendRow request)).1 = none ↔
      existing.RangeID ≤ request.RangeID ∧ existing.TxID < request.TransactionID := by
    rw [lockEventForUpdate_locked db request _ existing hlock]
    by_cases h1 : existing.RangeID > request.RangeID
    · simp [h1]
    · by_cases h2 : existing.TxID ≥ request.TransactionID
      · simp [h1, h2]
      · simp only [h1, h2, if_false, true_iff]
        exact ⟨not_lt.mp h1, not_le.mp h2⟩
  refine ⟨hiff, ?_, ?_, ?_, ?_⟩
  · intro hno
    obtain ⟨hres, hlog⟩ :=
      AppendHistoryEvents_overwrite_rejected env db request existing hov hlock hno
    refine ⟨hres, fun row hmem => ?_⟩
    rw [hlog] at hmem
    simp at hmem
  · intro hyes
    exact AppendHistoryEvents_overwrite_accepted env db request existing hov hlock hyes
  · intro hr ht
    exact hiff.mpr ⟨le_of_eq hr, ht⟩
  · intro ht
    refine (AppendHistoryEvents_overwrite_rejected env db request existing hov hlock ?_).1
    intro h
    exact absurd ht (ne_of_lt h.2)

/-- C2 (witness): the overwrite of `TestAppendHistoryEvents`, range id 1 and
transaction id 2 over a row with range id 1 and transaction id 1. -/
theorem C2_overwrite_token_check_witness :
    (sampleAppend 1 2 true).Overwrite = true ∧
      (tableDB specEnv [sampleRow 3 (-1)]).LockEvents
        (lockFilter (sampleAppend 1 2 true) (appendRow (sampleAppend 1 2 true)))
          = .ok (sampleRow 3 (-1)) ∧
      (lockEventForUpdate (tableDB specEnv [sampleRow 3 (-1)]) (sampleAppend 1 2 true)
        (appendRow (sampleAppend 1 2 true))).1 = none :=
  ⟨rfl, rfl,
    (C2_overwrite_token_check specEnv (tableDB specEnv [sampleRow 3 (-1)])
      (sampleAppend 1 2 true) (sampleRow 3 (-1)) rfl rfl).2.2.2.1 rfl (by decide)⟩

/-- C3 (as stated, refuted): an overwrite with range id 2 and transaction id 2
over a row with range id 1 and transaction id 1 is carried out (the row is
locked and updated, the append returns nil), although the range id of the
request is not at most the range id of the existing row. -/
theorem C3_counterexample :
    AppendHistoryEvents specEnv (tableDB specEnv [sampleRow 3 (-1)]) (sampleAppend 2 2 true)
        = (none,
          [.LockEvents (lockFilter (sampleAppend 2 2 true) (appendRow (sampleAppend 2 2 true))),
           .UpdateEvents (appendRow (sampleAppend 2 2 true))]) ∧
      ¬ ((sampleAppend 2 2 true).RangeID ≤ (sampleRow 3 (-1)).RangeID ∧
          (sampleAppend 2 2 true).TransactionID > (sampleRow 3 (-1)).TxID) := by
  constructor
  · rfl
  · decide

/-- C3 (amended): for an overwrite against an existing row returned by
`LockEvents`, the overwrite is carried out (the update is issued, the append
can return nil) only when the range id of the request is at least the range
id of the existing row and the transaction id of the request is greater than
the transaction id of the existing row; every other overwrite fails with
`ConditionFailedError`. -/
theorem C3_overwrite_rule_amended (env : SqlEnv) (db : DB)
    (request : InternalAppendHistoryEventsRequest) (existing : EventsRow)
    (hov : request.Overwrite = true)
    (hlock : db.LockEvents (lockFilter request (appendRow request)) = .ok existing) :
    ((∃ row, DBCall.UpdateEvents row ∈ (AppendHistoryEvents env db request).2) →
        request.RangeID ≥ existing.RangeID ∧ request.TransactionID > existing.TxID) ∧
      ((AppendHistoryEvents env db request).1 = none →
        request.RangeID ≥ existing.RangeID ∧ request.TransactionID > existing.TxID) ∧
      (¬ (request.RangeID ≥ existing.RangeID ∧ request.TransactionID > existing.TxID) →
        ∃ m, (AppendHistoryEvents env db request).1 = some (.ConditionFailedError m)) := by
  refine ⟨?_, ?_, ?_⟩
  · rintro ⟨row, hmem⟩
    by_contra hno
    have hlog :=
      (AppendHistoryEvents_overwrite_rejected env db request existing hov hlock hno).2
    rw [hlog] at hmem
    simp at hmem
  · intro hnil
    by_contra hno
    obtain ⟨m, hm⟩ :=
      (AppendHistoryEvents_overwrite_rejected env db request existing hov hlock hno).1
    rw [hm] at hnil
    exact absurd hnil (by simp)
  · intro hno
    exact (AppendHistoryEvents_overwrite_rejected env db request existing hov hlock hno).1

/-- C3 (witness): an overwrite with a lower range id than the existing row
fails with `ConditionFailedError`. -/
theorem C3_overwrite_rule_amended_witness :
    (sampleAppend 0 2 true).Overwrite = true ∧
      (tableDB specEnv [sampleRow 3 (-1)]).LockEvents
        (lockFilter (sampleAppend 0 2 true) (appendRow (sampleAppend 0 2 true)))
          = .ok (sampleRow 3 (-1)) ∧
      ∃ m, (AppendHistoryEvents specEnv (tableDB specEnv [sampleRow 3 (-1)])
        (sampleAppend 0 2 true)).1 = some (.ConditionFailedError m) :=
  ⟨rfl, rfl,
    (C3_overwrite_rule_amended specEnv (tableDB specEnv [sampleRow 3 (-1)])
      (sampleAppend 0 2 true) (sampleRow 3 (-1)) rfl rfl).2.2 (by decide)⟩

/-- C4: an append without overwrite issues exactly one `InsertIntoEvents` and
no other driver call; it returns nil when the insert succeeds, returns
`ConditionFailedError` exactly when the driver reports a MySQL error with the
duplicate-entry code, and returns `InternalServiceError` for every other
insert failure. -/
theorem C4_append_without_overwrite (env : SqlEnv) (db : DB)
    (request : InternalAppendHistoryEventsRequest) (hov : request.Overwrite = false) :
    (AppendHistoryEvents env db request).2 = [.InsertIntoEvents (appendRow request)] ∧
      (db.InsertIntoEvents (appendRow request) = none →
        (AppendHistoryEvents env db request).1 = none) ∧
      ((∃ m, (AppendHistoryEvents env db request).1 = some (.ConditionFailedError m)) ↔
        ∃ m, db.InsertIntoEvents (appendRow request) = some (.MySQLError env.ErrDupEntry m)) ∧
      (∀ e, db.InsertIntoEvents (appendRow request) = some e →
        (¬ ∃ m, e = .MySQLError env.ErrDupEntry m) →
        ∃ m, (AppendHistoryEvents env db request).1 = some (.InternalServiceError m)) := by
  unfold AppendHistoryEvents
  simp only [hov, Bool.false_eq_true, if_false]
  cases hins : db.InsertIntoEvents (appendRow request) with
  | none => simp
  | some err =>
    cases err with
    | MySQLError number message =>
      by_cases hn : number = env.ErrDupEntry
      · subst hn
        simp
      · simp [hn]
    | _ => simp

/-- C4 (witness): the duplicate append of `TestAppendHistoryEvents` issues one
insert. -/
theorem C4_append_without_overwrite_witness :
    (sampleAppend 1 1 false).Overwrite = false ∧
      (AppendHistoryEvents specEnv (tableDB specEnv [sampleRow 3 (-1)])
        (sampleAppend 1 1 false)).2 = [.InsertIntoEvents (appendRow (sampleAppend 1 1 false))] :=
  ⟨rfl,
    (C4_append_without_overwrite specEnv (tableDB specEnv [sampleRow 3 (-1)])
      (sampleAppend 1 1 false) rfl).1⟩

/-! ## Claims on the pages of `GetWorkflowExecutionHistory` -/

theorem startOffset_no_token (env : SqlEnv)
    (request : InternalGetWorkflowExecutionHistoryRequest) (htok : request.NextPageToken = []) :
    startOffset env request = .ok (wrapInt64 (request.FirstEventID - 1)) := by
  simp [startOffset, htok]

theorem lastFirstEventID_getLast (offset : Int) (rows : List EventsRow) (hne : rows ≠ []) :
    lastFirstEventID offset rows = (rows.getLast hne).FirstEventID := by
  simp [lastFirstEventID, List.getLast?_eq_getLast rows hne]

/-- The page the table driver returns for a read: the first `PageSize` rows of
the execution from the filter's first-event-id on. -/
theorem selectFromEvents_selectFilter (table : List EventsRow)
    (request : InternalGetWorkflowExecutionHistoryRequest) (offset : Int) :
    selectFromEvents table (selectFilter request offset) =
      (rowsInRange table request (wrapInt64 (offset + 1))).take request.PageSize.toNat := by
  simp only [selectFromEvents, selectFilter, rowsInRange, sameExecution, inRange]

/-- The running maximum of the shadow rule is the maximum of the starting
value and the versions of the kept rows. -/
theorem shadowMax_eq_foldl_max (version : EventsRow → Int) (rows : List EventsRow) (m : Int) :
    shadowMax version m rows = ((shadowRule version m rows).map version).foldl max m := by
  induction rows generalizing m with
  | nil => simp [shadowMax, shadowRule]
  | cons r rs ih =>
    unfold shadowMax shadowRule
    split
    · rename_i h
      rw [ih, List.map_cons, List.foldl_cons, max_eq_right h]
    · exact ih m

/-- C6: for a successful read in which the driver returns at least one row,
the next-page token is `serializePageToken` of the first-event-id of the last
row when the number of rows returned (shadowed rows included) is at least
`request.PageSize`, and empty when fewer rows are returned; a non-empty token
therefore only occurs with at least `PageSize` rows, and since the serialized
offset is never empty the token is non-empty exactly in that case. -/
theorem C6_next_page_token (env : SqlEnv) (db : DB)
    (request : InternalGetWorkflowExecutionHistoryRequest) (offset : Int)
    (rows : List EventsRow) (hoff : startOffset env request = .ok offset)
    (hsel : db.SelectFromEvents (selectFilter request offset) = .ok rows) (hne : rows ≠ []) :
    ∃ resp, (GetWorkflowExecutionHistory env db request).1 = .ok resp ∧
      ((rows.length : Int) ≥ request.PageSize →
        resp.NextPageToken = env.serializePageToken (rows.getLast hne).FirstEventID) ∧
      ((rows.length : Int) < request.PageSize → resp.NextPageToken = []) ∧
      (resp.NextPageToken ≠ [] → (rows.length : Int) ≥ request.PageSize) ∧
      ((∀ x, env.serializePageToken x ≠ []) →
        (resp.NextPageToken ≠ [] ↔ (rows.length : Int) ≥ request.PageSize)) := by
  refine ⟨buildResponse env request offset rows, ?_, ?_, ?_, ?_, ?_⟩
  · rw [GetWorkflowExecutionHistory_rows env db request offset rows hoff hsel hne]
  · intro h
    simp [buildResponse, scanRows_eq, h, lastFirstEventID_getLast _ rows hne]
  · intro h
    simp [buildResponse, not_le.mpr h]
  · intro h
    by_contra hlt
    exact h (by simp [buildResponse, hlt])
  · intro hser
    constructor
    · intro h
      by_contra hlt
      exact h (by simp [buildResponse, hlt])
    · intro h
      simp only [buildResponse, scanRows_eq, h, if_true]
      exact hser _

/-- C6 (witness): three rows read with page size 3 give the token of the
first-event-id of the last row. -/
theorem C6_next_page_token_witness :
    startOffset specEnv (sampleRead 0 1 25 3) = .ok 0 ∧
      (rowsDB sampleRows).SelectFromEvents (selectFilter (sampleRead 0 1 25 3) 0)
        = .ok sampleRows ∧
      sampleRows ≠ [] ∧
      ∃ resp, (GetWorkflowExecutionHistory specEnv (rowsDB sampleRows)
          (sampleRead 0 1 25 3)).1 = .ok resp ∧
        ((sampleRows.length : Int) ≥ (sampleRead 0 1 25 3).PageSize →
          resp.NextPageToken = specEnv.serializePageToken
            (sampleRows.getLast (by decide)).FirstEventID) ∧
        ((sampleRows.length : Int) < (sampleRead 0 1 25 3).PageSize →
          resp.NextPageToken = []) ∧
        (resp.NextPageToken ≠ [] → (sampleRows.length : Int) ≥ (sampleRead 0 1 25 3).PageSize) ∧
        ((∀ x, specEnv.serializePageToken x ≠ []) →
          (resp.NextPageToken ≠ [] ↔
            (sampleRows.length : Int) ≥ (sampleRead 0 1 25 3).PageSize)) :=
  ⟨rfl, rfl, by decide,
    C6_next_page_token specEnv (rowsDB sampleRows) (sampleRead 0 1 25 3) 0 sampleRows rfl rfl
      (by decide)⟩

/-- C8 (as stated, refuted): when the driver returns no rows the response is
the zero value, so a read with `LastEventBatchVersion = 5` answers with
`LastEventBatchVersion = 0`, which is smaller. -/
theorem C8_counterexample :
    (GetWorkflowExecutionHistory specEnv (rowsDB []) (sampleRead 5 1 25 10)).1
        = .ok { History := [], LastEventBatchVersion := 0, NextPageToken := [] } ∧
      (0 : Int) < (sampleRead 5 1 25 10).LastEventBatchVersion := by
  constructor
  · rfl
  · decide

/-- C8 (amended): for every successful read in which the driver returns at
least one row, `response.LastEventBatchVersion` is the maximum of
`request.LastEventBatchVersion` and the compared versions (batch version when
positive, otherwise `EmptyVersion`) of the returned batches, and is never
smaller than `request.LastEventBatchVersion`. -/
theorem C8_running_maximum (env : SqlEnv) (db : DB)
    (request : InternalGetWorkflowExecutionHistoryRequest) (offset : Int)
    (rows : List EventsRow) (hoff : startOffset env request = .ok offset)
    (hsel : db.SelectFromEvents (selectFilter request offset) = .ok rows) (hne : rows ≠ []) :
    ∃ resp, (GetWorkflowExecutionHistory env db request).1 = .ok resp ∧
      resp.History =
        (shadowRule (eventBatchVersion env) request.LastEventBatchVersion rows).map eventBatch ∧
      resp.LastEventBatchVersion =
        ((shadowRule (eventBatchVersion env) request.LastEventBatchVersion rows).map
          (eventBatchVersion env)).foldl max request.LastEventBatchVersion ∧
      request.LastEventBatchVersion ≤ resp.LastEventBatchVersion := by
  refine ⟨buildResponse env request offset rows, ?_, ?_, ?_, ?_⟩
  · rw [GetWorkflowExecutionHistory_rows env db request offset rows hoff hsel hne]
  · simp [buildResponse, scanRows_eq]
  · simp [buildResponse, scanRows_eq, shadowMax_eq_foldl_max]
  · simp only [buildResponse, scanRows_eq]
    exact shadowMax_ge _ _ _

/-- C8 (witness): the three sample rows read with `LastEventBatchVersion = 0`. -/
theorem C8_running_maximum_witness :
    startOffset specEnv (sampleRead 0 1 25 10) = .ok 0 ∧
      (rowsDB sampleRows).SelectFromEvents (selectFilter (sampleRead 0 1 25 10) 0)
        = .ok sampleRows ∧
      sampleRows ≠ [] ∧
      ∃ resp, (GetWorkflowExecutionHistory specEnv (rowsDB sampleRows)
          (sampleRead 0 1 25 10)).1 = .ok resp ∧
        resp.History =
          (shadowRule (eventBatchVersion specEnv) (sampleRead 0 1 25 10).LastEventBatchVersion
            sampleRows).map eventBatch ∧
        resp.LastEventBatchVersion =
          ((shadowRule (eventBatchVersion specEnv) (sampleRead 0 1 25 10).LastEventBatchVersion
            sampleRows).map (eventBatchVersion specEnv)).foldl max
              (sampleRead 0 1 25 10).LastEventBatchVersion ∧
        (sampleRead 0 1 25 10).LastEventBatchVersion ≤ resp.LastEventBatchVersion :=
  ⟨rfl, rfl, by decide,
    C8_running_maximum specEnv (rowsDB sampleRows) (sampleRead 0 1 25 10) 0 sampleRows rfl rfl
      (by decide)⟩

/-! ## Claims on `DeleteWorkflowExecutionHistoryV2` -/

theorem completeCalls_nil (w : V2World) (branchToken : Bytes) (shardID : Option Int) :
    completeCalls w branchToken shardID [] = [] := rfl

theorem completeCalls_cons (w : V2World) (branchToken : Bytes) (shardID : Option Int)
    (br : HistoryBranchDetail) (brs : List HistoryBranchDetail) :
    completeCalls w branchToken shardID (br :: brs) =
      .CompleteForkBranch (completeRequest w branchToken shardID br) ::
        completeCalls w branchToken shardID brs := rfl

theorem detailInfo_cons (logInfo : String) (br : HistoryBranchDetail)
    (brs : List HistoryBranchDetail) :
    detailInfo logInfo (br :: brs) = detailInfo (logInfo ++ ";" ++ br.Info) brs := rfl

/-- The first fork of a list that is stale and completed is so after `log`. -/
theorem StaleCompleted.head {w : V2World} {branchToken : Bytes} {shardID : Option Int}
    {log : List V2Call} {br : HistoryBranchDetail} {brs : List HistoryBranchDetail}
    (h : StaleCompleted w branchToken shardID log (br :: brs)) :
    br.ForkTime + timeMinute < w.timeNow log ∧
      (∃ bt, w.NewHistoryBranchTokenFromAnother br.BranchID branchToken = .ok bt) ∧
      w.CompleteForkBranch log (completeRequest w branchToken shardID br) = none := by
  have := h [] br brs rfl
  simpa [completeCalls_nil] using this

/-- The forks behind the first are stale and completed after its completion. -/
theorem StaleCompleted.tail {w : V2World} {branchToken : Bytes} {shardID : Option Int}
    {log : List V2Call} {br : HistoryBranchDetail} {brs : List HistoryBranchDetail}
    (h : StaleCompleted w branchToken shardID log (br :: brs)) :
    StaleCompleted w branchToken shardID
      (log ++ [.CompleteForkBranch (completeRequest w branchToken shardID br)]) brs := by
  intro pre b post hb
  have := h (br :: pre) b post (by rw [hb]; rfl)
  simpa [completeCalls_cons, List.append_assoc] using this

theorem StaleCompleted.nil (w : V2World) (branchToken : Bytes) (shardID : Option Int)
    (log : List V2Call) : StaleCompleted w branchToken shardID log [] := by
  intro pre b post hb
  exact absurd hb (by simp)

/-- A single fork is stale and completed when it is so after `log`. -/
theorem StaleCompleted.singleton {w : V2World} {branchToken : Bytes} {shardID : Option Int}
    {log : List V2Call} {br : HistoryBranchDetail}
    (h1 : br.ForkTime + timeMinute < w.timeNow log)
    (h2 : ∃ bt, w.NewHistoryBranchTokenFromAnother br.BranchID branchToken = .ok bt)
    (h3 : w.CompleteForkBranch log (completeRequest w branchToken shardID br) = none) :
    StaleCompleted w branchToken shardID log [br] := by
  intro pre b post hb
  cases pre with
  | nil =>
    simp only [List.nil_append, List.cons.injEq] at hb
    obtain ⟨rfl, -⟩ := hb
    simpa [completeCalls_nil] using ⟨h1, h2, h3⟩
  | cons x xs =>
    simp only [List.cons_append, List.cons.injEq] at hb
    exact absurd hb.2 (by simp)

/-- The loop passes over a run of stale forks that complete: it issues one
`CompleteForkBranch` for each, in order, and goes on with the forks behind. -/
theorem forkLoop_stale (w : V2World) (branchToken : Bytes) (shardID : Option Int)
    (pre rest : List HistoryBranchDetail) (logInfo : String) (log : List V2Call)
    (h : StaleCompleted w branchToken shardID log pre) :
    forkLoop w branchToken shardID (pre ++ rest) logInfo log =
      forkLoop w branchToken shardID rest (detailInfo logInfo pre)
        (log ++ completeCalls w branchToken shardID pre) := by
  induction pre generalizing logInfo log with
  | nil => simp [detailInfo, completeCalls_nil]
  | cons br brs ih =>
    obtain ⟨hstale, ⟨bt, hbt⟩, hcomplete⟩ := h.head
    have hreq : completeRequest w branchToken shardID br =
        { Success := true, BranchToken := bt, ShardID := shardID } := by
      simp [completeRequest, rebuiltToken, hbt]
    rw [hreq] at hcomplete
    rw [List.cons_append, forkLoop]
    simp only [gt_iff_lt, hstale, if_true, hbt, hcomplete]
    rw [← hreq, ih _ _ h.tail, detailInfo_cons, completeCalls_cons, List.append_assoc]
    rfl

/-- The token of each completion request of a stale fork is the one
`NewHistoryBranchTokenFromAnother` returns for it. -/
theorem StaleCompleted.token {w : V2World} {branchToken : Bytes} {shardID : Option Int}
    {log : List V2Call} {brs : List HistoryBranchDetail}
    (h : StaleCompleted w branchToken shardID log brs) :
    ∀ br ∈ brs, w.NewHistoryBranchTokenFromAnother br.BranchID branchToken =
      .ok (rebuiltToken w branchToken br) := by
  intro br hbr
  obtain ⟨pre, post, hsplit⟩ := List.append_of_mem hbr
  obtain ⟨-, ⟨bt, hbt⟩, -⟩ := h pre br post hsplit
  simp [rebuiltToken, hbt]

/-- The function up to the fork loop, when the first delete fails with
`ConditionFailedError` and the tree is read. -/
theorem DeleteWorkflowExecutionHistoryV2_forks (w : V2World) (branchToken : Bytes)
    (shardID : Option Int) (e : Err) (resp : GetHistoryTreeResponse)
    (hdel : w.DeleteHistoryBranch [] (deleteRequest branchToken shardID) = some e)
    (hcf : e.isConditionFailed = true)
    (htree : w.GetHistoryTree [.DeleteHistoryBranch (deleteRequest branchToken shardID)]
      (treeRequest branchToken shardID) = .ok resp) :
    DeleteWorkflowExecutionHistoryV2 w branchToken shardID =
      if resp.ForkingInProgressBranches.length > 0 then
        match forkLoop w branchToken shardID resp.ForkingInProgressBranches ""
            (logBeforeLoop branchToken shardID) with
        | (.returned err, logInfo, log) => (some err, log ++ [.Warn logInfo])
        | (.finished, logInfo, log) =>
          (w.DeleteHistoryBranch log (deleteRequest branchToken shardID),
            log ++ [.DeleteHistoryBranch (deleteRequest branchToken shardID), .Warn logInfo])
      else
        (w.DeleteHistoryBranch (logBeforeLoop branchToken shardID)
            (deleteRequest branchToken shardID),
          logBeforeLoop branchToken shardID ++
            [.DeleteHistoryBranch (deleteRequest branchToken shardID)]) := by
  unfold DeleteWorkflowExecutionHistoryV2
  simp only [deleteRequest, treeRequest, logBeforeLoop] at hdel htree ⊢
  simp only [hdel, hcf, htree, Bool.not_true, Bool.false_eq_true, if_false]

/-- C9: when the first `DeleteHistoryBranch` returns `ConditionFailedError`,
`GetHistoryTree` succeeds and every fork in progress (possibly none) is stale
when examined and has its token rebuilt and its `CompleteForkBranch` call
succeed, the function issues, after the first delete and the tree read,
exactly one `CompleteForkBranch` per fork in list order with `Success = true`,
the token `NewHistoryBranchTokenFromAnother(f.BranchID, branchToken)` and the
shard id of the caller, then exactly one more `DeleteHistoryBranch` with the
token of the caller, whose result is the result of the function. -/
theorem C9_safe_delete_stale_forks (w : V2World) (branchToken : Bytes)
    (shardID : Option Int) (e : Err) (resp : GetHistoryTreeResponse)
    (hdel : w.DeleteHistoryBranch [] (deleteRequest branchToken shardID) = some e)
    (hcf : e.isConditionFailed = true)
    (htree : w.GetHistoryTree [.DeleteHistoryBranch (deleteRequest branchToken shardID)]
      (treeRequest branchToken shardID) = .ok resp)
    (hstale : StaleCompleted w branchToken shardID (logBeforeLoop branchToken shardID)
      resp.ForkingInProgressBranches) :
    (DeleteWorkflowExecutionHistoryV2 w branchToken shardID).1 =
        w.DeleteHistoryBranch
          (logBeforeLoop branchToken shardID ++
            completeCalls w branchToken shardID resp.ForkingInProgressBranches)
          (deleteRequest branchToken shardID) ∧
      (DeleteWorkflowExecutionHistoryV2 w branchToken shardID).2 =
        [.DeleteHistoryBranch (deleteRequest branchToken shardID),
          .GetHistoryTree (treeRequest branchToken shardID)] ++
        resp.ForkingInProgressBranches.map (fun f => .CompleteForkBranch
          { Success := true, BranchToken := rebuiltToken w branchToken f,
            ShardID := shardID }) ++
        [.DeleteHistoryBranch (deleteRequest branchToken shardID)] ++
        (if resp.ForkingInProgressBranches = [] then []
          else [.Warn (detailInfo "" resp.ForkingInProgressBranches)]) ∧
      ∀ f ∈ resp.ForkingInProgressBranches,
        w.NewHistoryBranchTokenFromAnother f.BranchID branchToken =
          .ok (rebuiltToken w branchToken f) := by
  have hloop := forkLoop_stale w branchToken shardID resp.ForkingInProgressBranches [] ""
    (logBeforeLoop branchToken shardID) hstale
  rw [List.append_nil] at hloop
  rw [DeleteWorkflowExecutionHistoryV2_forks w branchToken shardID e resp hdel hcf htree]
  refine ⟨?_, ?_, hstale.token⟩
  · by_cases hlen : resp.ForkingInProgressBranches.length > 0
    · simp only [hlen, if_true, hloop, forkLoop]
    · have hnil : resp.ForkingInProgressBranches = [] :=
        List.length_eq_zero.mp (Nat.eq_zero_of_not_pos hlen)
      simp [hnil, completeCalls_nil]
  · by_cases hlen : resp.ForkingInProgressBranches.length > 0
    · have hne : resp.ForkingInProgressBranches ≠ [] := by
        intro h
        rw [h] at hlen
        exact absurd hlen (by simp)
      simp only [hlen, if_true, hloop, forkLoop, hne, if_false]
      simp [logBeforeLoop, completeCalls, completeRequest]
    · have hnil : resp.ForkingInProgressBranches = [] :=
        List.length_eq_zero.mp (Nat.eq_zero_of_not_pos hlen)
      simp [hnil, logBeforeLoop]

/-- C9 (witness): the fork of the sample tree is 61 s old; it is completed and
the branch is deleted by the second `DeleteHistoryBranch`. -/
theorem C9_safe_delete_stale_forks_witness :
    (sampleWorld (61 * 1000000000)).DeleteHistoryBranch [] (deleteRequest [7] (some 1))
        = some (.ConditionFailedError "forking in progress") ∧
      (DeleteWorkflowExecutionHistoryV2 (sampleWorld (61 * 1000000000)) [7] (some 1)).1 =
        (sampleWorld (61 * 1000000000)).DeleteHistoryBranch
          (logBeforeLoop [7] (some 1) ++
            completeCalls (sampleWorld (61 * 1000000000)) [7] (some 1) [sampleFork])
          (deleteRequest [7] (some 1)) :=
  ⟨rfl,
    (C9_safe_delete_stale_forks (sampleWorld (61 * 1000000000)) [7] (some 1)
      (.ConditionFailedError "forking in progress") { ForkingInProgressBranches := [sampleFork] }
      rfl rfl rfl
      (StaleCompleted.singleton (by decide) ⟨_, rfl⟩ rfl)).1⟩

/-- C10: when the first `DeleteHistoryBranch` returns `ConditionFailedError`
and the tree lists, behind forks that are stale and completed without error,
a fork whose age `now - ForkTime` is at most one minute (exactly one minute
included), the function returns `ServiceBusyError`; it has completed the
forks before the fresh one and issues no second `DeleteHistoryBranch`. -/
theorem C10_delete_fresh_fork (w : V2World) (branchToken : Bytes)
    (shardID : Option Int) (e : Err) (resp : GetHistoryTreeResponse)
    (pre post : List HistoryBranchDetail) (br : HistoryBranchDetail)
    (hdel : w.DeleteHistoryBranch [] (deleteRequest branchToken shardID) = some e)
    (hcf : e.isConditionFailed = true)
    (htree : w.GetHistoryTree [.DeleteHistoryBranch (deleteRequest branchToken shardID)]
      (treeRequest branchToken shardID) = .ok resp)
    (hforks : resp.ForkingInProgressBranches = pre ++ br :: post)
    (hstale : StaleCompleted w branchToken shardID (logBeforeLoop branchToken shardID) pre)
    (hfresh : w.timeNow (logBeforeLoop branchToken shardID ++
      completeCalls w branchToken shardID pre) - br.ForkTime ≤ timeMinute) :
    (DeleteWorkflowExecutionHistoryV2 w branchToken shardID).1 =
        some (.ServiceBusyError "waiting for forking to complete") ∧
      (DeleteWorkflowExecutionHistoryV2 w branchToken shardID).2 =
        [.DeleteHistoryBranch (deleteRequest branchToken shardID),
          .GetHistoryTree (treeRequest branchToken shardID)] ++
        completeCalls w branchToken shardID pre ++ [.Warn (detailInfo "" pre)] ∧
      ((DeleteWorkflowExecutionHistoryV2 w branchToken shardID).2.filter
        V2Call.isDeleteHistoryBranch).length = 1 := by
  have hloop := forkLoop_stale w branchToken shardID pre (br :: post) ""
    (logBeforeLoop branchToken shardID) hstale
  have hnot : ¬ w.timeNow (logBeforeLoop branchToken shardID ++
      completeCalls w branchToken shardID pre) > br.ForkTime + timeMinute := by
    intro h
    have : w.timeNow (logBeforeLoop branchToken shardID ++
      completeCalls w branchToken shardID pre) - br.ForkTime > timeMinute := by linarith
    exact absurd hfresh (not_le.mpr this)
  have hlen : resp.ForkingInProgressBranches.length > 0 := by
    rw [hforks]
    simp
  have hres : DeleteWorkflowExecutionHistoryV2 w branchToken shardID =
      (some (.ServiceBusyError "waiting for forking to complete"),
        logBeforeLoop branchToken shardID ++ completeCalls w branchToken shardID pre ++
          [.Warn (detailInfo "" pre)]) := by
    rw [DeleteWorkflowExecutionHistoryV2_forks w branchToken shardID e resp hdel hcf htree]
    rw [hforks] at hlen
    simp only [hforks, hlen, if_true, hloop, forkLoop, hnot, if_false]
  rw [hres]
  refine ⟨rfl, rfl, ?_⟩
  have hcalls : (completeCalls w branchToken shardID pre).filter
      V2Call.isDeleteHistoryBranch = [] := by
    rw [List.filter_eq_nil_iff]
    intro c hc
    obtain ⟨f, -, rfl⟩ := List.mem_map.mp hc
    simp [V2Call.isDeleteHistoryBranch]
  simp [List.filter_append, hcalls, logBeforeLoop, V2Call.isDeleteHistoryBranch]

/-- C10 (witness): the fork of the sample tree is exactly 60 s old; the delete
answers `ServiceBusyError`. -/
theorem C10_delete_fresh_fork_witness :
    (sampleWorld (60 * 1000000000)).timeNow
        (logBeforeLoop [7] (some 1) ++
          completeCalls (sampleWorld (60 * 1000000000)) [7] (some 1) []) - sampleFork.ForkTime
        ≤ timeMinute ∧
      (DeleteWorkflowExecutionHistoryV2 (sampleWorld (60 * 1000000000)) [7] (some 1)).1 =
        some (.ServiceBusyError "waiting for forking to complete") :=
  ⟨by decide,
    (C10_delete_fresh_fork (sampleWorld (60 * 1000000000)) [7] (some 1)
      (.ConditionFailedError "forking in progress") { ForkingInProgressBranches := [sampleFork] }
      [] [] sampleFork rfl rfl rfl rfl (StaleCompleted.nil _ _ _ _) (by decide)).1⟩

/-! ## Paged reads -/

theorem wrapInt64_of_isInt64 (x : Int) (h : isInt64 x) : wrapInt64 x = x := by
  unfold wrapInt64
  unfold isInt64 at h
  omega

theorem wrapInt64_isInt64 (x : Int) : isInt64 (wrapInt64 x) := by
  unfold wrapInt64 isInt64
  omega

theorem wrapInt64_pred_succ (x : Int) (h : isInt64 x) :
    wrapInt64 (wrapInt64 (x - 1) + 1) = x := by
  unfold wrapInt64
  unfold isInt64 at h
  omega

theorem shadowRule_append (version : EventsRow → Int) (xs ys : List EventsRow) (m : Int) :
    shadowRule version m (xs ++ ys) =
      shadowRule version m xs ++ shadowRule version (shadowMax version m xs) ys := by
  induction xs generalizing m with
  | nil => simp [shadowRule, shadowMax]
  | cons r rs ih =>
    by_cases h : version r ≥ m
    · simp [shadowRule, shadowMax, h, ih]
    · simp [shadowRule, shadowMax, h, ih]

/-- Membership in the rows of a range. -/
theorem mem_rowsInRange {table : List EventsRow}
    {request : InternalGetWorkflowExecutionHistoryRequest} {first : Int} {r : EventsRow}
    (h : r ∈ rowsInRange table request first) :
    r ∈ table ∧ r.DomainID = request.DomainID ∧ r.WorkflowID = request.Execution.WorkflowId ∧
      r.RunID = request.Execution.RunId ∧ first ≤ r.FirstEventID ∧
      r.FirstEventID < request.NextEventID := by
  simp only [rowsInRange, selectFromEvents, sameExecution, inRange, List.mem_filter,
    Bool.and_eq_true, beq_iff_eq, decide_eq_true_eq] at h
  obtain ⟨hm, ⟨⟨h1, h2⟩, h3⟩, h4, h5⟩ := h
  exact ⟨hm, h1, h2, h3, h4, h5⟩

theorem rowsInRange_pairwise (table : List EventsRow)
    (request : InternalGetWorkflowExecutionHistoryRequest) (first : Int)
    (hord : TableOrdered table) :
    (rowsInRange table request first).Pairwise (fun a b => a.FirstEventID < b.FirstEventID) := by
  have hsub : (rowsInRange table request first).Sublist table := by
    simp only [rowsInRange, selectFromEvents]
    exact List.filter_sublist _
  have h1 := List.Pairwise.sublist hsub hord
  refine List.Pairwise.imp_of_mem ?_ h1
  intro a b ha hb hab
  obtain ⟨-, a1, a2, a3, -, -⟩ := mem_rowsInRange ha
  obtain ⟨-, b1, b2, b3, -, -⟩ := mem_rowsInRange hb
  exact hab (a1.trans b1.symm) (a2.trans b2.symm) (a3.trans b3.symm)

theorem rowsInRange_advance (table : List EventsRow)
    (request : InternalGetWorkflowExecutionHistoryRequest) (a b : Int) (hab : a ≤ b) :
    rowsInRange table request b =
      (rowsInRange table request a).filter (fun r => decide (b ≤ r.FirstEventID)) := by
  simp only [rowsInRange, selectFromEvents, List.filter_filter]
  apply List.filter_congr
  intro r _
  simp only [sameExecution, inRange]
  by_cases hb : b ≤ r.FirstEventID
  · have ha : a ≤ r.FirstEventID := le_trans hab hb
    simp [hb, ha]
  · simp [hb]

theorem filter_after_last (xs ys : List EventsRow) (hne : xs ≠ [])
    (hp : (xs ++ ys).Pairwise (fun a b => a.FirstEventID < b.FirstEventID)) :
    (xs ++ ys).filter (fun r => decide ((xs.getLast hne).FirstEventID + 1 ≤ r.FirstEventID))
      = ys := by
  obtain ⟨hxs, hys, hxy⟩ := List.pairwise_append.mp hp
  have hlast_mem : xs.getLast hne ∈ xs := List.getLast_mem hne
  have hle : ∀ x ∈ xs, x.FirstEventID ≤ (xs.getLast hne).FirstEventID := by
    intro x hx
    have hsplit := List.dropLast_append_getLast hne
    rw [← hsplit] at hx hxs
    rcases List.mem_append.mp hx with h | h
    · exact le_of_lt ((List.pairwise_append.mp hxs).2.2 x h _ (by simp))
    · simp at h
      rw [h]
  rw [List.filter_append]
  have h1 : xs.filter (fun r => decide ((xs.getLast hne).FirstEventID + 1 ≤ r.FirstEventID))
      = [] := by
    rw [List.filter_eq_nil_iff]
    intro x hx
    have := hle x hx
    simp only [decide_eq_true_eq, not_le]
    omega
  have h2 : ys.filter (fun r => decide ((xs.getLast hne).FirstEventID + 1 ≤ r.FirstEventID))
      = ys := by
    rw [List.filter_eq_self]
    intro y hy
    have := hxy _ hlast_mem y hy
    simp only [decide_eq_true_eq]
    omega
  rw [h1, h2, List.nil_append]

theorem buildResponse_eq (env : SqlEnv) (q : InternalGetWorkflowExecutionHistoryRequest)
    (o : Int) (rows : List EventsRow) :
    buildResponse env q o rows =
      { History := (shadowRule (eventBatchVersion env) q.LastEventBatchVersion rows).map
          eventBatch,
        LastEventBatchVersion :=
          shadowMax (eventBatchVersion env) q.LastEventBatchVersion rows,
        NextPageToken :=
          if (rows.length : Int) ≥ q.PageSize then
            env.serializePageToken (lastFirstEventID o rows)
          else [] } := by
  simp [buildResponse, scanRows_eq]

theorem scannedRows_select (table : List EventsRow) (f : EventsFilter) (log : List DBCall) :
    scannedRows table (.SelectFromEvents f :: log) =
      selectFromEvents table f ++ scannedRows table log := by
  simp [scannedRows]

theorem readAllPages_from (env : SqlEnv) (table : List EventsRow)
    (hround : ∀ x, isInt64 x → env.deserializePageToken (env.serializePageToken x) = .ok x)
    (hser : ∀ x, env.serializePageToken x ≠ [])
    (hord : TableOrdered table) :
    ∀ (fuel : Nat) (q : InternalGetWorkflowExecutionHistoryRequest) (o : Int),
      1 ≤ q.PageSize → isInt64 q.NextEventID → startOffset env q = .ok o →
      (rowsInRange table q (wrapInt64 (o + 1))).length < fuel →
      ∃ log, readAllPages env (tableDB env table) fuel q =
          some (.ok ((shadowRule (eventBatchVersion env) q.LastEventBatchVersion
            (rowsInRange table q (wrapInt64 (o + 1)))).map eventBatch), log) ∧
        scannedRows table log = rowsInRange table q (wrapInt64 (o + 1)) := by
  intro fuel
  induction fuel with
  | zero =>
    intro q o _ _ _ h
    exact absurd h (Nat.not_lt_zero _)
  | succ fuel ih =>
    intro q o hpage hnext hoff hlen
    obtain ⟨a, ha⟩ : ∃ a, a = wrapInt64 (o + 1) := ⟨_, rfl⟩
    obtain ⟨B, hB⟩ : ∃ B, B = rowsInRange table q a := ⟨_, rfl⟩
    rw [← ha, ← hB] at hlen ⊢
    have hp : 1 ≤ q.PageSize.toNat := by omega
    have hpcast : (q.PageSize.toNat : Int) = q.PageSize := Int.toNat_of_nonneg (by omega)
    have hselrows : selectFromEvents table (selectFilter q o) = B.take q.PageSize.toNat := by
      rw [selectFromEvents_selectFilter, ← ha, ← hB]
    have hsel : (tableDB env table).SelectFromEvents (selectFilter q o)
        = .ok (B.take q.PageSize.toNat) := by
      show Except.ok (selectFromEvents table _) = _
      rw [hselrows]
    by_cases hrows : B.take q.PageSize.toNat = []
    · have hBnil : B = [] := by
        cases B with
        | nil => rfl
        | cons b bs =>
          obtain ⟨n, hn⟩ : ∃ n, q.PageSize.toNat = n + 1 := ⟨q.PageSize.toNat - 1, by omega⟩
          rw [hn] at hrows
          simp at hrows
      rw [hrows] at hsel
      have hget := GetWorkflowExecutionHistory_empty env _ q o hoff hsel
      refine ⟨[.SelectFromEvents (selectFilter q o)], ?_, ?_⟩
      · rw [readAllPages, hget]
        simp [emptyResponse, hBnil, shadowRule]
      · rw [scannedRows_select, hselrows, hrows, hBnil]
        simp [scannedRows]
    · have hget := GetWorkflowExecutionHistory_rows env _ q o _ hoff hsel hrows
      by_cases hfull : ((B.take q.PageSize.toNat).length : Int) ≥ q.PageSize
      · -- a full page: the read goes on behind its last row
        have hBlen : q.PageSize.toNat ≤ B.length := by
          rw [List.length_take] at hfull
          omega
        have hlastmem : (B.take q.PageSize.toNat).getLast hrows ∈ B :=
          List.mem_of_mem_take (List.getLast_mem hrows)
        obtain ⟨-, -, -, -, hlo, hhi⟩ := @mem_rowsInRange table q a _
          (by rw [← hB]; exact hlastmem)
        have hawrap : isInt64 a := by
          rw [ha]
          exact wrapInt64_isInt64 _
        have hk : wrapInt64 (((B.take q.PageSize.toNat).getLast hrows).FirstEventID + 1)
            = ((B.take q.PageSize.toNat).getLast hrows).FirstEventID + 1 := by
          apply wrapInt64_of_isInt64
          unfold isInt64 at hawrap hnext ⊢
          omega
        have hnextrows : rowsInRange table q
            (((B.take q.PageSize.toNat).getLast hrows).FirstEventID + 1)
              = B.drop q.PageSize.toNat := by
          rw [rowsInRange_advance table q a _ (by omega), ← hB]
          have hpair := rowsInRange_pairwise table q a hord
          rw [← hB, ← List.take_append_drop q.PageSize.toNat B] at hpair
          have := filter_after_last _ _ hrows hpair
          rw [List.take_append_drop] at this
          exact this
        have htoklen : (env.serializePageToken
            ((B.take q.PageSize.toNat).getLast hrows).FirstEventID).length ≠ 0 := by
          intro h
          exact hser _ (List.length_eq_zero.mp h)
        have hoff' : startOffset env
            { q with
              NextPageToken := env.serializePageToken
                ((B.take q.PageSize.toNat).getLast hrows).FirstEventID,
              LastEventBatchVersion :=
                shadowMax (eventBatchVersion env) q.LastEventBatchVersion
                  (B.take q.PageSize.toNat) }
            = .ok ((B.take q.PageSize.toNat).getLast hrows).FirstEventID := by
          have hkint : isInt64 ((B.take q.PageSize.toNat).getLast hrows).FirstEventID := by
            unfold isInt64 at hawrap hnext ⊢
            omega
          simp [startOffset, hround _ hkint, Nat.pos_of_ne_zero htoklen]
        have hdroplen : (B.drop q.PageSize.toNat).length < fuel := by
          rw [List.length_drop]
          omega
        obtain ⟨log', hrec, hscan⟩ := ih
          { q with
            NextPageToken := env.serializePageToken
              ((B.take q.PageSize.toNat).getLast hrows).FirstEventID,
            LastEventBatchVersion :=
              shadowMax (eventBatchVersion env) q.LastEventBatchVersion
                (B.take q.PageSize.toNat) } _ hpage hnext hoff' (by
          rw [hk]
          show (rowsInRange table q _).length < fuel
          rw [hnextrows]
          exact hdroplen)
        rw [hk] at hrec hscan
        change readAllPages env (tableDB env table) fuel _ =
          some (.ok ((shadowRule (eventBatchVersion env) _
            (rowsInRange table q _)).map eventBatch), log') at hrec
        change scannedRows table log' = rowsInRange table q _ at hscan
        rw [hnextrows] at hrec hscan
        refine ⟨.SelectFromEvents (selectFilter q o) :: log', ?_, ?_⟩
        · rw [readAllPages, hget, buildResponse_eq]
          simp only [hfull, if_true, lastFirstEventID_getLast _ _ hrows, htoklen, if_false,
            hrec]
          have hsplit : B = B.take q.PageSize.toNat ++ B.drop q.PageSize.toNat :=
            (List.take_append_drop _ _).symm
          conv_rhs => rw [hsplit, shadowRule_append, List.map_append]
          simp
        · rw [scannedRows_select, hselrows, hscan, List.take_append_drop]
      · -- a short page: the last one
        have hBlen : B.length < q.PageSize.toNat := by
          rw [List.length_take] at hfull
          omega
        have htake : B.take q.PageSize.toNat = B := List.take_of_length_le (le_of_lt hBlen)
        refine ⟨[.SelectFromEvents (selectFilter q o)], ?_, ?_⟩
        · have hshort : ¬ ((B.length : Int) ≥ q.PageSize) := by omega
          rw [readAllPages, hget, buildResponse_eq, htake]
          simp [hshort]
        · rw [scannedRows_select, hselrows, htake]
          simp [scannedRows]

theorem specEnv_serialize_ne_nil (x : Int) : specEnv.serializePageToken x ≠ [] := by
  simp [specEnv, List.range_succ]

theorem specEnv_roundtrip (x : Int) (hx : isInt64 x) :
    specEnv.deserializePageToken (specEnv.serializePageToken x) = .ok x := by
  unfold isInt64 at hx
  obtain ⟨n, hn⟩ : ∃ n : Nat, (x % 2 ^ 64).toNat = n := ⟨_, rfl⟩
  have hn64 : n < 2 ^ 64 := by omega
  have hwrap : wrapInt64 (n : Int) = x := by
    unfold wrapInt64
    omega
  have hdig : (n : Int) = ((n / 256 ^ 0 % 256 : Nat) : Int) * 256 ^ 0
      + ((n / 256 ^ 1 % 256 : Nat) : Int) * 256 ^ 1
      + ((n / 256 ^ 2 % 256 : Nat) : Int) * 256 ^ 2
      + ((n / 256 ^ 3 % 256 : Nat) : Int) * 256 ^ 3
      + ((n / 256 ^ 4 % 256 : Nat) : Int) * 256 ^ 4
      + ((n / 256 ^ 5 % 256 : Nat) : Int) * 256 ^ 5
      + ((n / 256 ^ 6 % 256 : Nat) : Int) * 256 ^ 6
      + ((n / 256 ^ 7 % 256 : Nat) : Int) * 256 ^ 7 := by
    norm_num
    omega
  simp only [specEnv, hn]
  simp only [List.range_succ, List.range_zero, List.nil_append, List.cons_append, List.map_cons,
    List.map_nil, List.length_cons, List.length_nil, List.foldl_cons, List.foldl_nil,
    List.getD_cons_zero, List.getD_cons_succ]
  rw [if_pos trivial, zero_add, ← hdig, hwrap]

/-- C7: assuming the page token round-trips on int64 offsets and is never
empty, and the table lists the rows of an execution by ascending
first-event-id, then for every range `[first, next)`, every page size ≥ 1 and
every number of reads greater than the number of rows in the range, reading
page by page from the first page ends and yields, concatenated, exactly the
batches of a single read whose page size exceeds the number of rows: the
pages scan every row of the range once, in order, and the batches are those
the shadow rule keeps. -/
theorem C7_paged_read_eq_one_shot (env : SqlEnv) (table : List EventsRow)
    (request : InternalGetWorkflowExecutionHistoryRequest) (bigPage : Int) (fuel : Nat)
    (hround : ∀ x, isInt64 x → env.deserializePageToken (env.serializePageToken x) = .ok x)
    (hser : ∀ x, env.serializePageToken x ≠ [])
    (hord : TableOrdered table)
    (hfirst : isInt64 request.FirstEventID) (hnext : isInt64 request.NextEventID)
    (htok : request.NextPageToken = [])
    (hpage : 1 ≤ request.PageSize)
    (hbig : ((rowsInRange table request request.FirstEventID).length : Int) < bigPage)
    (hfuel : (rowsInRange table request request.FirstEventID).length < fuel) :
    ∃ resp log,
      (GetWorkflowExecutionHistory env (tableDB env table)
        { request with PageSize := bigPage }).1 = .ok resp ∧
      resp.NextPageToken = [] ∧
      readAllPages env (tableDB env table) fuel request = some (.ok resp.History, log) ∧
      scannedRows table log = rowsInRange table request request.FirstEventID ∧
      resp.History =
        (shadowRule (eventBatchVersion env) request.LastEventBatchVersion
          (rowsInRange table request request.FirstEventID)).map eventBatch := by
  have hoff := startOffset_no_token env request htok
  have hstart : wrapInt64 (wrapInt64 (request.FirstEventID - 1) + 1) = request.FirstEventID :=
    wrapInt64_pred_succ _ hfirst
  obtain ⟨log, hread, hscan⟩ := readAllPages_from env table hround hser hord fuel request _
    hpage hnext hoff (by rw [hstart]; exact hfuel)
  rw [hstart] at hread hscan
  -- the single read
  have hoff1 : startOffset env { request with PageSize := bigPage }
      = .ok (wrapInt64 (request.FirstEventID - 1)) :=
    startOffset_no_token env _ htok
  have hselrows : selectFromEvents table
      (selectFilter { request with PageSize := bigPage } (wrapInt64 (request.FirstEventID - 1)))
        = rowsInRange table request request.FirstEventID := by
    rw [selectFromEvents_selectFilter, hstart]
    show (rowsInRange table request request.FirstEventID).take bigPage.toNat = _
    apply List.take_of_length_le
    omega
  have hsel : (tableDB env table).SelectFromEvents
      (selectFilter { request with PageSize := bigPage } (wrapInt64 (request.FirstEventID - 1)))
        = .ok (rowsInRange table request request.FirstEventID) := by
    show Except.ok (selectFromEvents table _) = _
    rw [hselrows]
  by_cases hnil : rowsInRange table request request.FirstEventID = []
  · refine ⟨emptyResponse, log, ?_, rfl, ?_, hscan, ?_⟩
    · rw [hnil] at hsel
      rw [GetWorkflowExecutionHistory_empty env _ _ _ hoff1 hsel]
    · rw [hread, hnil]
      simp [shadowRule, emptyResponse]
    · rw [hnil]
      simp [shadowRule, emptyResponse]
  · refine ⟨buildResponse env { request with PageSize := bigPage }
      (wrapInt64 (request.FirstEventID - 1))
      (rowsInRange table request request.FirstEventID), log, ?_, ?_, ?_, hscan, ?_⟩
    · rw [GetWorkflowExecutionHistory_rows env _ _ _ _ hoff1 hsel hnil]
    · rw [buildResponse_eq]
      have : ¬ ((rowsInRange table request request.FirstEventID).length : Int) ≥ bigPage := by
        omega
      simp [this]
    · rw [hread, buildResponse_eq]
    · rw [buildResponse_eq]

/-- The sample table is in primary-key order. -/
theorem sampleTable_ordered : TableOrdered sampleTable := by
  unfold TableOrdered sampleTable
  decide

/-- C7 (witness): the sample table read in pages of 2 and in one read of
page size 100. -/
theorem C7_paged_read_eq_one_shot_witness :
    TableOrdered sampleTable ∧ 1 ≤ (sampleRead 0 1 25 2).PageSize ∧
      (rowsInRange sampleTable (sampleRead 0 1 25 2) (sampleRead 0 1 25 2).FirstEventID).length
        < 6 ∧
      ∃ resp log,
        (GetWorkflowExecutionHistory specEnv (tableDB specEnv sampleTable)
          { sampleRead 0 1 25 2 with PageSize := 100 }).1 = .ok resp ∧
        resp.NextPageToken = [] ∧
        readAllPages specEnv (tableDB specEnv sampleTable) 6 (sampleRead 0 1 25 2)
          = some (.ok resp.History, log) ∧
        scannedRows sampleTable log =
          rowsInRange sampleTable (sampleRead 0 1 25 2) (sampleRead 0 1 25 2).FirstEventID ∧
        resp.History =
          (shadowRule (eventBatchVersion specEnv) (sampleRead 0 1 25 2).LastEventBatchVersion
            (rowsInRange sampleTable (sampleRead 0 1 25 2)
              (sampleRead 0 1 25 2).FirstEventID)).map eventBatch :=
  ⟨sampleTable_ordered, by decide, by decide,
    C7_paged_read_eq_one_shot specEnv sampleTable (sampleRead 0 1 25 2) 100 6
      specEnv_roundtrip specEnv_serialize_ne_nil sampleTable_ordered (by decide) (by decide)
      rfl (by decide) (by decide) (by decide)⟩

/-! ## More claims on `DeleteWorkflowExecutionHistoryV2` -/

/-- The function when the first delete succeeds. -/
theorem DeleteWorkflowExecutionHistoryV2_done (w : V2World) (branchToken : Bytes)
    (shardID : Option Int)
    (h : w.DeleteHistoryBranch [] (deleteRequest branchToken shardID) = none) :
    DeleteWorkflowExecutionHistoryV2 w branchToken shardID =
      (none, [.DeleteHistoryBranch (deleteRequest branchToken shardID)]) := by
  unfold DeleteWorkflowExecutionHistoryV2
  simp only [deleteRequest] at h ⊢
  simp only [h]

/-- The function when the first delete fails with an error that is not a
`ConditionFailedError`. -/
theorem DeleteWorkflowExecutionHistoryV2_other (w : V2World) (branchToken : Bytes)
    (shardID : Option Int) (e : Err)
    (h : w.DeleteHistoryBranch [] (deleteRequest branchToken shardID) = some e)
    (hcf : e.isConditionFailed = false) :
    DeleteWorkflowExecutionHistoryV2 w branchToken shardID =
      (some e, [.DeleteHistoryBranch (deleteRequest branchToken shardID)]) := by
  unfold DeleteWorkflowExecutionHistoryV2
  simp only [deleteRequest] at h ⊢
  simp only [h, hcf, Bool.not_false, if_true]

/-- The function when the tree cannot be read. -/
theorem DeleteWorkflowExecutionHistoryV2_tree_error (w : V2World) (branchToken : Bytes)
    (shardID : Option Int) (e treeErr : Err)
    (h : w.DeleteHistoryBranch [] (deleteRequest branchToken shardID) = some e)
    (hcf : e.isConditionFailed = true)
    (htree : w.GetHistoryTree [.DeleteHistoryBranch (deleteRequest branchToken shardID)]
      (treeRequest branchToken shardID) = .error treeErr) :
    DeleteWorkflowExecutionHistoryV2 w branchToken shardID =
      (some treeErr, [.DeleteHistoryBranch (deleteRequest branchToken shardID),
        .GetHistoryTree (treeRequest branchToken shardID)]) := by
  unfold DeleteWorkflowExecutionHistoryV2
  simp only [deleteRequest, treeRequest] at h htree ⊢
  simp only [h, hcf, htree, Bool.not_true, Bool.false_eq_true, if_false]

/-- C11: when the first `DeleteHistoryBranch` returns nil the function returns
nil, and when it returns an error that is not a `ConditionFailedError` the
function returns exactly that error; in both cases the first delete is the
only thing the function does (no tree read, no completion, no second delete,
no warning).  An error of `GetHistoryTree` is returned unchanged after the
first delete and the tree read, with nothing further. -/
theorem C11_first_delete_pass_through (w : V2World) (branchToken : Bytes)
    (shardID : Option Int) :
    (w.DeleteHistoryBranch [] (deleteRequest branchToken shardID) = none →
        DeleteWorkflowExecutionHistoryV2 w branchToken shardID =
          (none, [.DeleteHistoryBranch (deleteRequest branchToken shardID)])) ∧
      (∀ e, w.DeleteHistoryBranch [] (deleteRequest branchToken shardID) = some e →
        e.isConditionFailed = false →
        DeleteWorkflowExecutionHistoryV2 w branchToken shardID =
          (some e, [.DeleteHistoryBranch (deleteRequest branchToken shardID)])) ∧
      (∀ e treeErr, w.DeleteHistoryBranch [] (deleteRequest branchToken shardID) = some e →
        e.isConditionFailed = true →
        w.GetHistoryTree [.DeleteHistoryBranch (deleteRequest branchToken shardID)]
          (treeRequest branchToken shardID) = .error treeErr →
        DeleteWorkflowExecutionHistoryV2 w branchToken shardID =
          (some treeErr, [.DeleteHistoryBranch (deleteRequest branchToken shardID),
            .GetHistoryTree (treeRequest branchToken shardID)])) :=
  ⟨DeleteWorkflowExecutionHistoryV2_done w branchToken shardID,
    fun e => DeleteWorkflowExecutionHistoryV2_other w branchToken shardID e,
    fun e treeErr => DeleteWorkflowExecutionHistoryV2_tree_error w branchToken shardID e treeErr⟩

/-- C11 (witness): a manager whose first delete succeeds. -/
theorem C11_first_delete_pass_through_witness :
    ({ sampleWorld 0 with DeleteHistoryBranch := fun _ _ => none } : V2World).DeleteHistoryBranch
        [] (deleteRequest [7] (some 1)) = none ∧
      DeleteWorkflowExecutionHistoryV2
          { sampleWorld 0 with DeleteHistoryBranch := fun _ _ => none } [7] (some 1) =
        (none, [.DeleteHistoryBranch (deleteRequest [7] (some 1))]) :=
  ⟨rfl,
    (C11_first_delete_pass_through
      { sampleWorld 0 with DeleteHistoryBranch := fun _ _ => none } [7] (some 1)).1 rfl⟩

/-- Whatever the manager and the clock do, the fork loop only adds
`CompleteForkBranch` calls with `Success = true` and the shard id of the
caller to the log. -/
theorem forkLoop_log (w : V2World) (branchToken : Bytes) (shardID : Option Int)
    (brs : List HistoryBranchDetail) (logInfo : String) (log : List V2Call) :
    ∃ extra, (forkLoop w branchToken shardID brs logInfo log).2.2 = log ++ extra ∧
      ∀ c ∈ extra, ∃ bt, c = .CompleteForkBranch
        { Success := true, BranchToken := bt, ShardID := shardID } := by
  induction brs generalizing logInfo log with
  | nil => exact ⟨[], by simp [forkLoop], by simp⟩
  | cons br rest ih =>
    rw [forkLoop]
    by_cases hstale : w.timeNow log > br.ForkTime + timeMinute
    · simp only [hstale, if_true]
      cases hbt : w.NewHistoryBranchTokenFromAnother br.BranchID branchToken with
      | error err => exact ⟨[], by simp, by simp⟩
      | ok bt =>
        cases hc : w.CompleteForkBranch log (CompleteForkBranchRequest.mk bt true shardID) with
        | some err =>
          refine ⟨[.CompleteForkBranch (CompleteForkBranchRequest.mk bt true shardID)],
            by simp [hc], ?_⟩
          intro c hcmem
          exact ⟨bt, by simpa using hcmem⟩
        | none =>
          obtain ⟨extra, hlog, hall⟩ := ih (logInfo ++ ";" ++ br.Info)
            (log ++ [.CompleteForkBranch (CompleteForkBranchRequest.mk bt true shardID)])
          refine ⟨.CompleteForkBranch (CompleteForkBranchRequest.mk bt true shardID) :: extra,
            ?_, ?_⟩
          · simp only [hc, hlog, List.append_assoc, List.singleton_append]
          · intro c hcmem
            rcases List.mem_cons.mp hcmem with rfl | h
            · exact ⟨bt, rfl⟩
            · exact hall c h
    · simp only [hstale, if_false]
      exact ⟨[], by simp, by simp⟩

/-- Every log of the function: the first delete alone, or the first delete and
the tree read followed by completions with `Success = true`, at most one
further delete with the request of the caller, and at most one warning. -/
theorem DeleteWorkflowExecutionHistoryV2_log (w : V2World) (branchToken : Bytes)
    (shardID : Option Int) :
    ∃ extra tail, (DeleteWorkflowExecutionHistoryV2 w branchToken shardID).2 =
        .DeleteHistoryBranch (deleteRequest branchToken shardID) :: (extra ++ tail) ∧
      (∀ c ∈ extra, (∃ bt, c = .CompleteForkBranch
          { Success := true, BranchToken := bt, ShardID := shardID }) ∨
        c = .GetHistoryTree (treeRequest branchToken shardID)) ∧
      (tail = [] ∨ (∃ info, tail = [.Warn info]) ∨
        tail = [.DeleteHistoryBranch (deleteRequest branchToken shardID)] ∨
        ∃ info, tail = [.DeleteHistoryBranch (deleteRequest branchToken shardID),
          .Warn info]) := by
  cases hdel : w.DeleteHistoryBranch [] (deleteRequest branchToken shardID) with
  | none =>
    rw [DeleteWorkflowExecutionHistoryV2_done w branchToken shardID hdel]
    exact ⟨[], [], by simp, by simp, Or.inl rfl⟩
  | some err =>
    cases hcf : err.isConditionFailed with
    | false =>
      rw [DeleteWorkflowExecutionHistoryV2_other w branchToken shardID err hdel hcf]
      exact ⟨[], [], by simp, by simp, Or.inl rfl⟩
    | true =>
      cases htree : w.GetHistoryTree [.DeleteHistoryBranch (deleteRequest branchToken shardID)]
          (treeRequest branchToken shardID) with
      | error e =>
        rw [DeleteWorkflowExecutionHistoryV2_tree_error w branchToken shardID err e hdel hcf
          htree]
        exact ⟨[.GetHistoryTree (treeRequest branchToken shardID)], [], by simp, by simp,
          Or.inl rfl⟩
      | ok resp =>
        rw [DeleteWorkflowExecutionHistoryV2_forks w branchToken shardID err resp hdel hcf
          htree]
        by_cases hlen : resp.ForkingInProgressBranches.length > 0
        · simp only [hlen, if_true]
          obtain ⟨extra, hlog, hall⟩ := forkLoop_log w branchToken shardID
            resp.ForkingInProgressBranches "" (logBeforeLoop branchToken shardID)
          rcases hloop : forkLoop w branchToken shardID resp.ForkingInProgressBranches ""
            (logBeforeLoop branchToken shardID) with ⟨ex, info, log⟩
          rw [hloop] at hlog
          simp only at hlog
          have hmem : ∀ c ∈ .GetHistoryTree (treeRequest branchToken shardID) :: extra,
              (∃ bt, c = V2Call.CompleteForkBranch
                { Success := true, BranchToken := bt, ShardID := shardID }) ∨
              c = .GetHistoryTree (treeRequest branchToken shardID) := by
            intro c hc
            rcases List.mem_cons.mp hc with rfl | h
            · exact Or.inr rfl
            · exact Or.inl (hall c h)
          cases ex with
          | returned e =>
            refine ⟨.GetHistoryTree (treeRequest branchToken shardID) :: extra,
              [.Warn info], ?_, hmem, Or.inr (Or.inl ⟨info, rfl⟩)⟩
            simp [hlog, logBeforeLoop]
          | finished =>
            refine ⟨.GetHistoryTree (treeRequest branchToken shardID) :: extra,
              [.DeleteHistoryBranch (deleteRequest branchToken shardID), .Warn info], ?_, hmem,
              Or.inr (Or.inr (Or.inr ⟨info, rfl⟩))⟩
            simp [hlog, logBeforeLoop]
        · simp only [hlen, if_false]
          exact ⟨[.GetHistoryTree (treeRequest branchToken shardID)],
            [.DeleteHistoryBranch (deleteRequest branchToken shardID)],
            by simp [logBeforeLoop], by simp, Or.inr (Or.inr (Or.inl rfl))⟩

/-- C12: over every execution of `DeleteWorkflowExecutionHistoryV2` (any
manager, any fork list, any clock), every `CompleteForkBranch` request it
issues has `Success = true`, every `DeleteHistoryBranch` request it issues is
the request with the branch token and the shard id of the caller, and
`DeleteHistoryBranch` is invoked at most twice. -/
theorem C12_delete_never_discards (w : V2World) (branchToken : Bytes)
    (shardID : Option Int) :
    (∀ r, V2Call.CompleteForkBranch r ∈
        (DeleteWorkflowExecutionHistoryV2 w branchToken shardID).2 → r.Success = true) ∧
      (∀ r, V2Call.DeleteHistoryBranch r ∈
        (DeleteWorkflowExecutionHistoryV2 w branchToken shardID).2 →
          r = { BranchToken := branchToken, ShardID := shardID }) ∧
      ((DeleteWorkflowExecutionHistoryV2 w branchToken shardID).2.filter
        V2Call.isDeleteHistoryBranch).length ≤ 2 := by
  obtain ⟨extra, tail, hlog, hextra, htail⟩ :=
    DeleteWorkflowExecutionHistoryV2_log w branchToken shardID
  rw [hlog]
  have hfe : extra.filter V2Call.isDeleteHistoryBranch = [] := by
    rw [List.filter_eq_nil_iff]
    intro c hc
    rcases hextra c hc with ⟨bt, rfl⟩ | rfl <;> simp [V2Call.isDeleteHistoryBranch]
  refine ⟨?_, ?_, ?_⟩
  · intro r hr
    simp only [List.mem_cons, List.mem_append] at hr
    rcases hr with h | h | h
    · exact absurd h (by simp)
    · rcases hextra _ h with ⟨bt, hb⟩ | hb
      · simp only [V2Call.CompleteForkBranch.injEq] at hb
        rw [hb]
      · exact absurd hb (by simp)
    · rcases htail with rfl | ⟨info, rfl⟩ | rfl | ⟨info, rfl⟩ <;> simp at h
  · intro r hr
    simp only [List.mem_cons, List.mem_append] at hr
    rcases hr with h | h | h
    · simpa [deleteRequest] using h
    · rcases hextra _ h with ⟨bt, hb⟩ | hb
      · exact absurd hb (by simp)
      · exact absurd hb (by simp)
    · rcases htail with rfl | ⟨info, rfl⟩ | rfl | ⟨info, rfl⟩ <;>
        simp [deleteRequest] at h ⊢ <;> exact h
  · rcases htail with rfl | ⟨info, rfl⟩ | rfl | ⟨info, rfl⟩ <;>
      simp [List.filter_cons, List.filter_append, hfe, V2Call.isDeleteHistoryBranch]

/-! ## Claims on `HandleErr` -/

/-- `HandleErr` of an activity task behind the buffer-retry gate, for a
retry-task error with a run id. -/
theorem activityHandleErr_retry (w : ReplWorld) (t : activityReplicationTask)
    (err : Err) (log : List ReplCall) (runId : String) (nextEventId : Int)
    (hgate : w.config.ReplicatorActivityBufferRetryCount ≤ t.attempt)
    (hret : convertRetryTaskError err = some (runId, nextEventId)) (hrun : runId ≠ "") :
    t.HandleErr w err log =
      match w.SendMultiWorkflowHistory
          (log ++ [.IncCounter .HistoryRereplicationByActivityReplicationScope
              .CadenceClientRequests,
            .StartTimer .HistoryRereplicationByActivityReplicationScope .CadenceClientLatency])
          t.queueID.DomainID t.queueID.WorkflowID runId nextEventId t.queueID.RunID
          (wrapInt64 (t.taskID + 1)) with
      | some resendErr =>
        (some err, log ++
          [.IncCounter .HistoryRereplicationByActivityReplicationScope .CadenceClientRequests,
           .StartTimer .HistoryRereplicationByActivityReplicationScope .CadenceClientLatency,
           .SendMultiWorkflowHistory t.queueID.DomainID t.queueID.WorkflowID runId nextEventId
             t.queueID.RunID (wrapInt64 (t.taskID + 1)),
           .LogError "error resend history" resendErr,
           .StopTimer .HistoryRereplicationByActivityReplicationScope .CadenceClientLatency])
      | none =>
        ((t.Execute w (log ++
          [.IncCounter .HistoryRereplicationByActivityReplicationScope .CadenceClientRequests,
           .StartTimer .HistoryRereplicationByActivityReplicationScope .CadenceClientLatency,
           .SendMultiWorkflowHistory t.queueID.DomainID t.queueID.WorkflowID runId nextEventId
             t.queueID.RunID (wrapInt64 (t.taskID + 1))])).1,
         (t.Execute w (log ++
          [.IncCounter .HistoryRereplicationByActivityReplicationScope .CadenceClientRequests,
           .StartTimer .HistoryRereplicationByActivityReplicationScope .CadenceClientLatency,
           .SendMultiWorkflowHistory t.queueID.DomainID t.queueID.WorkflowID runId nextEventId
             t.queueID.RunID (wrapInt64 (t.taskID + 1))])).2 ++
           [.StopTimer .HistoryRereplicationByActivityReplicationScope
             .CadenceClientLatency]) := by
  unfold activityReplicationTask.HandleErr
  simp only [not_lt.mpr hgate, if_false, hret, hrun]
  cases w.SendMultiWorkflowHistory _ t.queueID.DomainID t.queueID.WorkflowID runId nextEventId
      t.queueID.RunID (wrapInt64 (t.taskID + 1)) <;> simp

/-- `HandleErr` of a history task behind the buffer-retry gate, for a
retry-task error with a run id. -/
theorem historyHandleErr_retry (w : ReplWorld) (t : historyReplicationTask)
    (err : Err) (log : List ReplCall) (runId : String) (nextEventId : Int)
    (hgate : w.config.ReplicatorHistoryBufferRetryCount ≤ t.attempt)
    (hret : convertRetryTaskError err = some (runId, nextEventId)) (hrun : runId ≠ "") :
    t.HandleErr w err log =
      match w.SendMultiWorkflowHistory
          (log ++ [.IncCounter .HistoryRereplicationByHistoryReplicationScope
              .CadenceClientRequests,
            .StartTimer .HistoryRereplicationByHistoryReplicationScope .CadenceClientLatency])
          t.queueID.DomainID t.queueID.WorkflowID runId nextEventId t.queueID.RunID
          t.taskID with
      | some resendErr =>
        (some err, log ++
          [.IncCounter .HistoryRereplicationByHistoryReplicationScope .CadenceClientRequests,
           .StartTimer .HistoryRereplicationByHistoryReplicationScope .CadenceClientLatency,
           .SendMultiWorkflowHistory t.queueID.DomainID t.queueID.WorkflowID runId nextEventId
             t.queueID.RunID t.taskID,
           .LogError "error resend history" resendErr,
           .StopTimer .HistoryRereplicationByHistoryReplicationScope .CadenceClientLatency])
      | none =>
        ((t.Execute w (log ++
          [.IncCounter .HistoryRereplicationByHistoryReplicationScope .CadenceClientRequests,
           .StartTimer .HistoryRereplicationByHistoryReplicationScope .CadenceClientLatency,
           .SendMultiWorkflowHistory t.queueID.DomainID t.queueID.WorkflowID runId nextEventId
             t.queueID.RunID t.taskID])).1,
         (t.Execute w (log ++
          [.IncCounter .HistoryRereplicationByHistoryReplicationScope .CadenceClientRequests,
           .StartTimer .HistoryRereplicationByHistoryReplicationScope .CadenceClientLatency,
           .SendMultiWorkflowHistory t.queueID.DomainID t.queueID.WorkflowID runId nextEventId
             t.queueID.RunID t.taskID])).2 ++
           [.StopTimer .HistoryRereplicationByHistoryReplicationScope
             .CadenceClientLatency]) := by
  unfold historyReplicationTask.HandleErr
  simp only [not_lt.mpr hgate, if_false, hret, hrun]
  cases w.SendMultiWorkflowHistory _ t.queueID.DomainID t.queueID.WorkflowID runId nextEventId
      t.queueID.RunID t.taskID <;> simp

/-- `HandleErr` of a history-metadata task for a retry-task error with a run
id, whatever the attempt. -/
theorem metadataHandleErr_retry (w : ReplWorld)
    (t : historyMetadataReplicationTask) (err : Err) (log : List ReplCall) (runId : String)
    (nextEventId : Int)
    (hret : convertRetryTaskError err = some (runId, nextEventId)) (hrun : runId ≠ "") :
    t.HandleErr w err log =
      match w.SendMultiWorkflowHistory
          (log ++ [.IncCounter .HistoryRereplicationByHistoryReplicationScope
              .CadenceClientRequests,
            .StartTimer .HistoryRereplicationByHistoryReplicationScope .CadenceClientLatency])
          t.queueID.DomainID t.queueID.WorkflowID runId nextEventId t.queueID.RunID
          t.taskID with
      | some resendErr =>
        (some err, log ++
          [.IncCounter .HistoryRereplicationByHistoryReplicationScope .CadenceClientRequests,
           .StartTimer .HistoryRereplicationByHistoryReplicationScope .CadenceClientLatency,
           .SendMultiWorkflowHistory t.queueID.DomainID t.queueID.WorkflowID runId nextEventId
             t.queueID.RunID t.taskID,
           .LogError "error resend history" resendErr,
           .StopTimer .HistoryRereplicationByHistoryReplicationScope .CadenceClientLatency])
      | none =>
        ((t.Execute w (log ++
          [.IncCounter .HistoryRereplicationByHistoryReplicationScope .CadenceClientRequests,
           .StartTimer .HistoryRereplicationByHistoryReplicationScope .CadenceClientLatency,
           .SendMultiWorkflowHistory t.queueID.DomainID t.queueID.WorkflowID runId nextEventId
             t.queueID.RunID t.taskID])).1,
         (t.Execute w (log ++
          [.IncCounter .HistoryRereplicationByHistoryReplicationScope .CadenceClientRequests,
           .StartTimer .HistoryRereplicationByHistoryReplicationScope .CadenceClientLatency,
           .SendMultiWorkflowHistory t.queueID.DomainID t.queueID.WorkflowID runId nextEventId
             t.queueID.RunID t.taskID])).2 ++
           [.StopTimer .HistoryRereplicationByHistoryReplicationScope
             .CadenceClientLatency]) := by
  unfold historyMetadataReplicationTask.HandleErr
  simp only [hret, hrun, if_false]
  cases w.SendMultiWorkflowHistory _ t.queueID.DomainID t.queueID.WorkflowID runId nextEventId
      t.queueID.RunID t.taskID <;> simp

theorem activityExecute_log (w : ReplWorld) (t : activityReplicationTask)
    (log : List ReplCall) : (t.Execute w log).2 = log ++ [.SyncActivity t.req] := rfl

theorem historyExecute_log (w : ReplWorld) (t : historyReplicationTask)
    (log : List ReplCall) : (t.Execute w log).2 = log ++ [.ReplicateEvents t.req] := rfl

/-- C13: for an activity task and for a history task whose attempt is at
least its buffer retry count and whose error is a retry-task error with a
non-empty run id, `HandleErr` calls `SendMultiWorkflowHistory` exactly once,
with (task domain, task workflow, err.runId, err.nextEventId, task run,
boundary), where the boundary is `taskID + 1` (an int64 sum) for the activity
task and `taskID` for the history task. -/
theorem C13_rereplication_range (w : ReplWorld) (ta : activityReplicationTask)
    (th : historyReplicationTask) (err : Err) (log : List ReplCall) (runId : String)
    (nextEventId : Int)
    (hret : convertRetryTaskError err = some (runId, nextEventId)) (hrun : runId ≠ "") :
    (w.config.ReplicatorActivityBufferRetryCount ≤ ta.attempt →
        ∃ rest, (ta.HandleErr w err log).2 = log ++
            [.IncCounter .HistoryRereplicationByActivityReplicationScope .CadenceClientRequests,
             .StartTimer .HistoryRereplicationByActivityReplicationScope .CadenceClientLatency,
             .SendMultiWorkflowHistory ta.queueID.DomainID ta.queueID.WorkflowID runId
               nextEventId ta.queueID.RunID (wrapInt64 (ta.taskID + 1))] ++ rest ∧
          ∀ c ∈ rest, c.isSendMultiWorkflowHistory = false) ∧
      (isInt64 (ta.taskID + 1) → wrapInt64 (ta.taskID + 1) = ta.taskID + 1) ∧
      (w.config.ReplicatorHistoryBufferRetryCount ≤ th.attempt →
        ∃ rest, (th.HandleErr w err log).2 = log ++
            [.IncCounter .HistoryRereplicationByHistoryReplicationScope .CadenceClientRequests,
             .StartTimer .HistoryRereplicationByHistoryReplicationScope .CadenceClientLatency,
             .SendMultiWorkflowHistory th.queueID.DomainID th.queueID.WorkflowID runId
               nextEventId th.queueID.RunID th.taskID] ++ rest ∧
          ∀ c ∈ rest, c.isSendMultiWorkflowHistory = false) := by
  refine ⟨?_, wrapInt64_of_isInt64 _, ?_⟩
  · intro hgate
    rw [activityHandleErr_retry w ta err log runId nextEventId hgate hret hrun]
    cases w.SendMultiWorkflowHistory _ ta.queueID.DomainID ta.queueID.WorkflowID runId
        nextEventId ta.queueID.RunID (wrapInt64 (ta.taskID + 1)) with
    | some resendErr =>
      refine ⟨[.LogError "error resend history" resendErr,
        .StopTimer .HistoryRereplicationByActivityReplicationScope .CadenceClientLatency],
        by simp, ?_⟩
      intro c hc
      simp only [List.mem_cons, List.mem_singleton, List.not_mem_nil, or_false] at hc
      rcases hc with rfl | rfl <;> rfl
    | none =>
      refine ⟨[.SyncActivity ta.req,
        .StopTimer .HistoryRereplicationByActivityReplicationScope .CadenceClientLatency],
        by simp [activityExecute_log], ?_⟩
      intro c hc
      simp only [List.mem_cons, List.mem_singleton, List.not_mem_nil, or_false] at hc
      rcases hc with rfl | rfl <;> rfl
  · intro hgate
    rw [historyHandleErr_retry w th err log runId nextEventId hgate hret hrun]
    cases w.SendMultiWorkflowHistory _ th.queueID.DomainID th.queueID.WorkflowID runId
        nextEventId th.queueID.RunID th.taskID with
    | some resendErr =>
      refine ⟨[.LogError "error resend history" resendErr,
        .StopTimer .HistoryRereplicationByHistoryReplicationScope .CadenceClientLatency],
        by simp, ?_⟩
      intro c hc
      simp only [List.mem_cons, List.mem_singleton, List.not_mem_nil, or_false] at hc
      rcases hc with rfl | rfl <;> rfl
    | none =>
      refine ⟨[.ReplicateEvents th.req,
        .StopTimer .HistoryRereplicationByHistoryReplicationScope .CadenceClientLatency],
        by simp [historyExecute_log], ?_⟩
      intro c hc
      simp only [List.mem_cons, List.mem_singleton, List.not_mem_nil, or_false] at hc
      rcases hc with rfl | rfl <;> rfl

/-- C13 (witness): the activity task scheduled at event 7, at attempt 3, is
re-replicated up to event 8. -/
theorem C13_rereplication_range_witness :
    convertRetryTaskError sampleRetryError = some ("run-0", 50) ∧
      ∃ rest, (activityReplicationTask.HandleErr (sampleReplWorld none)
          { newActivityReplicationTask sampleActivityAttributes 0 with attempt := 3 }
          sampleRetryError []).2 = [] ++
            [.IncCounter .HistoryRereplicationByActivityReplicationScope .CadenceClientRequests,
             .StartTimer .HistoryRereplicationByActivityReplicationScope .CadenceClientLatency,
             .SendMultiWorkflowHistory "domain" "wf" "run-0" 50 "run-1" (wrapInt64 (7 + 1))] ++
            rest ∧
          ∀ c ∈ rest, c.isSendMultiWorkflowHistory = false :=
  ⟨rfl,
    (C13_rereplication_range (sampleReplWorld none)
      { newActivityReplicationTask sampleActivityAttributes 0 with attempt := 3 }
      { newHistoryReplicationTask sampleHistoryAttributes "source" 0 with attempt := 3 }
      sampleRetryError [] "run-0" 50 rfl (by decide)).1 (by decide)⟩

/-- C14 (as stated, refuted): the history task built from first event id 100
and next event id 110, at attempt 3 with buffer retry count 3, that receives
a retry-task error for run `run-0`, event 50, calls the rereplicator with end
event id 100, the first event id, and never with 110. -/
theorem C14_counterexample :
    (historyReplicationTask.HandleErr (sampleReplWorld none)
        { newHistoryReplicationTask sampleHistoryAttributes "source" 0 with attempt := 3 }
        sampleRetryError []).2 =
      [.IncCounter .HistoryRereplicationByHistoryReplicationScope .CadenceClientRequests,
       .StartTimer .HistoryRereplicationByHistoryReplicationScope .CadenceClientLatency,
       .SendMultiWorkflowHistory "domain" "wf" "run-0" 50 "run-1" 100,
       .ReplicateEvents (newHistoryReplicationTask sampleHistoryAttributes "source" 0).req,
       .StopTimer .HistoryRereplicationByHistoryReplicationScope .CadenceClientLatency] ∧
      ReplCall.SendMultiWorkflowHistory "domain" "wf" "run-0" 50 "run-1" 110 ∉
        (historyReplicationTask.HandleErr (sampleReplWorld none)
          { newHistoryReplicationTask sampleHistoryAttributes "source" 0 with attempt := 3 }
          sampleRetryError []).2 := by
  constructor
  · rfl
  · decide

/-- C14 (amended): a history replication task built from attributes with first
event id F and next event id N that receives, at an attempt of at least the
buffer retry count, a retry-task error with run id R and next event id E
calls the rereplicator exactly once, with (task domain, task workflow, R, E,
task run, F): the end event id passed is the first event id of the task. -/
theorem C14_rereplication_end_is_first_event (w : ReplWorld) (attr : HistoryTaskAttributes)
    (sourceCluster : String) (now attempt : Int) (err : Err) (log : List ReplCall)
    (runId : String) (nextEventId : Int)
    (hgate : w.config.ReplicatorHistoryBufferRetryCount ≤ attempt)
    (hret : convertRetryTaskError err = some (runId, nextEventId)) (hrun : runId ≠ "") :
    ∃ rest, (historyReplicationTask.HandleErr w
          { newHistoryReplicationTask attr sourceCluster now with attempt := attempt }
          err log).2 = log ++
        [.IncCounter .HistoryRereplicationByHistoryReplicationScope .CadenceClientRequests,
         .StartTimer .HistoryRereplicationByHistoryReplicationScope .CadenceClientLatency,
         .SendMultiWorkflowHistory (attr.DomainId.getD "") (attr.WorkflowId.getD "") runId
           nextEventId (attr.RunId.getD "") (attr.FirstEventId.getD 0)] ++ rest ∧
      ∀ c ∈ rest, c.isSendMultiWorkflowHistory = false := by
  rw [historyHandleErr_retry w _ err log runId nextEventId hgate hret hrun]
  simp only [newHistoryReplicationTask]
  cases w.SendMultiWorkflowHistory _ (attr.DomainId.getD "") (attr.WorkflowId.getD "") runId
      nextEventId (attr.RunId.getD "") (attr.FirstEventId.getD 0) with
  | some resendErr =>
    refine ⟨[.LogError "error resend history" resendErr,
      .StopTimer .HistoryRereplicationByHistoryReplicationScope .CadenceClientLatency],
      by simp, ?_⟩
    intro c hc
    simp only [List.mem_cons, List.mem_singleton, List.not_mem_nil, or_false] at hc
    rcases hc with rfl | rfl <;> rfl
  | none =>
    refine ⟨[.ReplicateEvents (newHistoryReplicationTask attr sourceCluster now).req,
      .StopTimer .HistoryRereplicationByHistoryReplicationScope .CadenceClientLatency],
      by simp [historyExecute_log, newHistoryReplicationTask], ?_⟩
    intro c hc
    simp only [List.mem_cons, List.mem_singleton, List.not_mem_nil, or_false] at hc
    rcases hc with rfl | rfl <;> rfl

/-- C14 (witness): the scenario task, first event id 100. -/
theorem C14_rereplication_end_is_first_event_witness :
    (sampleReplWorld none).config.ReplicatorHistoryBufferRetryCount ≤ 3 ∧
      ∃ rest, (historyReplicationTask.HandleErr (sampleReplWorld none)
            { newHistoryReplicationTask sampleHistoryAttributes "source" 0 with attempt := 3 }
            sampleRetryError []).2 = [] ++
          [.IncCounter .HistoryRereplicationByHistoryReplicationScope .CadenceClientRequests,
           .StartTimer .HistoryRereplicationByHistoryReplicationScope .CadenceClientLatency,
           .SendMultiWorkflowHistory (sampleHistoryAttributes.DomainId.getD "")
             (sampleHistoryAttributes.WorkflowId.getD "") "run-0" 50
             (sampleHistoryAttributes.RunId.getD "")
             (sampleHistoryAttributes.FirstEventId.getD 0)] ++ rest ∧
        ∀ c ∈ rest, c.isSendMultiWorkflowHistory = false :=
  ⟨by decide,
    C14_rereplication_end_is_first_event (sampleReplWorld none) sampleHistoryAttributes
      "source" 0 3 sampleRetryError [] "run-0" 50 (by decide) rfl (by decide)⟩

/-- C15: after the re-replication attempt of `HandleErr` (made for a
retry-task error with a non-empty run id, by an activity or history task
behind its buffer-retry gate and by a history-metadata task), for each of the
three task variants: when `SendMultiWorkflowHistory` returns an error, `HandleErr`
returns the error it was given (not the resend error) and ends after logging
the resend error, without `Execute`; when `SendMultiWorkflowHistory`
succeeds, `HandleErr` runs `Execute` once, right after the resend, and
returns the result of that run. -/
theorem C15_outcome_after_rereplication (w : ReplWorld) (ta : activityReplicationTask)
    (th : historyReplicationTask) (tm : historyMetadataReplicationTask) (err : Err)
    (log : List ReplCall) (runId : String) (nextEventId : Int)
    (hret : convertRetryTaskError err = some (runId, nextEventId)) (hrun : runId ≠ "") :
    (w.config.ReplicatorActivityBufferRetryCount ≤ ta.attempt →
      (∀ resendErr, w.SendMultiWorkflowHistory
          (log ++ [.IncCounter .HistoryRereplicationByActivityReplicationScope
              .CadenceClientRequests,
            .StartTimer .HistoryRereplicationByActivityReplicationScope .CadenceClientLatency])
          ta.queueID.DomainID ta.queueID.WorkflowID runId nextEventId ta.queueID.RunID
          (wrapInt64 (ta.taskID + 1)) = some resendErr →
        ta.HandleErr w err log = (some err, log ++
          [.IncCounter .HistoryRereplicationByActivityReplicationScope .CadenceClientRequests,
           .StartTimer .HistoryRereplicationByActivityReplicationScope .CadenceClientLatency,
           .SendMultiWorkflowHistory ta.queueID.DomainID ta.queueID.WorkflowID runId
             nextEventId ta.queueID.RunID (wrapInt64 (ta.taskID + 1)),
           .LogError "error resend history" resendErr,
           .StopTimer .HistoryRereplicationByActivityReplicationScope
             .CadenceClientLatency])) ∧
      (w.SendMultiWorkflowHistory
          (log ++ [.IncCounter .HistoryRereplicationByActivityReplicationScope
              .CadenceClientRequests,
            .StartTimer .HistoryRereplicationByActivityReplicationScope .CadenceClientLatency])
          ta.queueID.DomainID ta.queueID.WorkflowID runId nextEventId ta.queueID.RunID
          (wrapInt64 (ta.taskID + 1)) = none →
        ta.HandleErr w err log =
          ((ta.Execute w (log ++
            [.IncCounter .HistoryRereplicationByActivityReplicationScope .CadenceClientRequests,
             .StartTimer .HistoryRereplicationByActivityReplicationScope .CadenceClientLatency,
             .SendMultiWorkflowHistory ta.queueID.DomainID ta.queueID.WorkflowID runId
               nextEventId ta.queueID.RunID (wrapInt64 (ta.taskID + 1))])).1,
           (ta.Execute w (log ++
            [.IncCounter .HistoryRereplicationByActivityReplicationScope .CadenceClientRequests,
             .StartTimer .HistoryRereplicationByActivityReplicationScope .CadenceClientLatency,
             .SendMultiWorkflowHistory ta.queueID.DomainID ta.queueID.WorkflowID runId
               nextEventId ta.queueID.RunID (wrapInt64 (ta.taskID + 1))])).2 ++
            [.StopTimer .HistoryRereplicationByActivityReplicationScope
              .CadenceClientLatency]))) ∧
    (w.config.ReplicatorHistoryBufferRetryCount ≤ th.attempt →
      (∀ resendErr, w.SendMultiWorkflowHistory
          (log ++ [.IncCounter .HistoryRereplicationByHistoryReplicationScope
              .CadenceClientRequests,
            .StartTimer .HistoryRereplicationByHistoryReplicationScope .CadenceClientLatency])
          th.queueID.DomainID th.queueID.WorkflowID runId nextEventId th.queueID.RunID
          th.taskID = some resendErr →
        th.HandleErr w err log = (some err, log ++
          [.IncCounter .HistoryRereplicationByHistoryReplicationScope .CadenceClientRequests,
           .StartTimer .HistoryRereplicationByHistoryReplicationScope .CadenceClientLatency,
           .SendMultiWorkflowHistory th.queueID.DomainID th.queueID.WorkflowID runId
             nextEventId th.queueID.RunID th.taskID,
           .LogError "error resend history" resendErr,
           .StopTimer .HistoryRereplicationByHistoryReplicationScope
             .CadenceClientLatency])) ∧
      (w.SendMultiWorkflowHistory
          (log ++ [.IncCounter .HistoryRereplicationByHistoryReplicationScope
              .CadenceClientRequests,
            .StartTimer .HistoryRereplicationByHistoryReplicationScope .CadenceClientLatency])
          th.queueID.DomainID th.queueID.WorkflowID runId nextEventId th.queueID.RunID
          th.taskID = none →
        th.HandleErr w err log =
          ((th.Execute w (log ++
            [.IncCounter .HistoryRereplicationByHistoryReplicationScope .CadenceClientRequests,
             .StartTimer .HistoryRereplicationByHistoryReplicationScope .CadenceClientLatency,
             .SendMultiWorkflowHistory th.queueID.DomainID th.queueID.WorkflowID runId
               nextEventId th.queueID.RunID th.taskID])).1,
           (th.Execute w (log ++
            [.IncCounter .HistoryRereplicationByHistoryReplicationScope .CadenceClientRequests,
             .StartTimer .HistoryRereplicationByHistoryReplicationScope .CadenceClientLatency,
             .SendMultiWorkflowHistory th.queueID.DomainID th.queueID.WorkflowID runId
               nextEventId th.queueID.RunID th.taskID])).2 ++
            [.StopTimer .HistoryRereplicationByHistoryReplicationScope
              .CadenceClientLatency]))) ∧
    ((∀ resendErr, w.SendMultiWorkflowHistory
          (log ++ [.IncCounter .HistoryRereplicationByHistoryReplicationScope
              .CadenceClientRequests,
            .StartTimer .HistoryRereplicationByHistoryReplicationScope .CadenceClientLatency])
          tm.queueID.DomainID tm.queueID.WorkflowID runId nextEventId tm.queueID.RunID
          tm.taskID = some resendErr →
        tm.HandleErr w err log = (some err, log ++
          [.IncCounter .HistoryRereplicationByHistoryReplicationScope .CadenceClientRequests,
           .StartTimer .HistoryRereplicationByHistoryReplicationScope .CadenceClientLatency,
           .SendMultiWorkflowHistory tm.queueID.DomainID tm.queueID.WorkflowID runId
             nextEventId tm.queueID.RunID tm.taskID,
           .LogError "error resend history" resendErr,
           .StopTimer .HistoryRereplicationByHistoryReplicationScope
             .CadenceClientLatency])) ∧
      (w.SendMultiWorkflowHistory
          (log ++ [.IncCounter .HistoryRereplicationByHistoryReplicationScope
              .CadenceClientRequests,
            .StartTimer .HistoryRereplicationByHistoryReplicationScope .CadenceClientLatency])
          tm.queueID.DomainID tm.queueID.WorkflowID runId nextEventId tm.queueID.RunID
          tm.taskID = none →
        tm.HandleErr w err log =
          ((tm.Execute w (log ++
            [.IncCounter .HistoryRereplicationByHistoryReplicationScope .CadenceClientRequests,
             .StartTimer .HistoryRereplicationByHistoryReplicationScope .CadenceClientLatency,
             .SendMultiWorkflowHistory tm.queueID.DomainID tm.queueID.WorkflowID runId
               nextEventId tm.queueID.RunID tm.taskID])).1,
           (tm.Execute w (log ++
            [.IncCounter .HistoryRereplicationByHistoryReplicationScope .CadenceClientRequests,
             .StartTimer .HistoryRereplicationByHistoryReplicationScope .CadenceClientLatency,
             .SendMultiWorkflowHistory tm.queueID.DomainID tm.queueID.WorkflowID runId
               nextEventId tm.queueID.RunID tm.taskID])).2 ++
            [.StopTimer .HistoryRereplicationByHistoryReplicationScope
              .CadenceClientLatency]))) := by
  refine ⟨fun hgateA => ⟨?_, ?_⟩, fun hgateH => ⟨?_, ?_⟩, ⟨?_, ?_⟩⟩
  · intro resendErr h
    rw [activityHandleErr_retry w ta err log runId nextEventId hgateA hret hrun, h]
  · intro h
    rw [activityHandleErr_retry w ta err log runId nextEventId hgateA hret hrun, h]
  · intro resendErr h
    rw [historyHandleErr_retry w th err log runId nextEventId hgateH hret hrun, h]
  · intro h
    rw [historyHandleErr_retry w th err log runId nextEventId hgateH hret hrun, h]
  · intro resendErr h
    rw [metadataHandleErr_retry w tm err log runId nextEventId hret hrun, h]
  · intro h
    rw [metadataHandleErr_retry w tm err log runId nextEventId hret hrun, h]

/-- C15 (witness): the resend of the scenario history task fails with a
service-busy error; `HandleErr` returns the retry-task error it was given. -/
theorem C15_outcome_after_rereplication_witness :
    (sampleReplWorld (some (.ServiceBusyError "busy"))).config.ReplicatorHistoryBufferRetryCount
        ≤ 3 ∧
      (historyReplicationTask.HandleErr (sampleReplWorld (some (.ServiceBusyError "busy")))
          { newHistoryReplicationTask sampleHistoryAttributes "source" 0 with attempt := 3 }
          sampleRetryError []).1 = some sampleRetryError :=
  ⟨by decide,
    congrArg Prod.fst
      (((C15_outcome_after_rereplication (sampleReplWorld (some (.ServiceBusyError "busy")))
        { newActivityReplicationTask sampleActivityAttributes 0 with attempt := 3 }
        { newHistoryReplicationTask sampleHistoryAttributes "source" 0 with attempt := 3 }
        (newHistoryMetadataReplicationTask sampleMetadataAttributes "source" 0)
        sampleRetryError [] "run-0" 50 rfl (by decide)).2.1 (by decide)).1
          (.ServiceBusyError "busy") rfl)⟩

/-- C16: for every activity task with attempt below
`ReplicatorActivityBufferRetryCount` and every history task with attempt below
`ReplicatorHistoryBufferRetryCount`, and for every error, `HandleErr` returns
the given error unchanged and does nothing else (no rereplicator call, no
`Execute`). -/
theorem C16_buffer_retry_gate (w : ReplWorld) (ta : activityReplicationTask)
    (th : historyReplicationTask) (err : Err) (log : List ReplCall) :
    (ta.attempt < w.config.ReplicatorActivityBufferRetryCount →
        ta.HandleErr w err log = (some err, log)) ∧
      (th.attempt < w.config.ReplicatorHistoryBufferRetryCount →
        th.HandleErr w err log = (some err, log)) := by
  constructor
  · intro h
    simp [activityReplicationTask.HandleErr, h]
  · intro h
    simp [historyReplicationTask.HandleErr, h]

/-- C16 (witness): a freshly built history task, attempt 0, with buffer retry
count 3 returns a retry-task error unchanged. -/
theorem C16_buffer_retry_gate_witness :
    (newHistoryReplicationTask sampleHistoryAttributes "source" 0).attempt <
        (sampleReplWorld none).config.ReplicatorHistoryBufferRetryCount ∧
      historyReplicationTask.HandleErr (sampleReplWorld none)
          (newHistoryReplicationTask sampleHistoryAttributes "source" 0) sampleRetryError []
        = (some sampleRetryError, []) :=
  ⟨by decide,
    (C16_buffer_retry_gate (sampleReplWorld none)
      (newActivityReplicationTask sampleActivityAttributes 0)
      (newHistoryReplicationTask sampleHistoryAttributes "source" 0) sampleRetryError []).2
      (by decide)⟩

/-- C17 (as stated, refuted): a freshly built history-metadata task, attempt
0, with both buffer retry counts 3, given a retry-task error with a run id,
does not return it unchanged: it invokes re-replication and then `Execute`,
whose result (nil) it returns. -/
theorem C17_counterexample :
    (newHistoryMetadataReplicationTask sampleMetadataAttributes "source" 0).attempt <
        (sampleReplWorld none).config.ReplicatorHistoryBufferRetryCount ∧
      (newHistoryMetadataReplicationTask sampleMetadataAttributes "source" 0).attempt <
        (sampleReplWorld none).config.ReplicatorActivityBufferRetryCount ∧
      historyMetadataReplicationTask.HandleErr (sampleReplWorld none)
          (newHistoryMetadataReplicationTask sampleMetadataAttributes "source" 0)
          sampleRetryError [] =
        (none,
          [.IncCounter .HistoryRereplicationByHistoryReplicationScope .CadenceClientRequests,
           .StartTimer .HistoryRereplicationByHistoryReplicationScope .CadenceClientLatency,
           .SendMultiWorkflowHistory "domain" "wf" "run-0" 50 "run-1" 100,
           .IncCounter .HistoryRereplicationByHistoryMetadataReplicationScope
             .CadenceClientRequests,
           .StartTimer .HistoryRereplicationByHistoryMetadataReplicationScope
             .CadenceClientLatency,
           .SendMultiWorkflowHistory "domain" "wf" "run-1" 100 "run-1" 110,
           .StopTimer .HistoryRereplicationByHistoryMetadataReplicationScope
             .CadenceClientLatency,
           .StopTimer .HistoryRereplicationByHistoryReplicationScope
             .CadenceClientLatency]) := by
  refine ⟨by decide, by decide, rfl⟩

/-- C17 (amended): `HandleErr` of a history-metadata task has no buffer-retry
gate: it does not depend on the attempt or on the buffer retry counts, and
for every attempt a retry-task error with a non-empty run id makes it invoke
re-replication with (task domain, task workflow, err.runId, err.nextEventId,
task run, taskID) first; the given error is returned unchanged without
re-replication only when it is not a retry-task error with a non-empty run
id. -/
theorem C17_metadata_has_no_gate (w : ReplWorld) (t : historyMetadataReplicationTask)
    (err : Err) (log : List ReplCall) :
    (∀ attempt activityCount historyCount,
        historyMetadataReplicationTask.HandleErr
          { w with config := { w.config with
              ReplicatorActivityBufferRetryCount := activityCount,
              ReplicatorHistoryBufferRetryCount := historyCount } }
          { t with attempt := attempt } err log = t.HandleErr w err log) ∧
      (∀ runId nextEventId, convertRetryTaskError err = some (runId, nextEventId) →
        runId ≠ "" →
        ∃ rest, (t.HandleErr w err log).2 = log ++
          [.IncCounter .HistoryRereplicationByHistoryReplicationScope .CadenceClientRequests,
           .StartTimer .HistoryRereplicationByHistoryReplicationScope .CadenceClientLatency,
           .SendMultiWorkflowHistory t.queueID.DomainID t.queueID.WorkflowID runId nextEventId
             t.queueID.RunID t.taskID] ++ rest) ∧
      (notRetryWithRun err → t.HandleErr w err log = (some err, log)) := by
  refine ⟨?_, ?_, ?_⟩
  · intro attempt activityCount historyCount
    rfl
  · intro runId nextEventId hret hrun
    rw [metadataHandleErr_retry w t err log runId nextEventId hret hrun]
    cases w.SendMultiWorkflowHistory _ t.queueID.DomainID t.queueID.WorkflowID runId
        nextEventId t.queueID.RunID t.taskID with
    | some resendErr =>
      exact ⟨[.LogError "error resend history" resendErr,
          .StopTimer .HistoryRereplicationByHistoryReplicationScope .CadenceClientLatency],
        by simp⟩
    | none =>
      exact ⟨[.IncCounter .HistoryRereplicationByHistoryMetadataReplicationScope
            .CadenceClientRequests,
          .StartTimer .HistoryRereplicationByHistoryMetadataReplicationScope
            .CadenceClientLatency,
          .SendMultiWorkflowHistory t.queueID.DomainID t.queueID.WorkflowID
            t.queueID.RunID t.firstEventID t.queueID.RunID t.nextEventID,
          .StopTimer .HistoryRereplicationByHistoryMetadataReplicationScope
            .CadenceClientLatency,
          .StopTimer .HistoryRereplicationByHistoryReplicationScope .CadenceClientLatency],
        by simp [historyMetadataReplicationTask.Execute]⟩
  · rintro (h | ⟨n, h⟩)
    · simp [historyMetadataReplicationTask.HandleErr, h]
    · simp [historyMetadataReplicationTask.HandleErr, h]

/-- C17 (witness): a service-busy error is returned unchanged by a
history-metadata task. -/
theorem C17_metadata_has_no_gate_witness :
    notRetryWithRun (.ServiceBusyError "busy") ∧
      historyMetadataReplicationTask.HandleErr (sampleReplWorld none)
          (newHistoryMetadataReplicationTask sampleMetadataAttributes "source" 0)
          (.ServiceBusyError "busy") [] = (some (.ServiceBusyError "busy"), []) :=
  ⟨Or.inl rfl,
    (C17_metadata_has_no_gate (sampleReplWorld none)
      (newHistoryMetadataReplicationTask sampleMetadataAttributes "source" 0)
      (.ServiceBusyError "busy") []).2.2 (Or.inl rfl)⟩

/-- An error is a retry-task error with a run id, or it is not. -/
theorem retryWithRun_or_not (err : Err) :
    notRetryWithRun err ∨
      ∃ runId nextEventId, convertRetryTaskError err = some (runId, nextEventId) ∧
        runId ≠ "" := by
  cases h : convertRetryTaskError err with
  | none => exact Or.inl (Or.inl h)
  | some p =>
    obtain ⟨runId, nextEventId⟩ := p
    by_cases hrun : runId = ""
    · subst hrun
      exact Or.inl (Or.inr ⟨nextEventId, h⟩)
    · exact Or.inr ⟨runId, nextEventId, rfl, hrun⟩

/-- `HandleErr` of each task variant returns an error that is not a retry-task
error with a run id unchanged and does nothing else. -/
theorem HandleErr_not_retry (w : ReplWorld) (ta : activityReplicationTask)
    (th : historyReplicationTask) (tm : historyMetadataReplicationTask) (err : Err)
    (log : List ReplCall) (h : notRetryWithRun err) :
    ta.HandleErr w err log = (some err, log) ∧ th.HandleErr w err log = (some err, log) ∧
      tm.HandleErr w err log = (some err, log) := by
  rcases h with h | ⟨n, h⟩
  · refine ⟨?_, ?_, ?_⟩
    · simp [activityReplicationTask.HandleErr, h]
    · simp [historyReplicationTask.HandleErr, h]
    · simp [historyMetadataReplicationTask.HandleErr, h]
  · refine ⟨?_, ?_, ?_⟩
    · simp [activityReplicationTask.HandleErr, h]
    · simp [historyReplicationTask.HandleErr, h]
    · simp [historyMetadataReplicationTask.HandleErr, h]

/-- C18: for every task variant and every attempt, when the error given to
`HandleErr` is not a `RetryTaskError`, or is one whose run id is empty,
`HandleErr` returns that error unchanged and does nothing else (neither
`SendMultiWorkflowHistory` nor `Execute`); conversely a
`SendMultiWorkflowHistory` call that `HandleErr` adds to the log only occurs
for a `RetryTaskError` with a non-empty run id. -/
theorem C18_only_retry_task_rereplicates (w : ReplWorld) (ta : activityReplicationTask)
    (th : historyReplicationTask) (tm : historyMetadataReplicationTask) (err : Err)
    (log : List ReplCall) :
    (notRetryWithRun err →
        ta.HandleErr w err log = (some err, log) ∧ th.HandleErr w err log = (some err, log) ∧
          tm.HandleErr w err log = (some err, log)) ∧
      (∀ c, c.isSendMultiWorkflowHistory = true → c ∉ log →
        (c ∈ (ta.HandleErr w err log).2 ∨ c ∈ (th.HandleErr w err log).2 ∨
          c ∈ (tm.HandleErr w err log).2) →
        ∃ message domainId workflowId runId nextEventId,
          err = .RetryTaskError message domainId workflowId (some runId) nextEventId ∧
            runId ≠ "") := by
  refine ⟨HandleErr_not_retry w ta th tm err log, ?_⟩
  intro c _ hc hmem
  rcases retryWithRun_or_not err with h | ⟨runId, nextEventId, hret, hrun⟩
  · obtain ⟨h1, h2, h3⟩ := HandleErr_not_retry w ta th tm err log h
    rw [h1, h2, h3] at hmem
    simp only [or_self] at hmem
    exact absurd hmem hc
  · cases err with
    | RetryTaskError message domainId workflowId rid next =>
      cases rid with
      | none =>
        simp only [convertRetryTaskError, Option.getD_none, Option.some.injEq,
          Prod.mk.injEq] at hret
        exact absurd hret.1.symm hrun
      | some r =>
        simp only [convertRetryTaskError, Option.getD_some, Option.some.injEq,
          Prod.mk.injEq] at hret
        exact ⟨message, domainId, workflowId, r, next, rfl, by rw [hret.1]; exact hrun⟩
    | _ => simp [convertRetryTaskError] at hret

/-- C18 (witness): a retry-task error without run id is returned unchanged by
a history task behind the gate. -/
theorem C18_only_retry_task_rereplicates_witness :
    notRetryWithRun (.RetryTaskError "retry task" none none none (some 50)) ∧
      historyReplicationTask.HandleErr (sampleReplWorld none)
          { newHistoryReplicationTask sampleHistoryAttributes "source" 0 with attempt := 3 }
          (.RetryTaskError "retry task" none none none (some 50)) [] =
        (some (.RetryTaskError "retry task" none none none (some 50)), []) :=
  ⟨Or.inr ⟨50, rfl⟩,
    ((C18_only_retry_task_rereplicates (sampleReplWorld none)
      { newActivityReplicationTask sampleActivityAttributes 0 with attempt := 3 }
      { newHistoryReplicationTask sampleHistoryAttributes "source" 0 with attempt := 3 }
      (newHistoryMetadataReplicationTask sampleMetadataAttributes "source" 0)
      (.RetryTaskError "retry task" none none none (some 50)) []).1
        (Or.inr ⟨50, rfl⟩)).2.1⟩

/-! ## Claims on `RetryErr` -/

theorem RetryErr_task (w : ReplWorld) (t : workflowReplicationTask) (err : Err)
    (log : List ReplCall) :
    (t.RetryErr w err log).2.1 = { t with attempt := wrapInt64 (t.attempt + 1) } := by
  unfold workflowReplicationTask.RetryErr
  simp only
  split_ifs <;> rfl

theorem RetryErr_answer (w : ReplWorld) (t : workflowReplicationTask) (err : Err)
    (log : List ReplCall) :
    (t.RetryErr w err log).1 = true ↔
      wrapInt64 (t.attempt + 1) ≤ w.config.ReplicationTaskMaxRetryCount ∧
        w.timeNow log - t.startTime ≤ w.config.ReplicationTaskMaxRetryDuration ∧
        w.isTransientRetryableError err = true := by
  unfold workflowReplicationTask.RetryErr
  simp only
  split_ifs with h
  · simpa using h
  · simpa using h

/-- From attempt `a` on, a task gets at most `MaxRetryCount - a` true answers,
as long as the attempt does not overflow. -/
theorem retryAnswers_count (w : ReplWorld) (errs : List Err) (t : workflowReplicationTask)
    (log : List ReplCall) (hlo : 0 ≤ t.attempt) (hhi : t.attempt + errs.length < 2 ^ 63) :
    ((retryAnswers w t errs log).count true : Int) ≤
      max 0 (w.config.ReplicationTaskMaxRetryCount - t.attempt) := by
  induction errs generalizing t log with
  | nil => simp [retryAnswers]
  | cons err errs ih =>
    have hwrap : wrapInt64 (t.attempt + 1) = t.attempt + 1 := by
      apply wrapInt64_of_isInt64
      unfold isInt64
      simp only [List.length_cons, Nat.cast_add, Nat.cast_one] at hhi
      omega
    have htask := RetryErr_task w t err log
    have hans := RetryErr_answer w t err log
    rw [hwrap] at htask hans
    have hih := ih (t.RetryErr w err log).2.1 (t.RetryErr w err log).2.2
      (by rw [htask]; show 0 ≤ t.attempt + 1; omega)
      (by
        rw [htask]
        show t.attempt + 1 + (errs.length : Int) < 2 ^ 63
        simp only [List.length_cons, Nat.cast_add, Nat.cast_one] at hhi
        omega)
    rw [htask] at hih
    change ((retryAnswers w { t with attempt := t.attempt + 1 } errs _).count true : Int) ≤
      max 0 (w.config.ReplicationTaskMaxRetryCount - (t.attempt + 1)) at hih
    rw [retryAnswers]
    simp only [htask]
    cases hb : (t.RetryErr w err log).1 with
    | true =>
      have := (hans.mp hb).1
      rw [List.count_cons_self]
      push_cast
      omega
    | false =>
      rw [List.count_cons_of_ne (by simp)]
      omega

/-- Once the attempt has reached `MaxRetryCount`, every later answer is false,
as long as the attempt does not overflow. -/
theorem retryAnswers_exhausted (w : ReplWorld) (errs : List Err) (t : workflowReplicationTask)
    (log : List ReplCall) (hmax : w.config.ReplicationTaskMaxRetryCount ≤ t.attempt)
    (hlo : -(2 ^ 63) ≤ t.attempt) (hhi : t.attempt + errs.length < 2 ^ 63) :
    ∀ b ∈ retryAnswers w t errs log, b = false := by
  induction errs generalizing t log with
  | nil => simp [retryAnswers]
  | cons err errs ih =>
    have hwrap : wrapInt64 (t.attempt + 1) = t.attempt + 1 := by
      apply wrapInt64_of_isInt64
      unfold isInt64
      simp only [List.length_cons, Nat.cast_add, Nat.cast_one] at hhi
      omega
    have htask := RetryErr_task w t err log
    have hans := RetryErr_answer w t err log
    rw [hwrap] at htask hans
    have hfalse : (t.RetryErr w err log).1 = false := by
      cases hb : (t.RetryErr w err log).1 with
      | false => rfl
      | true =>
        have := (hans.mp hb).1
        omega
    have hih := ih (t.RetryErr w err log).2.1 (t.RetryErr w err log).2.2
      (by rw [htask]; show w.config.ReplicationTaskMaxRetryCount ≤ t.attempt + 1; omega)
      (by rw [htask]; show -(2 ^ 63) ≤ t.attempt + 1; omega)
      (by
        rw [htask]
        show t.attempt + 1 + (errs.length : Int) < 2 ^ 63
        simp only [List.length_cons, Nat.cast_add, Nat.cast_one] at hhi
        omega)
    rw [retryAnswers]
    intro b hbmem
    rcases List.mem_cons.mp hbmem with rfl | h
    · exact hfalse
    · exact hih b h

/-- C19: every `RetryErr` call increments the attempt of the task by one (as
an int sum) whatever it returns and leaves the rest of the task as it is; it
returns true exactly when the incremented attempt is at most
`ReplicationTaskMaxRetryCount`, `timeSource.Now() - startTime` is at most
`ReplicationTaskMaxRetryDuration` and the error is transient.  Hence, with a
fixed configuration and below the overflow of the counter, a task starting at
attempt 0 gets at most `MaxRetryCount` true answers, and from an attempt of
`MaxRetryCount` or more on every call returns false. -/
theorem C19_retry_err (w : ReplWorld) (t : workflowReplicationTask) (err : Err)
    (errs : List Err) (log : List ReplCall) :
    (t.RetryErr w err log).2.1 = { t with attempt := wrapInt64 (t.attempt + 1) } ∧
      (isInt64 (t.attempt + 1) → (t.RetryErr w err log).2.1.attempt = t.attempt + 1) ∧
      ((t.RetryErr w err log).1 = true ↔
        (t.RetryErr w err log).2.1.attempt ≤ w.config.ReplicationTaskMaxRetryCount ∧
          w.timeNow log - t.startTime ≤ w.config.ReplicationTaskMaxRetryDuration ∧
          w.isTransientRetryableError err = true) ∧
      (t.attempt = 0 → (errs.length : Int) < 2 ^ 63 →
        ((retryAnswers w t errs log).count true : Int) ≤
          max 0 w.config.ReplicationTaskMaxRetryCount) ∧
      (w.config.ReplicationTaskMaxRetryCount ≤ t.attempt → -(2 ^ 63) ≤ t.attempt →
        t.attempt + errs.length < 2 ^ 63 →
        ∀ b ∈ retryAnswers w t errs log, b = false) := by
  refine ⟨RetryErr_task w t err log, ?_, ?_, ?_, ?_⟩
  · intro h
    rw [RetryErr_task]
    exact wrapInt64_of_isInt64 _ h
  · rw [RetryErr_task]
    exact RetryErr_answer w t err log
  · intro h0 hlen
    have := retryAnswers_count w errs t log (by omega) (by omega)
    rw [h0, sub_zero] at this
    exact this
  · exact retryAnswers_exhausted w errs t log

/-- C19 (witness): seven calls on a fresh task with `MaxRetryCount = 5` and
transient errors: the first five answers are true, the last two false. -/
theorem C19_retry_err_witness :
    (newHistoryReplicationTask sampleHistoryAttributes "source" 0).attempt = 0 ∧
      retryAnswers (sampleReplWorld none)
          (newHistoryReplicationTask sampleHistoryAttributes "source" 0).toworkflowReplicationTask
          (List.replicate 7 (.ServiceBusyError "busy")) [] =
        [true, true, true, true, true, false, false] ∧
      ((retryAnswers (sampleReplWorld none)
          (newHistoryReplicationTask sampleHistoryAttributes "source" 0).toworkflowReplicationTask
          (List.replicate 7 (.ServiceBusyError "busy")) []).count true : Int) ≤
        max 0 (sampleReplWorld none).config.ReplicationTaskMaxRetryCount :=
  ⟨rfl, by decide,
    (C19_retry_err (sampleReplWorld none)
      (newHistoryReplicationTask sampleHistoryAttributes "source" 0).toworkflowReplicationTask
      (.ServiceBusyError "busy") (List.replicate 7 (.ServiceBusyError "busy")) []).2.2.2.1 rfl
      (by decide)⟩

/-! ## Claims on `ReadFullPageV2Events` -/

theorem wrapInt64_add_wrap (a b : Int) : wrapInt64 (wrapInt64 a + b) = wrapInt64 (a + b) := by
  unfold wrapInt64
  omega

theorem requestAfter_PageSize (req : ReadHistoryBranchRequest)
    (pages : List ReadHistoryBranchResponse) : (requestAfter req pages).PageSize = req.PageSize := by
  induction pages generalizing req with
  | nil => rfl
  | cons p ps ih =>
    rw [requestAfter, List.foldl_cons]
    exact ih _

theorem pageRequests_length (req : ReadHistoryBranchRequest)
    (pages : List ReadHistoryBranchResponse) :
    (pageRequests req pages).length = pages.length := by
  induction pages generalizing req with
  | nil => rfl
  | cons p ps ih => simp [pageRequests, ih]

theorem pageEvents_cons (p : ReadHistoryBranchResponse) (ps : List ReadHistoryBranchResponse) :
    pageEvents (p :: ps) = p.HistoryEvents ++ pageEvents ps := by
  simp [pageEvents]

/-- The first page of a run of pages: it is what the first read returns, and
it ends the read exactly when no page follows. -/
theorem ReadsPages_head {mgr : HistoryReader} {req : ReadHistoryBranchRequest}
    {seen : List HistoryEvent} {calls : List ReadHistoryBranchRequest}
    {p : ReadHistoryBranchResponse} {ps : List ReadHistoryBranchResponse}
    (h : ReadsPages mgr req seen calls (p :: ps)) :
    mgr.ReadHistoryBranch calls req = .ok p ∧
      ((((seen ++ p.HistoryEvents).length : Int) ≥ req.PageSize ∨
        p.NextPageToken.length = 0) ↔ ps = []) := by
  have := h [] p ps rfl
  simpa [pageRequests, requestAfter, pageEvents] using this

/-- The pages behind the first are read with the token of the first. -/
theorem ReadsPages_tail {mgr : HistoryReader} {req : ReadHistoryBranchRequest}
    {seen : List HistoryEvent} {calls : List ReadHistoryBranchRequest}
    {p : ReadHistoryBranchResponse} {ps : List ReadHistoryBranchResponse}
    (h : ReadsPages mgr req seen calls (p :: ps)) :
    ReadsPages mgr { req with NextPageToken := p.NextPageToken } (seen ++ p.HistoryEvents)
      (calls ++ [req]) ps := by
  intro pre q post hq
  have := h (p :: pre) q post (by rw [hq]; rfl)
  simpa [pageRequests, requestAfter, pageEvents, List.append_assoc] using this

/-- A run of pages is built from its first page and the run behind it. -/
theorem ReadsPages_cons {mgr : HistoryReader} {req : ReadHistoryBranchRequest}
    {seen : List HistoryEvent} {calls : List ReadHistoryBranchRequest}
    {p : ReadHistoryBranchResponse} {ps : List ReadHistoryBranchResponse}
    (h1 : mgr.ReadHistoryBranch calls req = .ok p)
    (h2 : (((seen ++ p.HistoryEvents).length : Int) ≥ req.PageSize ∨
        p.NextPageToken.length = 0) ↔ ps = [])
    (h3 : ReadsPages mgr { req with NextPageToken := p.NextPageToken }
      (seen ++ p.HistoryEvents) (calls ++ [req]) ps) :
    ReadsPages mgr req seen calls (p :: ps) := by
  intro pre q post hq
  cases pre with
  | nil =>
    simp only [List.nil_append, List.cons.injEq] at hq
    obtain ⟨rfl, rfl⟩ := hq
    have h12 := And.intro h1 h2
    simpa [pageRequests, requestAfter, pageEvents] using h12
  | cons x xs =>
    simp only [List.cons_append, List.cons.injEq] at hq
    obtain ⟨rfl, hrest⟩ := hq
    have := h3 xs q post hrest
    simpa [pageRequests, requestAfter, pageEvents, List.append_assoc] using this

theorem ReadsPages_nil (mgr : HistoryReader) (req : ReadHistoryBranchRequest)
    (seen : List HistoryEvent) (calls : List ReadHistoryBranchRequest) :
    ReadsPages mgr req seen calls [] := by
  intro pre q post hq
  exact absurd hq (by simp)

/-- The loop reads exactly the pages of a run and returns what they hold. -/
theorem ReadFullPageV2EventsLoop_pages (mgr : HistoryReader)
    (pages : List ReadHistoryBranchResponse) (hne : pages ≠ []) :
    ∀ (fuel : Nat) (req : ReadHistoryBranchRequest) (seen : List HistoryEvent) (size : Int)
      (calls : List ReadHistoryBranchRequest),
      ReadsPages mgr req seen calls pages → pages.length ≤ fuel →
      ReadFullPageV2EventsLoop mgr fuel req seen size calls =
        some (.ok (seen ++ pageEvents pages,
            wrapInt64 (size + (pages.map (fun p => p.Size)).sum),
            (pages.getLast hne).NextPageToken),
          requestAfter req pages.dropLast, calls ++ pageRequests req pages) := by
  induction pages with
  | nil => exact absurd rfl hne
  | cons p ps ih =>
    intro fuel req seen size calls hpages hfuel
    obtain ⟨fuel, rfl⟩ : ∃ n, fuel = n + 1 := ⟨fuel - 1, by
      simp only [List.length_cons] at hfuel
      omega⟩
    obtain ⟨hread, hstop⟩ := ReadsPages_head hpages
    rw [ReadFullPageV2EventsLoop]
    simp only [hread]
    cases ps with
    | nil =>
      have := hstop.mpr rfl
      simp only [this, if_true]
      simp [pageEvents, pageRequests, requestAfter]
    | cons q qs =>
      have hnot : ¬ ((((seen ++ p.HistoryEvents).length : Int) ≥ req.PageSize ∨
          p.NextPageToken.length = 0)) := by
        intro hs
        exact absurd (hstop.mp hs) (by simp)
      simp only [hnot, if_false]
      rw [ih (by simp) fuel _ _ _ _ (ReadsPages_tail hpages) (by
        simp only [List.length_cons] at hfuel ⊢
        omega)]
      simp only [pageEvents_cons, List.append_assoc, List.map_cons, List.sum_cons,
        wrapInt64_add_wrap, pageRequests, List.singleton_append, List.dropLast_cons₂,
        requestAfter, List.foldl_cons, List.getLast_cons (List.cons_ne_nil q qs)]
      rw [Int.add_assoc]

/-- C20: given the pages the manager returns to the successive
`ReadHistoryBranch` calls, each call after the first made with the
`NextPageToken` of the page before, the last of them (page k) being the first
at which the number of events gathered is at least `req.PageSize` or whose
`NextPageToken` is empty, `ReadFullPageV2Events` makes exactly these k reads
and returns the events of pages 1..k concatenated in order, the sum of their
`Size` fields (as an int) and the `NextPageToken` of page k; so it returns at
least `PageSize` events or an empty token, and it returns every event of the
pages read (nothing is cut off). -/
theorem C20_read_full_page (mgr : HistoryReader) (req : ReadHistoryBranchRequest)
    (pages : List ReadHistoryBranchResponse) (fuel : Nat) (hne : pages ≠ [])
    (hpages : ReadsPages mgr req [] [] pages) (hfuel : pages.length ≤ fuel) :
    ReadFullPageV2Events mgr fuel req =
        some (.ok (pageEvents pages, wrapInt64 ((pages.map (fun p => p.Size)).sum),
            (pages.getLast hne).NextPageToken),
          requestAfter req pages.dropLast, pageRequests req pages) ∧
      (pageRequests req pages).length = pages.length ∧
      (isInt64 ((pages.map (fun p => p.Size)).sum) →
        wrapInt64 ((pages.map (fun p => p.Size)).sum) = (pages.map (fun p => p.Size)).sum) ∧
      (((pageEvents pages).length : Int) ≥ req.PageSize ∨
        (pages.getLast hne).NextPageToken = []) := by
  refine ⟨?_, pageRequests_length req pages, wrapInt64_of_isInt64 _, ?_⟩
  · rw [ReadFullPageV2Events,
      ReadFullPageV2EventsLoop_pages mgr pages hne fuel req [] 0 [] hpages hfuel]
    simp
  · have hsplit := List.dropLast_append_getLast hne
    have := (hpages pages.dropLast (pages.getLast hne) [] hsplit.symm).2.mpr rfl
    rw [hsplit, List.nil_append] at this
    rcases this with h | h
    · exact Or.inl h
    · exact Or.inr (List.length_eq_zero.mp h)

/-- The two pages of the sample manager are the pages of the full-page read of
the sample request. -/
theorem sampleReader_pages :
    ReadsPages sampleReader sampleReadRequest [] [] [samplePage 2 [1] 10, samplePage 3 [2] 20] :=
  ReadsPages_cons rfl (by decide)
    (ReadsPages_cons rfl (by decide) (ReadsPages_nil _ _ _ _))

/-- C20 (witness): with page size 4 the sample manager is read twice and all
5 events of the two pages are returned, with size 30 and the second token. -/
theorem C20_read_full_page_witness :
    ReadsPages sampleReader sampleReadRequest [] [] [samplePage 2 [1] 10, samplePage 3 [2] 20] ∧
      ReadFullPageV2Events sampleReader 2 sampleReadRequest =
        some (.ok (pageEvents [samplePage 2 [1] 10, samplePage 3 [2] 20],
            wrapInt64 (([samplePage 2 [1] 10, samplePage 3 [2] 20].map (fun p => p.Size)).sum),
            ([samplePage 2 [1] 10, samplePage 3 [2] 20].getLast (by decide)).NextPageToken),
          requestAfter sampleReadRequest [samplePage 2 [1] 10, samplePage 3 [2] 20].dropLast,
          pageRequests sampleReadRequest [samplePage 2 [1] 10, samplePage 3 [2] 20]) ∧
      (pageEvents [samplePage 2 [1] 10, samplePage 3 [2] 20]).length = 5 :=
  ⟨sampleReader_pages,
    (C20_read_full_page sampleReader sampleReadRequest
      [samplePage 2 [1] 10, samplePage 3 [2] 20] 2 (by decide) sampleReader_pages
      (by decide)).1,
    by decide⟩

/-! ## Claims on `ReadFullPageV2EventsByBatch` -/

theorem foldl_eventCount (batches : List History) (n : Int) :
    batches.foldl (fun n batch => n + (batch.Events.length : Int)) n =
      n + batchEventCount batches := by
  induction batches generalizing n with
  | nil => simp [batchEventCount]
  | cons b bs ih =>
    rw [List.foldl_cons, ih]
    simp [batchEventCount, Int.add_assoc]

theorem batchEventCount_append (xs ys : List History) :
    batchEventCount (xs ++ ys) = batchEventCount xs + batchEventCount ys := by
  simp [batchEventCount]

theorem pageBatches_cons (p : ReadHistoryBranchByBatchResponse)
    (ps : List ReadHistoryBranchByBatchResponse) :
    pageBatches (p :: ps) = p.History ++ pageBatches ps := by
  simp [pageBatches]

theorem batchPageRequests_length (req : ReadHistoryBranchRequest)
    (pages : List ReadHistoryBranchByBatchResponse) :
    (batchPageRequests req pages).length = pages.length := by
  induction pages generalizing req with
  | nil => rfl
  | cons p ps ih => simp [batchPageRequests, ih]

theorem batchRequestAfter_PageSize (req : ReadHistoryBranchRequest)
    (pages : List ReadHistoryBranchByBatchResponse) :
    (batchRequestAfter req pages).PageSize = req.PageSize := by
  induction pages generalizing req with
  | nil => rfl
  | cons p ps ih =>
    rw [batchRequestAfter, List.foldl_cons]
    exact ih _

/-- The first batch page of a run: it is what the first read returns, and it
ends the read exactly when no page follows. -/
theorem ReadsBatchPages_head {mgr : HistoryReader} {req : ReadHistoryBranchRequest}
    {seen : Int} {calls : List ReadHistoryBranchRequest}
    {p : ReadHistoryBranchByBatchResponse} {ps : List ReadHistoryBranchByBatchResponse}
    (h : ReadsBatchPages mgr req seen calls (p :: ps)) :
    mgr.ReadHistoryBranchByBatch calls req = .ok p ∧
      ((seen + batchEventCount p.History ≥ req.PageSize ∨ p.NextPageToken.length = 0) ↔
        ps = []) := by
  have := h [] p ps rfl
  simpa [batchPageRequests, batchRequestAfter, pageBatches] using this

/-- The batch pages behind the first are read with the token of the first. -/
theorem ReadsBatchPages_tail {mgr : HistoryReader} {req : ReadHistoryBranchRequest}
    {seen : Int} {calls : List ReadHistoryBranchRequest}
    {p : ReadHistoryBranchByBatchResponse} {ps : List ReadHistoryBranchByBatchResponse}
    (h : ReadsBatchPages mgr req seen calls (p :: ps)) :
    ReadsBatchPages mgr { req with NextPageToken := p.NextPageToken }
      (seen + batchEventCount p.History) (calls ++ [req]) ps := by
  intro pre q post hq
  have := h (p :: pre) q post (by rw [hq]; rfl)
  simpa [batchPageRequests, batchRequestAfter, pageBatches, batchEventCount_append,
    List.append_assoc, Int.add_assoc] using this

/-- A run of batch pages is built from its first page and the run behind it. -/
theorem ReadsBatchPages_cons {mgr : HistoryReader} {req : ReadHistoryBranchRequest}
    {seen : Int} {calls : List ReadHistoryBranchRequest}
    {p : ReadHistoryBranchByBatchResponse} {ps : List ReadHistoryBranchByBatchResponse}
    (h1 : mgr.ReadHistoryBranchByBatch calls req = .ok p)
    (h2 : (seen + batchEventCount p.History ≥ req.PageSize ∨ p.NextPageToken.length = 0) ↔
        ps = [])
    (h3 : ReadsBatchPages mgr { req with NextPageToken := p.NextPageToken }
      (seen + batchEventCount p.History) (calls ++ [req]) ps) :
    ReadsBatchPages mgr req seen calls (p :: ps) := by
  intro pre q post hq
  cases pre with
  | nil =>
    simp only [List.nil_append, List.cons.injEq] at hq
    obtain ⟨rfl, rfl⟩ := hq
    have h12 := And.intro h1 h2
    simpa [batchPageRequests, batchRequestAfter, pageBatches] using h12
  | cons x xs =>
    simp only [List.cons_append, List.cons.injEq] at hq
    obtain ⟨rfl, hrest⟩ := hq
    have := h3 xs q post hrest
    simpa [batchPageRequests, batchRequestAfter, pageBatches, batchEventCount_append,
      List.append_assoc, Int.add_assoc] using this

theorem ReadsBatchPages_nil (mgr : HistoryReader) (req : ReadHistoryBranchRequest)
    (seen : Int) (calls : List ReadHistoryBranchRequest) :
    ReadsBatchPages mgr req seen calls [] := by
  intro pre q post hq
  exact absurd hq (by simp)

/-- The loop by batch reads exactly the pages of a run and returns what they
hold. -/
theorem ReadFullPageV2EventsByBatchLoop_pages (mgr : HistoryReader)
    (pages : List ReadHistoryBranchByBatchResponse) (hne : pages ≠ []) :
    ∀ (fuel : Nat) (req : ReadHistoryBranchRequest) (batches : List History) (seen size : Int)
      (calls : List ReadHistoryBranchRequest),
      ReadsBatchPages mgr req seen calls pages → pages.length ≤ fuel →
      ReadFullPageV2EventsByBatchLoop mgr fuel req batches seen size calls =
        some (.ok (batches ++ pageBatches pages,
            wrapInt64 (size + (pages.map (fun p => p.Size)).sum),
            (pages.getLast hne).NextPageToken),
          batchRequestAfter req pages.dropLast, calls ++ batchPageRequests req pages) := by
  induction pages with
  | nil => exact absurd rfl hne
  | cons p ps ih =>
    intro fuel req batches seen size calls hpages hfuel
    obtain ⟨fuel, rfl⟩ : ∃ n, fuel = n + 1 := ⟨fuel - 1, by
      simp only [List.length_cons] at hfuel
      omega⟩
    obtain ⟨hread, hstop⟩ := ReadsBatchPages_head hpages
    rw [ReadFullPageV2EventsByBatchLoop]
    simp only [hread, foldl_eventCount]
    cases ps with
    | nil =>
      have := hstop.mpr rfl
      simp only [this, if_true]
      simp [pageBatches, batchPageRequests, batchRequestAfter]
    | cons q qs =>
      have hnot : ¬ (seen + batchEventCount p.History ≥ req.PageSize ∨
          p.NextPageToken.length = 0) := by
        intro hs
        exact absurd (hstop.mp hs) (by simp)
      simp only [hnot, if_false]
      rw [ih (by simp) fuel _ _ _ _ _ (ReadsBatchPages_tail hpages) (by
        simp only [List.length_cons] at hfuel ⊢
        omega)]
      simp only [pageBatches_cons, List.append_assoc, List.map_cons, List.sum_cons,
        wrapInt64_add_wrap, batchPageRequests, List.singleton_append, List.dropLast_cons₂,
        batchRequestAfter, List.foldl_cons, List.getLast_cons (List.cons_ne_nil q qs)]
      rw [Int.add_assoc]

/-- C21: `ReadFullPageV2EventsByBatch` measures progress by events: given the
pages the manager returns to the successive reads, the last of them (page k)
being the first at which the number of events summed over all batches read
is at least `req.PageSize` or whose `NextPageToken` is empty, it makes
exactly these k reads and returns all batches read in order, the sum of the
`Size` fields (as an int) and the token of page k.  In particular a first page with
`PageSize` or more batches that hold fewer than `PageSize` events, with a
non-empty token, does not end the loop: the function goes on with the next
read. -/
theorem C21_read_full_page_by_batch (mgr : HistoryReader) (req : ReadHistoryBranchRequest)
    (pages : List ReadHistoryBranchByBatchResponse) (fuel : Nat) (hne : pages ≠ [])
    (hpages : ReadsBatchPages mgr req 0 [] pages) (hfuel : pages.length ≤ fuel) :
    ReadFullPageV2EventsByBatch mgr fuel req =
        some (.ok (pageBatches pages, wrapInt64 ((pages.map (fun p => p.Size)).sum),
            (pages.getLast hne).NextPageToken),
          batchRequestAfter req pages.dropLast, batchPageRequests req pages) ∧
      (batchPageRequests req pages).length = pages.length ∧
      (isInt64 ((pages.map (fun p => p.Size)).sum) →
        wrapInt64 ((pages.map (fun p => p.Size)).sum) = (pages.map (fun p => p.Size)).sum) ∧
      (batchEventCount (pageBatches pages) ≥ req.PageSize ∨
        (pages.getLast hne).NextPageToken = []) ∧
      (∀ p n, mgr.ReadHistoryBranchByBatch [] req = .ok p →
        (p.History.length : Int) ≥ req.PageSize → batchEventCount p.History < req.PageSize →
        p.NextPageToken ≠ [] →
        ReadFullPageV2EventsByBatch mgr (n + 1) req =
          ReadFullPageV2EventsByBatchLoop mgr n { req with NextPageToken := p.NextPageToken }
            p.History (batchEventCount p.History) (wrapInt64 p.Size) [req]) := by
  refine ⟨?_, batchPageRequests_length req pages, wrapInt64_of_isInt64 _, ?_, ?_⟩
  · rw [ReadFullPageV2EventsByBatch,
      ReadFullPageV2EventsByBatchLoop_pages mgr pages hne fuel req [] 0 0 [] hpages hfuel]
    simp
  · have hsplit := List.dropLast_append_getLast hne
    have := (hpages pages.dropLast (pages.getLast hne) [] hsplit.symm).2.mpr rfl
    rw [hsplit, zero_add] at this
    rcases this with h | h
    · exact Or.inl h
    · exact Or.inr (List.length_eq_zero.mp h)
  · intro p n hread _ hevents htoken
    have hnot : ¬ (batchEventCount p.History ≥ req.PageSize ∨
        p.NextPageToken.length = 0) := by
      rintro (h | h)
      · omega
      · exact htoken (List.length_eq_zero.mp h)
    rw [ReadFullPageV2EventsByBatch, ReadFullPageV2EventsByBatchLoop]
    simp only [hread, foldl_eventCount, zero_add, hnot, if_false, List.nil_append]

/-- The two pages of the sample manager are the pages of the full-page read by
batch of the sample request. -/
theorem sampleBatchReader_pages :
    ReadsBatchPages sampleBatchReader sampleReadRequest 0 []
      [sampleBatchPage [sampleBatch 0, sampleBatch 1, sampleBatch 0, sampleBatch 0, sampleBatch 1]
         [1] 10,
       sampleBatchPage [sampleBatch 3] [2] 20] :=
  ReadsBatchPages_cons rfl (by decide)
    (ReadsBatchPages_cons rfl (by decide) (ReadsBatchPages_nil _ _ _ _))

/-- C21 (witness): with page size 4 the first page of the sample manager has
five batches holding two events and a token, and the read goes on: one read
is not enough, and with two reads all six batches are returned. -/
theorem C21_read_full_page_by_batch_witness :
    ReadsBatchPages sampleBatchReader sampleReadRequest 0 []
        [sampleBatchPage [sampleBatch 0, sampleBatch 1, sampleBatch 0, sampleBatch 0, sampleBatch 1]
           [1] 10,
         sampleBatchPage [sampleBatch 3] [2] 20] ∧
      (ReadFullPageV2EventsByBatch sampleBatchReader 2 sampleReadRequest).map
          (fun r => (r.1.toOption.map (fun x => (x.1.length, x.2)), r.2.2.length)) =
        some (some (6, 30, [2]), 2) ∧
      ReadFullPageV2EventsByBatch sampleBatchReader 1 sampleReadRequest = none :=
  ⟨sampleBatchReader_pages,
    by
      rw [(C21_read_full_page_by_batch sampleBatchReader sampleReadRequest
        [sampleBatchPage [sampleBatch 0, sampleBatch 1, sampleBatch 0, sampleBatch 0, sampleBatch 1]
           [1] 10,
         sampleBatchPage [sampleBatch 3] [2] 20] 2 (by decide) sampleBatchReader_pages
        (by decide)).1]
      decide,
    by
      rw [(C21_read_full_page_by_batch sampleBatchReader sampleReadRequest
        [sampleBatchPage [sampleBatch 0, sampleBatch 1, sampleBatch 0, sampleBatch 0, sampleBatch 1]
           [1] 10,
         sampleBatchPage [sampleBatch 3] [2] 20] 2 (by decide) sampleBatchReader_pages
        (by decide)).2.2.2.2 _ 0 rfl (by decide) (by decide) (by decide)]
      rfl⟩

/-! ## Claims on `GetBeginNodeID` -/

/-- C22: for every branch with an empty ancestors list `GetBeginNodeID` is 1;
for every branch whose ancestors list is not empty and whose last ancestor
has an `EndNodeID` set, it is that `EndNodeID`, whatever the earlier
ancestors are. -/
theorem C22_begin_node_id (bi : HistoryBranch) :
    (bi.Ancestors = [] → GetBeginNodeID bi = some 1) ∧
      (∀ (earlier : List HistoryBranchRange) (last : HistoryBranchRange) (e : Int),
        bi.Ancestors = earlier ++ [last] → last.EndNodeID = some e →
        GetBeginNodeID bi = some e) := by
  constructor
  · intro h
    simp [GetBeginNodeID, h]
  · intro earlier last e h he
    simp [GetBeginNodeID, h, he]

/-- C22 (witness): a root branch begins at node 1, and a branch with the
ancestors ending at nodes 5 and 9 begins at node 9. -/
theorem C22_begin_node_id_witness :
    GetBeginNodeID { TreeID := some "tree", BranchID := some "b0", Ancestors := [] } = some 1 ∧
      GetBeginNodeID { TreeID := some "tree", BranchID := some "b2", Ancestors :=
        [HistoryBranchRange.mk (some "b0") (some 1) (some 5),
         HistoryBranchRange.mk (some "b1") (some 5) (some 9)] } = some 9 :=
  ⟨(C22_begin_node_id { TreeID := some "tree", BranchID := some "b0", Ancestors := [] }).1 rfl,
    (C22_begin_node_id { TreeID := some "tree", BranchID := some "b2", Ancestors :=
        [HistoryBranchRange.mk (some "b0") (some 1) (some 5),
         HistoryBranchRange.mk (some "b1") (some 5) (some 9)] }).2
      [HistoryBranchRange.mk (some "b0") (some 1) (some 5)]
      (HistoryBranchRange.mk (some "b1") (some 5) (some 9)) 9 rfl rfl⟩

/-! ## Claims on the task constructors -/

/-- C23: `newActivityReplicationTask` sets `taskID` to the scheduled event id of
the attributes, `newHistoryReplicationTask` and
`newHistoryMetadataReplicationTask` set it to their first event id (an unset
id reads 0), all three set `attempt = 0` and `queueID` to the workflow
identifier made of the domain id, workflow id and run id of the attributes
(an unset one reads as the empty string); so tasks built from attributes with
the same three ids carry equal queue keys. -/
theorem C23_task_identity (a : SyncActicvityTaskAttributes) (h : HistoryTaskAttributes)
    (m : HistoryMetadataTaskAttributes) (sourceCluster : String) (now : Int) :
    ((newActivityReplicationTask a now).taskID = a.ScheduledId.getD 0 ∧
        (newActivityReplicationTask a now).attempt = 0 ∧
        (newActivityReplicationTask a now).queueID =
          WorkflowIdentifier.mk (a.DomainId.getD "") (a.WorkflowId.getD "") (a.RunId.getD "")) ∧
      ((newHistoryReplicationTask h sourceCluster now).taskID = h.FirstEventId.getD 0 ∧
        (newHistoryReplicationTask h sourceCluster now).attempt = 0 ∧
        (newHistoryReplicationTask h sourceCluster now).queueID =
          WorkflowIdentifier.mk (h.DomainId.getD "") (h.WorkflowId.getD "") (h.RunId.getD "")) ∧
      ((newHistoryMetadataReplicationTask m sourceCluster now).taskID = m.FirstEventId.getD 0 ∧
        (newHistoryMetadataReplicationTask m sourceCluster now).attempt = 0 ∧
        (newHistoryMetadataReplicationTask m sourceCluster now).queueID =
          WorkflowIdentifier.mk (m.DomainId.getD "") (m.WorkflowId.getD "") (m.RunId.getD "")) ∧
      (a.DomainId.getD "" = h.DomainId.getD "" → a.WorkflowId.getD "" = h.WorkflowId.getD "" →
        a.RunId.getD "" = h.RunId.getD "" →
        (newActivityReplicationTask a now).queueID =
          (newHistoryReplicationTask h sourceCluster now).queueID) ∧
      (h.DomainId.getD "" = m.DomainId.getD "" → h.WorkflowId.getD "" = m.WorkflowId.getD "" →
        h.RunId.getD "" = m.RunId.getD "" →
        (newHistoryReplicationTask h sourceCluster now).queueID =
          (newHistoryMetadataReplicationTask m sourceCluster now).queueID) := by
  refine ⟨⟨rfl, rfl, rfl⟩, ⟨rfl, rfl, rfl⟩, ⟨rfl, rfl, rfl⟩, ?_, ?_⟩
  · intro h1 h2 h3
    simp [newActivityReplicationTask, newHistoryReplicationTask, h1, h2, h3]
  · intro h1 h2 h3
    simp [newHistoryReplicationTask, newHistoryMetadataReplicationTask, h1, h2, h3]

/-- C23 (witness): the three sample tasks are built for the workflow
`domain`/`wf`/`run-1`; the activity task has task id 7, the two others 100,
and the queue keys are equal. -/
theorem C23_task_identity_witness :
    (newActivityReplicationTask sampleActivityAttributes 0).taskID = 7 ∧
      (newHistoryReplicationTask sampleHistoryAttributes "source" 0).taskID = 100 ∧
      (newActivityReplicationTask sampleActivityAttributes 0).queueID =
        (newHistoryReplicationTask sampleHistoryAttributes "source" 0).queueID ∧
      (newHistoryReplicationTask sampleHistoryAttributes "source" 0).queueID =
        (newHistoryMetadataReplicationTask sampleMetadataAttributes "source" 0).queueID :=
  ⟨(C23_task_identity sampleActivityAttributes sampleHistoryAttributes sampleMetadataAttributes
      "source" 0).1.1,
    (C23_task_identity sampleActivityAttributes sampleHistoryAttributes sampleMetadataAttributes
      "source" 0).2.1.1,
    (C23_task_identity sampleActivityAttributes sampleHistoryAttributes sampleMetadataAttributes
      "source" 0).2.2.2.1 rfl rfl rfl,
    (C23_task_identity sampleActivityAttributes sampleHistoryAttributes sampleMetadataAttributes
      "source" 0).2.2.2.2 rfl rfl rfl⟩

/-! ## Claims on the lock of the re-replication path -/

/-- What `HandleErr` of an activity task adds to the log holds no call of the
id-keyed mutex. -/
theorem activityHandleErr_no_lock (w : ReplWorld) (t : activityReplicationTask) (err : Err)
    (log : List ReplCall) :
    ∃ added, (t.HandleErr w err log).2 = log ++ added ∧
      ∀ c ∈ added, ReplCall.isLockCall c = false := by
  unfold activityReplicationTask.HandleErr
  split_ifs with hgate
  · exact ⟨[], by simp, by simp⟩
  · cases hret : convertRetryTaskError err with
    | none => exact ⟨[], by simp, by simp⟩
    | some p =>
      obtain ⟨runId, nextEventId⟩ := p
      by_cases hrun : runId = ""
      · exact ⟨[], by simp [hrun], by simp⟩
      · simp only [hrun, if_false]
        cases w.SendMultiWorkflowHistory _ t.queueID.DomainID t.queueID.WorkflowID runId
            nextEventId t.queueID.RunID (wrapInt64 (t.taskID + 1)) with
        | some resendErr =>
          exact ⟨_, by simp only [List.append_assoc]; rfl, by
            simp [ReplCall.isLockCall]⟩
        | none =>
          exact ⟨_, by simp only [activityExecute_log, List.append_assoc]; rfl, by
            simp [ReplCall.isLockCall]⟩

/-- What `HandleErr` of a history task adds to the log holds no call of the
id-keyed mutex. -/
theorem historyHandleErr_no_lock (w : ReplWorld) (t : historyReplicationTask) (err : Err)
    (log : List ReplCall) :
    ∃ added, (t.HandleErr w err log).2 = log ++ added ∧
      ∀ c ∈ added, ReplCall.isLockCall c = false := by
  unfold historyReplicationTask.HandleErr
  split_ifs with hgate
  · exact ⟨[], by simp, by simp⟩
  · cases hret : convertRetryTaskError err with
    | none => exact ⟨[], by simp, by simp⟩
    | some p =>
      obtain ⟨runId, nextEventId⟩ := p
      by_cases hrun : runId = ""
      · exact ⟨[], by simp [hrun], by simp⟩
      · simp only [hrun, if_false]
        cases w.SendMultiWorkflowHistory _ t.queueID.DomainID t.queueID.WorkflowID runId
            nextEventId t.queueID.RunID t.taskID with
        | some resendErr =>
          exact ⟨_, by simp only [List.append_assoc]; rfl, by
            simp [ReplCall.isLockCall]⟩
        | none =>
          exact ⟨_, by simp only [historyExecute_log, List.append_assoc]; rfl, by
            simp [ReplCall.isLockCall]⟩

/-- What `HandleErr` of a history-metadata task adds to the log holds no call
of the id-keyed mutex. -/
theorem metadataHandleErr_no_lock (w : ReplWorld) (t : historyMetadataReplicationTask)
    (err : Err) (log : List ReplCall) :
    ∃ added, (t.HandleErr w err log).2 = log ++ added ∧
      ∀ c ∈ added, ReplCall.isLockCall c = false := by
  unfold historyMetadataReplicationTask.HandleErr
  cases hret : convertRetryTaskError err with
  | none => exact ⟨[], by simp, by simp⟩
  | some p =>
    obtain ⟨runId, nextEventId⟩ := p
    by_cases hrun : runId = ""
    · exact ⟨[], by simp [hrun], by simp⟩
    · simp only [hrun, if_false]
      cases w.SendMultiWorkflowHistory _ t.queueID.DomainID t.queueID.WorkflowID runId
          nextEventId t.queueID.RunID t.taskID with
      | some resendErr =>
        exact ⟨_, by simp only [List.append_assoc]; rfl, by
          simp [ReplCall.isLockCall]⟩
      | none =>
        exact ⟨_, by
          simp only [historyMetadataReplicationTask.Execute, List.append_assoc]; rfl, by
          simp [ReplCall.isLockCall]⟩

/-- C24 (as stated, refuted): `HandleErr` of the sample history task at attempt
3, given a retry-task error with a run id, invokes the re-replicator, and its
whole log is two metrics calls, the `SendMultiWorkflowHistory` call, the
`ReplicateEvents` call of `Execute` and the stop of the timer: no call of the
id-keyed mutex precedes or follows the re-replication. -/
theorem C24_counterexample :
    (historyReplicationTask.HandleErr (sampleReplWorld none)
        { newHistoryReplicationTask sampleHistoryAttributes "source" 0 with attempt := 3 }
        sampleRetryError []).2 =
      [.IncCounter .HistoryRereplicationByHistoryReplicationScope .CadenceClientRequests,
       .StartTimer .HistoryRereplicationByHistoryReplicationScope .CadenceClientLatency,
       .SendMultiWorkflowHistory "domain" "wf" "run-0" 50 "run-1" 100,
       .ReplicateEvents (newHistoryReplicationTask sampleHistoryAttributes "source" 0).req,
       .StopTimer .HistoryRereplicationByHistoryReplicationScope .CadenceClientLatency] ∧
      ((historyReplicationTask.HandleErr (sampleReplWorld none)
        { newHistoryReplicationTask sampleHistoryAttributes "source" 0 with attempt := 3 }
        sampleRetryError []).2.filter ReplCall.isSendMultiWorkflowHistory).length = 1 ∧
      (historyReplicationTask.HandleErr (sampleReplWorld none)
        { newHistoryReplicationTask sampleHistoryAttributes "source" 0 with attempt := 3 }
        sampleRetryError []).2.filter ReplCall.isLockCall = [] := by
  refine ⟨rfl, ?_, ?_⟩ <;> decide

/-- C24 (amended): `HandleErr` of no task variant acquires or releases the
id-keyed mutex: for every task, error and log, what `HandleErr` adds to the
log holds no `LockID` and no `UnlockID` call, also when it invokes the
re-replicator. -/
theorem C24_handle_err_takes_no_lock (w : ReplWorld) (ta : activityReplicationTask)
    (th : historyReplicationTask) (tm : historyMetadataReplicationTask) (err : Err)
    (log : List ReplCall) :
    (∃ added, (ta.HandleErr w err log).2 = log ++ added ∧
        ∀ c ∈ added, ReplCall.isLockCall c = false) ∧
      (∃ added, (th.HandleErr w err log).2 = log ++ added ∧
        ∀ c ∈ added, ReplCall.isLockCall c = false) ∧
      (∃ added, (tm.HandleErr w err log).2 = log ++ added ∧
        ∀ c ∈ added, ReplCall.isLockCall c = false) :=
  ⟨activityHandleErr_no_lock w ta err log, historyHandleErr_no_lock w th err log,
    metadataHandleErr_no_lock w tm err log⟩

/-! ## Claims on the version a row is compared with -/

/-- Rows whose batch versions are all at most 0 are all kept by a scan that
starts from `EmptyVersion`, and the running maximum stays `EmptyVersion`. -/
theorem shadowRule_no_positive (env : SqlEnv) (rows : List EventsRow)
    (h : ∀ r ∈ rows, r.BatchVersion ≤ 0) :
    shadowRule (eventBatchVersion env) env.EmptyVersion rows = rows ∧
      shadowMax (eventBatchVersion env) env.EmptyVersion rows = env.EmptyVersion := by
  induction rows with
  | nil => simp [shadowRule, shadowMax]
  | cons r rs ih =>
    have hr : eventBatchVersion env r = env.EmptyVersion := by
      have := h r (List.mem_cons_self r rs)
      simp [eventBatchVersion, not_lt.mpr this]
    have := ih (fun x hx => h x (List.mem_cons_of_mem r hx))
    simp [shadowRule, shadowMax, hr, this]

/-- When a row with a positive batch version is among the rows, a scan that
starts from an `EmptyVersion` that is not positive keeps such a row and ends
with a running maximum above `EmptyVersion`. -/
theorem shadowRule_some_positive (env : SqlEnv) (hEV : env.EmptyVersion ≤ 0)
    (rows : List EventsRow) (h : ∃ r ∈ rows, 0 < r.BatchVersion) :
    (∃ r ∈ shadowRule (eventBatchVersion env) env.EmptyVersion rows, 0 < r.BatchVersion) ∧
      env.EmptyVersion < shadowMax (eventBatchVersion env) env.EmptyVersion rows := by
  induction rows with
  | nil =>
    obtain ⟨r, hr, -⟩ := h
    exact absurd hr (List.not_mem_nil r)
  | cons r rs ih =>
    by_cases hpos : 0 < r.BatchVersion
    · have hr : eventBatchVersion env r = r.BatchVersion := by
        simp [eventBatchVersion, hpos]
      have hge : eventBatchVersion env r ≥ env.EmptyVersion := by
        rw [hr]
        omega
      constructor
      · refine ⟨r, ?_, hpos⟩
        simp [shadowRule, hge]
      · have := shadowMax_ge (eventBatchVersion env) rs (eventBatchVersion env r)
        simp only [shadowMax, hge, if_true]
        rw [hr] at this ⊢
        omega
    · have hr : eventBatchVersion env r = env.EmptyVersion := by
        simp [eventBatchVersion, hpos]
      obtain ⟨x, hx, hxpos⟩ := h
      have hxrs : x ∈ rs := by
        rcases List.mem_cons.mp hx with rfl | hx
        · exact absurd hxpos hpos
        · exact hx
      obtain ⟨⟨y, hy, hypos⟩, hmax⟩ := ih ⟨x, hxrs, hxpos⟩
      constructor
      · refine ⟨y, ?_, hypos⟩
        simp [shadowRule, hr, hy]
      · simpa [shadowMax, hr] using hmax

/-- C27: a stored row whose `BatchVersion` is at most 0 is compared as
`EmptyVersion` (a negative number, −1), whatever its stored value.  Hence,
for a read that returns rows: with `LastEventBatchVersion = EmptyVersion`
such a row is included when no row before it has a positive version (then
every row before it is included too), and skipped when a row before it has a
positive version, which was then included before it; and with
`LastEventBatchVersion = 0` every included row has a positive version, so
every row stored with `BatchVersion` 0 is skipped. -/
theorem C27_version_normalisation (env : SqlEnv) (db : DB)
    (request : InternalGetWorkflowExecutionHistoryRequest) (offset : Int)
    (rows : List EventsRow) (hEV : env.EmptyVersion < 0)
    (hoff : startOffset env request = .ok offset)
    (hsel : db.SelectFromEvents (selectFilter request offset) = .ok rows) (hne : rows ≠ []) :
    (∀ v : EventsRow, v.BatchVersion ≤ 0 → eventBatchVersion env v = env.EmptyVersion) ∧
      ∃ resp, (GetWorkflowExecutionHistory env db request).1 = .ok resp ∧
        (request.LastEventBatchVersion = env.EmptyVersion →
          ∀ pre v post, rows = pre ++ v :: post → v.BatchVersion ≤ 0 →
            ((∀ r ∈ pre, r.BatchVersion ≤ 0) →
              resp.History =
                (pre ++ v :: shadowRule (eventBatchVersion env) env.EmptyVersion post).map
                  eventBatch) ∧
            ((∃ r ∈ pre, 0 < r.BatchVersion) →
              (∃ r ∈ shadowRule (eventBatchVersion env) env.EmptyVersion pre,
                0 < r.BatchVersion) ∧
              resp.History =
                (shadowRule (eventBatchVersion env) env.EmptyVersion pre ++
                  shadowRule (eventBatchVersion env)
                    (shadowMax (eventBatchVersion env) env.EmptyVersion pre) post).map
                  eventBatch)) ∧
        (request.LastEventBatchVersion = 0 →
          resp.History = (shadowRule (eventBatchVersion env) 0 rows).map eventBatch ∧
          ∀ r ∈ shadowRule (eventBatchVersion env) 0 rows, 0 < r.BatchVersion) := by
  have hnorm : ∀ v : EventsRow, v.BatchVersion ≤ 0 →
      eventBatchVersion env v = env.EmptyVersion := by
    intro v hv
    simp [eventBatchVersion, not_lt.mpr hv]
  refine ⟨hnorm, buildResponse env request offset rows, ?_, ?_, ?_⟩
  · rw [GetWorkflowExecutionHistory_rows env db request offset rows hoff hsel hne]
  · intro hlast pre v post hrows hv
    have hhist : (buildResponse env request offset rows).History =
        (shadowRule (eventBatchVersion env) env.EmptyVersion (pre ++ v :: post)).map
          eventBatch := by
      simp [buildResponse, scanRows_eq, hlast, hrows]
    rw [hhist, shadowRule_append]
    constructor
    · intro hpre
      obtain ⟨hkeep, hmax⟩ := shadowRule_no_positive env pre hpre
      rw [hkeep, hmax]
      simp [shadowRule, hnorm v hv]
    · intro hpre
      obtain ⟨hincl, hmax⟩ := shadowRule_some_positive env (le_of_lt hEV) pre hpre
      refine ⟨hincl, ?_⟩
      have hskip : ¬ eventBatchVersion env v ≥
          shadowMax (eventBatchVersion env) env.EmptyVersion pre := by
        rw [hnorm v hv]
        omega
      simp [shadowRule, hskip]
  · intro hlast
    constructor
    · simp [buildResponse, scanRows_eq, hlast]
    · intro r hr
      have hge := shadowRule_ge (eventBatchVersion env) rows 0 r hr
      by_contra hpos
      rw [hnorm r (not_lt.mp hpos)] at hge
      omega

/-- C27 (witness): of the rows with versions 0, −5 and 3, all stored before a
row of version 0, a read with `LastEventBatchVersion = 0` returns only the
batch of version 3. -/
theorem C27_version_normalisation_witness :
    specEnv.EmptyVersion < 0 ∧
      startOffset specEnv (sampleRead 0 1 25 10) = .ok 0 ∧
      (rowsDB [sampleRow 1 0, sampleRow 2 (-5), sampleRow 3 3, sampleRow 4 0]).SelectFromEvents
        (selectFilter (sampleRead 0 1 25 10) 0) =
          .ok [sampleRow 1 0, sampleRow 2 (-5), sampleRow 3 3, sampleRow 4 0] ∧
      (GetWorkflowExecutionHistory specEnv
          (rowsDB [sampleRow 1 0, sampleRow 2 (-5), sampleRow 3 3, sampleRow 4 0])
          (sampleRead 0 1 25 10)).1 =
        .ok { History := [eventBatch (sampleRow 3 3)], LastEventBatchVersion := 3,
              NextPageToken := [] } ∧
      eventBatchVersion specEnv (sampleRow 2 (-5)) = specEnv.EmptyVersion :=
  ⟨by decide, rfl, rfl, rfl,
    (C27_version_normalisation specEnv
      (rowsDB [sampleRow 1 0, sampleRow 2 (-5), sampleRow 3 3, sampleRow 4 0])
      (sampleRead 0 1 25 10) 0 [sampleRow 1 0, sampleRow 2 (-5), sampleRow 3 3, sampleRow 4 0]
      (by decide) rfl rfl (by simp)).1 (sampleRow 2 (-5)) (by decide)⟩

/-! ## Claims on the side effects of a busy delete -/

/-- The completion calls are `CompleteForkBranch` calls with `Success = true`. -/
theorem completeCalls_success (w : V2World) (branchToken : Bytes) (shardID : Option Int)
    (brs : List HistoryBranchDetail) :
    ∀ c ∈ completeCalls w branchToken shardID brs,
      ∃ request, c = .CompleteForkBranch request ∧ request.Success = true := by
  intro c hc
  obtain ⟨br, -, rfl⟩ := List.mem_map.mp hc
  exact ⟨_, rfl, rfl⟩

theorem completeCalls_filter (w : V2World) (branchToken : Bytes) (shardID : Option Int)
    (brs : List HistoryBranchDetail) :
    (completeCalls w branchToken shardID brs).filter V2Call.isCompleteForkBranch =
      completeCalls w branchToken shardID brs := by
  rw [List.filter_eq_self]
  intro c hc
  obtain ⟨br, -, rfl⟩ := List.mem_map.mp hc
  rfl

/-- The delete that meets a fresh fork behind forks that are stale and
completed: the returned error and the whole log. -/
theorem DeleteWorkflowExecutionHistoryV2_busy (w : V2World) (branchToken : Bytes)
    (shardID : Option Int) (e : Err) (resp : GetHistoryTreeResponse)
    (pre post : List HistoryBranchDetail) (br : HistoryBranchDetail)
    (hdel : w.DeleteHistoryBranch [] (deleteRequest branchToken shardID) = some e)
    (hcf : e.isConditionFailed = true)
    (htree : w.GetHistoryTree [.DeleteHistoryBranch (deleteRequest branchToken shardID)]
      (treeRequest branchToken shardID) = .ok resp)
    (hforks : resp.ForkingInProgressBranches = pre ++ br :: post)
    (hstale : StaleCompleted w branchToken shardID (logBeforeLoop branchToken shardID) pre)
    (hfresh : w.timeNow (logBeforeLoop branchToken shardID ++
      completeCalls w branchToken shardID pre) ≤ br.ForkTime + timeMinute) :
    DeleteWorkflowExecutionHistoryV2 w branchToken shardID =
      (some (.ServiceBusyError "waiting for forking to complete"),
        logBeforeLoop branchToken shardID ++ completeCalls w branchToken shardID pre ++
          [.Warn (detailInfo "" pre)]) := by
  have hloop := forkLoop_stale w branchToken shardID pre (br :: post) ""
    (logBeforeLoop branchToken shardID) hstale
  have hnot : ¬ w.timeNow (logBeforeLoop branchToken shardID ++
      completeCalls w branchToken shardID pre) > br.ForkTime + timeMinute := not_lt.mpr hfresh
  have hlen : (pre ++ br :: post).length > 0 := by simp
  rw [DeleteWorkflowExecutionHistoryV2_forks w branchToken shardID e resp hdel hcf htree]
  simp only [hforks, hlen, if_true, hloop, forkLoop, hnot, if_false]

/-- C26: a `ServiceBusyError` of `DeleteWorkflowExecutionHistoryV2` is not free
of side effects.  When the first delete fails with `ConditionFailedError` and
the list of forks in progress holds forks that are stale (older than one
minute) and complete without error before its first fresh fork, the function
issues `CompleteForkBranch` with `Success = true` for exactly the stale forks
before the first fresh one, in order, and then returns `ServiceBusyError`;
the log holds no call for the fresh fork or a fork listed behind it.  For
the list of one stale and one fresh fork exactly one `CompleteForkBranch` is
issued. -/
theorem C26_busy_has_side_effects (w : V2World) (branchToken : Bytes)
    (shardID : Option Int) (e : Err) (resp : GetHistoryTreeResponse)
    (pre post : List HistoryBranchDetail) (br : HistoryBranchDetail)
    (hdel : w.DeleteHistoryBranch [] (deleteRequest branchToken shardID) = some e)
    (hcf : e.isConditionFailed = true)
    (htree : w.GetHistoryTree [.DeleteHistoryBranch (deleteRequest branchToken shardID)]
      (treeRequest branchToken shardID) = .ok resp)
    (hforks : resp.ForkingInProgressBranches = pre ++ br :: post)
    (hstale : StaleCompleted w branchToken shardID (logBeforeLoop branchToken shardID) pre)
    (hfresh : w.timeNow (logBeforeLoop branchToken shardID ++
      completeCalls w branchToken shardID pre) ≤ br.ForkTime + timeMinute) :
    (DeleteWorkflowExecutionHistoryV2 w branchToken shardID).1 =
        some (.ServiceBusyError "waiting for forking to complete") ∧
      (DeleteWorkflowExecutionHistoryV2 w branchToken shardID).2 =
        logBeforeLoop branchToken shardID ++ completeCalls w branchToken shardID pre ++
          [.Warn (detailInfo "" pre)] ∧
      (DeleteWorkflowExecutionHistoryV2 w branchToken shardID).2.filter
          V2Call.isCompleteForkBranch =
        pre.map (fun stale =>
          .CompleteForkBranch
            { Success := true, BranchToken := rebuiltToken w branchToken stale,
              ShardID := shardID }) ∧
      ((DeleteWorkflowExecutionHistoryV2 w branchToken shardID).2.filter
          V2Call.isCompleteForkBranch).length = pre.length ∧
      (∀ stale, pre = [stale] →
        ((DeleteWorkflowExecutionHistoryV2 w branchToken shardID).2.filter
          V2Call.isCompleteForkBranch).length = 1) := by
  have hres := DeleteWorkflowExecutionHistoryV2_busy w branchToken shardID e resp pre post br
    hdel hcf htree hforks hstale hfresh
  have hfilter : (DeleteWorkflowExecutionHistoryV2 w branchToken shardID).2.filter
      V2Call.isCompleteForkBranch = completeCalls w branchToken shardID pre := by
    rw [hres]
    simp [List.filter_append, completeCalls_filter, logBeforeLoop,
      V2Call.isCompleteForkBranch]
  refine ⟨by rw [hres], by rw [hres], ?_, ?_, ?_⟩
  · rw [hfilter]
    rfl
  · rw [hfilter]
    simp [completeCalls]
  · intro stale hpre
    rw [hfilter, hpre]
    rfl

/-- C26 (witness): at time 100 s the sample tree lists a fork made at time 0,
a fork made at 90 s and a further fork made at time 0; the delete completes
the first fork only and answers `ServiceBusyError`. -/
theorem C26_busy_has_side_effects_witness :
    StaleCompleted
        (sampleWorldWith (100 * 1000000000)
          [sampleForkAt "a" 0, sampleForkAt "b" (90 * 1000000000), sampleForkAt "c" 0])
        [7] (some 1) (logBeforeLoop [7] (some 1)) [sampleForkAt "a" 0] ∧
      DeleteWorkflowExecutionHistoryV2
          (sampleWorldWith (100 * 1000000000)
            [sampleForkAt "a" 0, sampleForkAt "b" (90 * 1000000000), sampleForkAt "c" 0])
          [7] (some 1) =
        (some (.ServiceBusyError "waiting for forking to complete"),
          [.DeleteHistoryBranch (deleteRequest [7] (some 1)),
           .GetHistoryTree (treeRequest [7] (some 1)),
           .CompleteForkBranch (CompleteForkBranchRequest.mk [1, 7] true (some 1)),
           .Warn ";fork of a"]) ∧
      ((DeleteWorkflowExecutionHistoryV2
          (sampleWorldWith (100 * 1000000000)
            [sampleForkAt "a" 0, sampleForkAt "b" (90 * 1000000000), sampleForkAt "c" 0])
          [7] (some 1)).2.filter V2Call.isCompleteForkBranch).length = 1 :=
  ⟨StaleCompleted.singleton (by decide) ⟨_, rfl⟩ rfl, by decide,
    (C26_busy_has_side_effects
      (sampleWorldWith (100 * 1000000000)
        [sampleForkAt "a" 0, sampleForkAt "b" (90 * 1000000000), sampleForkAt "c" 0])
      [7] (some 1) (.ConditionFailedError "forking in progress")
      { ForkingInProgressBranches :=
        [sampleForkAt "a" 0, sampleForkAt "b" (90 * 1000000000), sampleForkAt "c" 0] }
      [sampleForkAt "a" 0] [sampleForkAt "c" 0] (sampleForkAt "b" (90 * 1000000000))
      rfl rfl rfl rfl (StaleCompleted.singleton (by decide) ⟨_, rfl⟩ rfl) (by decide)).2.2.2.2
      (sampleForkAt "a" 0) rfl⟩

/-! ## Termination of the full-page loops -/

theorem ReadsOn_head {mgr : HistoryReader} {req : ReadHistoryBranchRequest}
    {seen : List HistoryEvent} {calls : List ReadHistoryBranchRequest}
    {p : ReadHistoryBranchResponse} {ps : List ReadHistoryBranchResponse}
    (h : ReadsOn mgr req seen calls (p :: ps)) :
    mgr.ReadHistoryBranch calls req = .ok p ∧
      ¬ ((((seen ++ p.HistoryEvents).length : Int) ≥ req.PageSize ∨
        p.NextPageToken.length = 0)) := by
  have := h [] p ps rfl
  simpa [pageRequests, requestAfter, pageEvents] using this

theorem ReadsOn_tail {mgr : HistoryReader} {req : ReadHistoryBranchRequest}
    {seen : List HistoryEvent} {calls : List ReadHistoryBranchRequest}
    {p : ReadHistoryBranchResponse} {ps : List ReadHistoryBranchResponse}
    (h : ReadsOn mgr req seen calls (p :: ps)) :
    ReadsOn mgr { req with NextPageToken := p.NextPageToken } (seen ++ p.HistoryEvents)
      (calls ++ [req]) ps := by
  intro pre q post hq
  have := h (p :: pre) q post (by rw [hq]; rfl)
  simpa [pageRequests, requestAfter, pageEvents, List.append_assoc] using this

theorem ReadsBatchOn_head {mgr : HistoryReader} {req : ReadHistoryBranchRequest}
    {seen : Int} {calls : List ReadHistoryBranchRequest}
    {p : ReadHistoryBranchByBatchResponse} {ps : List ReadHistoryBranchByBatchResponse}
    (h : ReadsBatchOn mgr req seen calls (p :: ps)) :
    mgr.ReadHistoryBranchByBatch calls req = .ok p ∧
      ¬ (seen + batchEventCount p.History ≥ req.PageSize ∨ p.NextPageToken.length = 0) := by
  have := h [] p ps rfl
  simpa [batchPageRequests, batchRequestAfter, pageBatches] using this

theorem ReadsBatchOn_tail {mgr : HistoryReader} {req : ReadHistoryBranchRequest}
    {seen : Int} {calls : List ReadHistoryBranchRequest}
    {p : ReadHistoryBranchByBatchResponse} {ps : List ReadHistoryBranchByBatchResponse}
    (h : ReadsBatchOn mgr req seen calls (p :: ps)) :
    ReadsBatchOn mgr { req with NextPageToken := p.NextPageToken }
      (seen + batchEventCount p.History) (calls ++ [req]) ps := by
  intro pre q post hq
  have := h (p :: pre) q post (by rw [hq]; rfl)
  simpa [batchPageRequests, batchRequestAfter, pageBatches, batchEventCount_append,
    List.append_assoc, Int.add_assoc] using this

/-- Pages that do not end the read use up one unit of fuel each. -/
theorem ReadFullPageV2EventsLoop_on (mgr : HistoryReader)
    (pages : List ReadHistoryBranchResponse) :
    ∀ (fuel : Nat) (req : ReadHistoryBranchRequest) (seen : List HistoryEvent) (size : Int)
      (calls : List ReadHistoryBranchRequest),
      ReadsOn mgr req seen calls pages →
      ReadFullPageV2EventsLoop mgr (pages.length + fuel) req seen size calls =
        ReadFullPageV2EventsLoop mgr fuel (requestAfter req pages) (seen ++ pageEvents pages)
          (pages.foldl (fun s p => wrapInt64 (s + p.Size)) size)
          (calls ++ pageRequests req pages) := by
  induction pages with
  | nil =>
    intro fuel req seen size calls _
    simp [requestAfter, pageEvents, pageRequests]
  | cons p ps ih =>
    intro fuel req seen size calls hpages
    obtain ⟨hread, hnot⟩ := ReadsOn_head hpages
    rw [List.length_cons, Nat.add_right_comm, ReadFullPageV2EventsLoop]
    simp only [hread, hnot, if_false]
    rw [ih fuel _ _ _ _ (ReadsOn_tail hpages)]
    simp [requestAfter, pageEvents_cons, pageRequests, List.append_assoc]

/-- Fewer reads than there are pages that do not end the read do not end it. -/
theorem ReadFullPageV2EventsLoop_short (mgr : HistoryReader)
    (pages : List ReadHistoryBranchResponse) :
    ∀ (fuel : Nat) (req : ReadHistoryBranchRequest) (seen : List HistoryEvent) (size : Int)
      (calls : List ReadHistoryBranchRequest),
      ReadsOn mgr req seen calls pages → fuel ≤ pages.length →
      ReadFullPageV2EventsLoop mgr fuel req seen size calls = none := by
  induction pages with
  | nil =>
    intro fuel req seen size calls _ hfuel
    obtain rfl : fuel = 0 := by simpa using hfuel
    rfl
  | cons p ps ih =>
    intro fuel req seen size calls hpages hfuel
    cases fuel with
    | zero => rfl
    | succ n =>
      obtain ⟨hread, hnot⟩ := ReadsOn_head hpages
      rw [ReadFullPageV2EventsLoop]
      simp only [hread, hnot, if_false]
      exact ih n _ _ _ _ (ReadsOn_tail hpages) (by
        simp only [List.length_cons] at hfuel
        omega)

/-- Batch pages that do not end the read use up one unit of fuel each. -/
theorem ReadFullPageV2EventsByBatchLoop_on (mgr : HistoryReader)
    (pages : List ReadHistoryBranchByBatchResponse) :
    ∀ (fuel : Nat) (req : ReadHistoryBranchRequest) (batches : List History) (seen size : Int)
      (calls : List ReadHistoryBranchRequest),
      ReadsBatchOn mgr req seen calls pages →
      ReadFullPageV2EventsByBatchLoop mgr (pages.length + fuel) req batches seen size calls =
        ReadFullPageV2EventsByBatchLoop mgr fuel (batchRequestAfter req pages)
          (batches ++ pageBatches pages) (seen + batchEventCount (pageBatches pages))
          (pages.foldl (fun s p => wrapInt64 (s + p.Size)) size)
          (calls ++ batchPageRequests req pages) := by
  induction pages with
  | nil =>
    intro fuel req batches seen size calls _
    simp [batchRequestAfter, pageBatches, batchPageRequests, batchEventCount]
  | cons p ps ih =>
    intro fuel req batches seen size calls hpages
    obtain ⟨hread, hnot⟩ := ReadsBatchOn_head hpages
    rw [List.length_cons, Nat.add_right_comm, ReadFullPageV2EventsByBatchLoop]
    simp only [hread, foldl_eventCount, hnot, if_false]
    rw [ih fuel _ _ _ _ _ (ReadsBatchOn_tail hpages)]
    simp [batchRequestAfter, pageBatches_cons, batchPageRequests, List.append_assoc,
      batchEventCount_append, Int.add_assoc]

/-- Fewer reads than there are batch pages that do not end the read do not end
it. -/
theorem ReadFullPageV2EventsByBatchLoop_short (mgr : HistoryReader)
    (pages : List ReadHistoryBranchByBatchResponse) :
    ∀ (fuel : Nat) (req : ReadHistoryBranchRequest) (batches : List History) (seen size : Int)
      (calls : List ReadHistoryBranchRequest),
      ReadsBatchOn mgr req seen calls pages → fuel ≤ pages.length →
      ReadFullPageV2EventsByBatchLoop mgr fuel req batches seen size calls = none := by
  induction pages with
  | nil =>
    intro fuel req batches seen size calls _ hfuel
    obtain rfl : fuel = 0 := by simpa using hfuel
    rfl
  | cons p ps ih =>
    intro fuel req batches seen size calls hpages hfuel
    cases fuel with
    | zero => rfl
    | succ n =>
      obtain ⟨hread, hnot⟩ := ReadsBatchOn_head hpages
      rw [ReadFullPageV2EventsByBatchLoop]
      simp only [hread, foldl_eventCount, hnot, if_false]
      exact ih n _ _ _ _ _ (ReadsBatchOn_tail hpages) (by
        simp only [List.length_cons] at hfuel
        omega)

/-- One more read ends the loop when it fails or when its page ends the read. -/
theorem ReadFullPageV2EventsLoop_last (mgr : HistoryReader) (fuel : Nat)
    (req : ReadHistoryBranchRequest) (seen : List HistoryEvent) (size : Int)
    (calls : List ReadHistoryBranchRequest)
    (h : (∃ err, mgr.ReadHistoryBranch calls req = .error err) ∨
      ∃ p, mgr.ReadHistoryBranch calls req = .ok p ∧
        (((seen ++ p.HistoryEvents).length : Int) ≥ req.PageSize ∨
          p.NextPageToken.length = 0)) :
    ∃ r, ReadFullPageV2EventsLoop mgr (fuel + 1) req seen size calls = some r ∧
      r.2.2 = calls ++ [req] := by
  rw [ReadFullPageV2EventsLoop]
  rcases h with ⟨err, herr⟩ | ⟨p, hp, hstop⟩
  · exact ⟨(.error err, req, calls ++ [req]), by simp only [herr], rfl⟩
  · exact ⟨(.ok (seen ++ p.HistoryEvents, wrapInt64 (size + p.Size), p.NextPageToken), req,
      calls ++ [req]), by simp only [hp, hstop, if_true], rfl⟩

/-- One more read by batch ends the loop when it fails or when its page ends
the read. -/
theorem ReadFullPageV2EventsByBatchLoop_last (mgr : HistoryReader) (fuel : Nat)
    (req : ReadHistoryBranchRequest) (batches : List History) (seen size : Int)
    (calls : List ReadHistoryBranchRequest)
    (h : (∃ err, mgr.ReadHistoryBranchByBatch calls req = .error err) ∨
      ∃ p, mgr.ReadHistoryBranchByBatch calls req = .ok p ∧
        (seen + batchEventCount p.History ≥ req.PageSize ∨ p.NextPageToken.length = 0)) :
    ∃ r, ReadFullPageV2EventsByBatchLoop mgr (fuel + 1) req batches seen size calls = some r ∧
      r.2.2 = calls ++ [req] := by
  rw [ReadFullPageV2EventsByBatchLoop]
  rcases h with ⟨err, herr⟩ | ⟨p, hp, hstop⟩
  · exact ⟨(.error err, req, calls ++ [req]), by simp only [herr], rfl⟩
  · exact ⟨(.ok (batches ++ p.History, wrapInt64 (size + p.Size), p.NextPageToken), req,
      calls ++ [req]), by simp only [hp, foldl_eventCount, hstop, if_true], rfl⟩

theorem batchEventCount_nonneg (batches : List History) : 0 ≤ batchEventCount batches := by
  induction batches with
  | nil => simp [batchEventCount]
  | cons b bs ih =>
    simp only [batchEventCount, List.map_cons, List.sum_cons] at ih ⊢
    omega

/-- A manager that always answers the read of events with an empty page and a
token never ends the loop when the page size is positive. -/
theorem ReadFullPageV2EventsLoop_never (mgr : HistoryReader)
    (hmgr : ∀ calls r, ∃ p, mgr.ReadHistoryBranch calls r = .ok p ∧ p.HistoryEvents = [] ∧
      p.NextPageToken ≠ []) :
    ∀ (fuel : Nat) (req : ReadHistoryBranchRequest) (size : Int)
      (calls : List ReadHistoryBranchRequest), 1 ≤ req.PageSize →
      ReadFullPageV2EventsLoop mgr fuel req [] size calls = none := by
  intro fuel
  induction fuel with
  | zero => intros; rfl
  | succ n ih =>
    intro req size calls hsize
    obtain ⟨p, hp, hempty, htoken⟩ := hmgr calls req
    have hnot : ¬ (((([] : List HistoryEvent) ++ p.HistoryEvents).length : Int) ≥ req.PageSize ∨
        p.NextPageToken.length = 0) := by
      rw [hempty]
      rintro (h | h)
      · simp at h
        omega
      · exact htoken (List.length_eq_zero.mp h)
    rw [ReadFullPageV2EventsLoop]
    simp only [hp, hnot, if_false]
    rw [hempty]
    exact ih _ _ _ hsize

/-- A manager that always answers the read by batch with a page without
events and a token never ends the loop when the page size is positive. -/
theorem ReadFullPageV2EventsByBatchLoop_never (mgr : HistoryReader)
    (hmgr : ∀ calls r, ∃ p, mgr.ReadHistoryBranchByBatch calls r = .ok p ∧
      batchEventCount p.History = 0 ∧ p.NextPageToken ≠ []) :
    ∀ (fuel : Nat) (req : ReadHistoryBranchRequest) (batches : List History) (size : Int)
      (calls : List ReadHistoryBranchRequest), 1 ≤ req.PageSize →
      ReadFullPageV2EventsByBatchLoop mgr fuel req batches 0 size calls = none := by
  intro fuel
  induction fuel with
  | zero => intros; rfl
  | succ n ih =>
    intro req batches size calls hsize
    obtain ⟨p, hp, hempty, htoken⟩ := hmgr calls req
    have hnot : ¬ (0 + batchEventCount p.History ≥ req.PageSize ∨
        p.NextPageToken.length = 0) := by
      rw [hempty]
      rintro (h | h)
      · omega
      · exact htoken (List.length_eq_zero.mp h)
    rw [ReadFullPageV2EventsByBatchLoop]
    simp only [hp, foldl_eventCount, hnot, if_false]
    rw [hempty]
    exact ih _ _ _ _ hsize

theorem ReadsOn_nil (mgr : HistoryReader) (req : ReadHistoryBranchRequest)
    (seen : List HistoryEvent) (calls : List ReadHistoryBranchRequest) :
    ReadsOn mgr req seen calls [] := by
  intro pre q post hq
  exact absurd hq (by simp)

/-- A run of pages that do not end the read is built from its first page and
the run behind it. -/
theorem ReadsOn_cons {mgr : HistoryReader} {req : ReadHistoryBranchRequest}
    {seen : List HistoryEvent} {calls : List ReadHistoryBranchRequest}
    {p : ReadHistoryBranchResponse} {ps : List ReadHistoryBranchResponse}
    (h1 : mgr.ReadHistoryBranch calls req = .ok p)
    (h2 : ¬ ((((seen ++ p.HistoryEvents).length : Int) ≥ req.PageSize ∨
        p.NextPageToken.length = 0)))
    (h3 : ReadsOn mgr { req with NextPageToken := p.NextPageToken }
      (seen ++ p.HistoryEvents) (calls ++ [req]) ps) :
    ReadsOn mgr req seen calls (p :: ps) := by
  intro pre q post hq
  cases pre with
  | nil =>
    simp only [List.nil_append, List.cons.injEq] at hq
    obtain ⟨rfl, rfl⟩ := hq
    have h12 := And.intro h1 h2
    simpa [pageRequests, requestAfter, pageEvents] using h12
  | cons x xs =>
    simp only [List.cons_append, List.cons.injEq] at hq
    obtain ⟨rfl, hrest⟩ := hq
    have := h3 xs q post hrest
    simpa [pageRequests, requestAfter, pageEvents, List.append_assoc] using this

/-- C28: the full-page loops end exactly when the manager lets them.  For
`ReadFullPageV2Events` and for `ReadFullPageV2EventsByBatch`: when the
successive reads return pages that do not end the read (fewer than
`req.PageSize` events gathered, token not empty) and the read after them
fails or returns a page with an empty token or with which `req.PageSize`
events are gathered, the function returns after exactly that many reads, and
no smaller number of reads ends it; with `req.PageSize ≤ 0` it makes exactly
one read; and for a manager that always returns pages without events and
with a token, with `req.PageSize ≥ 1`, it returns after no number of reads. -/
theorem C28_full_page_loops_terminate (mgr : HistoryReader) (req : ReadHistoryBranchRequest) :
    (∀ (pages : List ReadHistoryBranchResponse) (fuel : Nat),
      ReadsOn mgr req [] [] pages →
      ((∃ err, mgr.ReadHistoryBranch (pageRequests req pages) (requestAfter req pages) =
          .error err) ∨
        ∃ p, mgr.ReadHistoryBranch (pageRequests req pages) (requestAfter req pages) = .ok p ∧
          (((pageEvents pages ++ p.HistoryEvents).length : Int) ≥ req.PageSize ∨
            p.NextPageToken.length = 0)) →
      (pages.length + 1 ≤ fuel →
        ∃ r, ReadFullPageV2Events mgr fuel req = some r ∧
          r.2.2 = pageRequests req pages ++ [requestAfter req pages] ∧
          r.2.2.length = pages.length + 1) ∧
      (fuel ≤ pages.length → ReadFullPageV2Events mgr fuel req = none)) ∧
    (∀ (pages : List ReadHistoryBranchByBatchResponse) (fuel : Nat),
      ReadsBatchOn mgr req 0 [] pages →
      ((∃ err, mgr.ReadHistoryBranchByBatch (batchPageRequests req pages)
          (batchRequestAfter req pages) = .error err) ∨
        ∃ p, mgr.ReadHistoryBranchByBatch (batchPageRequests req pages)
            (batchRequestAfter req pages) = .ok p ∧
          (batchEventCount (pageBatches pages) + batchEventCount p.History ≥ req.PageSize ∨
            p.NextPageToken.length = 0)) →
      (pages.length + 1 ≤ fuel →
        ∃ r, ReadFullPageV2EventsByBatch mgr fuel req = some r ∧
          r.2.2 = batchPageRequests req pages ++ [batchRequestAfter req pages] ∧
          r.2.2.length = pages.length + 1) ∧
      (fuel ≤ pages.length → ReadFullPageV2EventsByBatch mgr fuel req = none)) ∧
    (req.PageSize ≤ 0 → ∀ fuel, 1 ≤ fuel →
      (∃ r, ReadFullPageV2Events mgr fuel req = some r ∧ r.2.2 = [req]) ∧
      (∃ r, ReadFullPageV2EventsByBatch mgr fuel req = some r ∧ r.2.2 = [req])) ∧
    (1 ≤ req.PageSize →
      ((∀ calls r, ∃ p, mgr.ReadHistoryBranch calls r = .ok p ∧ p.HistoryEvents = [] ∧
          p.NextPageToken ≠ []) →
        ∀ fuel, ReadFullPageV2Events mgr fuel req = none) ∧
      ((∀ calls r, ∃ p, mgr.ReadHistoryBranchByBatch calls r = .ok p ∧
          batchEventCount p.History = 0 ∧ p.NextPageToken ≠ []) →
        ∀ fuel, ReadFullPageV2EventsByBatch mgr fuel req = none)) := by
  refine ⟨?_, ?_, ?_, ?_⟩
  · intro pages fuel hon hlast
    constructor
    · intro hfuel
      obtain ⟨k, rfl⟩ : ∃ k, fuel = pages.length + (k + 1) := ⟨fuel - pages.length - 1, by omega⟩
      rw [ReadFullPageV2Events, ReadFullPageV2EventsLoop_on mgr pages (k + 1) req [] 0 [] hon]
      obtain ⟨r, hr, hcalls⟩ := ReadFullPageV2EventsLoop_last mgr k (requestAfter req pages)
        ([] ++ pageEvents pages) (pages.foldl (fun s p => wrapInt64 (s + p.Size)) 0)
        ([] ++ pageRequests req pages) (by
          simpa only [List.nil_append, requestAfter_PageSize] using hlast)
      refine ⟨r, hr, ?_, ?_⟩
      · simpa using hcalls
      · rw [hcalls]
        simp [pageRequests_length]
    · intro hfuel
      exact ReadFullPageV2EventsLoop_short mgr pages fuel req [] 0 [] hon hfuel
  · intro pages fuel hon hlast
    constructor
    · intro hfuel
      obtain ⟨k, rfl⟩ : ∃ k, fuel = pages.length + (k + 1) := ⟨fuel - pages.length - 1, by omega⟩
      rw [ReadFullPageV2EventsByBatch,
        ReadFullPageV2EventsByBatchLoop_on mgr pages (k + 1) req [] 0 0 [] hon]
      obtain ⟨r, hr, hcalls⟩ := ReadFullPageV2EventsByBatchLoop_last mgr k
        (batchRequestAfter req pages) ([] ++ pageBatches pages)
        (0 + batchEventCount (pageBatches pages))
        (pages.foldl (fun s p => wrapInt64 (s + p.Size)) 0)
        ([] ++ batchPageRequests req pages) (by
          simpa only [List.nil_append, zero_add, batchRequestAfter_PageSize] using hlast)
      refine ⟨r, hr, ?_, ?_⟩
      · simpa using hcalls
      · rw [hcalls]
        simp [batchPageRequests_length]
    · intro hfuel
      exact ReadFullPageV2EventsByBatchLoop_short mgr pages fuel req [] 0 0 [] hon hfuel
  · intro hsize fuel hfuel
    obtain ⟨k, rfl⟩ : ∃ k, fuel = k + 1 := ⟨fuel - 1, by omega⟩
    constructor
    · obtain ⟨r, hr, hcalls⟩ := ReadFullPageV2EventsLoop_last mgr k req [] 0 [] (by
        cases hread : mgr.ReadHistoryBranch [] req with
        | error err => exact Or.inl ⟨err, rfl⟩
        | ok p =>
          refine Or.inr ⟨p, rfl, Or.inl ?_⟩
          have : (0 : Int) ≤ (([] ++ p.HistoryEvents).length : Int) := Int.natCast_nonneg _
          omega)
      exact ⟨r, hr, by simpa using hcalls⟩
    · obtain ⟨r, hr, hcalls⟩ := ReadFullPageV2EventsByBatchLoop_last mgr k req [] 0 0 [] (by
        cases hread : mgr.ReadHistoryBranchByBatch [] req with
        | error err => exact Or.inl ⟨err, rfl⟩
        | ok p =>
          refine Or.inr ⟨p, rfl, Or.inl ?_⟩
          have := batchEventCount_nonneg p.History
          omega)
      exact ⟨r, hr, by simpa using hcalls⟩
  · intro hsize
    constructor
    · intro hmgr fuel
      exact ReadFullPageV2EventsLoop_never mgr hmgr fuel req 0 [] hsize
    · intro hmgr fuel
      exact ReadFullPageV2EventsByBatchLoop_never mgr hmgr fuel req [] 0 [] hsize

/-- C28 (witness): the sample manager ends the read of page size 4 with its
second page, so two reads end it and one does not; and the manager that
always returns an empty page with a token does not end it in 1000 reads. -/
theorem C28_full_page_loops_terminate_witness :
    ReadsOn sampleReader sampleReadRequest [] [] [samplePage 2 [1] 10] ∧
      (∃ r, ReadFullPageV2Events sampleReader 2 sampleReadRequest = some r ∧
        r.2.2 = pageRequests sampleReadRequest [samplePage 2 [1] 10] ++
          [requestAfter sampleReadRequest [samplePage 2 [1] 10]] ∧
        r.2.2.length = 2) ∧
      ReadFullPageV2Events sampleReader 1 sampleReadRequest = none ∧
      ReadFullPageV2EventsByBatch emptyPagesReader 1000 sampleReadRequest = none :=
  ⟨ReadsOn_cons rfl (by decide) (ReadsOn_nil _ _ _ _),
    ((C28_full_page_loops_terminate sampleReader sampleReadRequest).1 [samplePage 2 [1] 10] 2
      (ReadsOn_cons rfl (by decide) (ReadsOn_nil _ _ _ _))
      (Or.inr ⟨samplePage 3 [2] 20, rfl, by decide⟩)).1 (by decide),
    ((C28_full_page_loops_terminate sampleReader sampleReadRequest).1 [samplePage 2 [1] 10] 1
      (ReadsOn_cons rfl (by decide) (ReadsOn_nil _ _ _ _))
      (Or.inr ⟨samplePage 3 [2] 20, rfl, by decide⟩)).2 (by decide),
    ((C28_full_page_loops_terminate emptyPagesReader sampleReadRequest).2.2.2 (by decide)).2
      (fun _ _ => ⟨_, rfl, rfl, by decide⟩) 1000⟩

/-! ## Claims on a read whose anchor row is missing -/

/-- The SQL store answers no read with an entity-not-exists error, whatever
the driver returns. -/
theorem GetWorkflowExecutionHistory_not_entity_not_exists (env : SqlEnv) (db : DB)
    (request : InternalGetWorkflowExecutionHistoryRequest) (m : String) :
    (GetWorkflowExecutionHistory env db request).1 ≠ .error (.EntityNotExistsError m) := by
  unfold GetWorkflowExecutionHistory
  cases hoff : startOffset env request with
  | error e =>
    unfold startOffset at hoff
    split_ifs at hoff
    split at hoff <;> cases hoff
    simp
  | ok offset =>
    simp only
    split <;> simp

/-- C5 (as stated, refuted): with batches stored at first-event-ids 1, 3, 4, 6
and 7 (the store of `TestGetHistoryEventsCompatibility`), the read of
`[5, 8)` with page size 3 and no page token finds no row with first-event-id
5 and returns the batches at 6 and 7 with no error; and with only the batch
at first-event-id 1 stored, the read of `[2, 4)` returns the empty response
with no error, not an entity-not-exists error. -/
theorem C5_counterexample :
    (sampleRead (-1) 5 8 3).NextPageToken = [] ∧
      (∀ r ∈ [sampleRow 1 (-1), sampleRow 3 (-1), sampleRow 4 (-1), sampleRow 6 (-1),
          sampleRow 7 (-1)], r.FirstEventID ≠ (sampleRead (-1) 5 8 3).FirstEventID) ∧
      (GetWorkflowExecutionHistory specEnv
          (tableDB specEnv [sampleRow 1 (-1), sampleRow 3 (-1), sampleRow 4 (-1),
            sampleRow 6 (-1), sampleRow 7 (-1)])
          (sampleRead (-1) 5 8 3)).1 =
        .ok { History := [eventBatch (sampleRow 6 (-1)), eventBatch (sampleRow 7 (-1))],
              LastEventBatchVersion := -1, NextPageToken := [] } ∧
      (GetWorkflowExecutionHistory specEnv (tableDB specEnv [sampleRow 1 (-1)])
          (sampleRead (-1) 2 4 1)).1 = .ok emptyResponse := by
  refine ⟨rfl, by decide, ?_, ?_⟩
  · rfl
  · rfl

/-- C5 (amended): for every read without page token for which the table
holds no row of the execution with first-event-id equal to
`request.FirstEventID`, the SQL store returns no entity-not-exists error: it
returns the empty response with no error when the page of the rows of the
execution from `request.FirstEventID` up to `request.NextEventID` is empty
(a workflow with no rows at all included), and otherwise the response built
from the first `request.PageSize` of these rows, with no error. -/
theorem C5_missing_anchor_reads_on (env : SqlEnv) (table : List EventsRow)
    (request : InternalGetWorkflowExecutionHistoryRequest)
    (htok : request.NextPageToken = [])
    (hanchor : ∀ r ∈ table, r.DomainID = request.DomainID →
      r.WorkflowID = request.Execution.WorkflowId → r.RunID = request.Execution.RunId →
      r.FirstEventID ≠ request.FirstEventID) :
    (∀ m, (GetWorkflowExecutionHistory env (tableDB env table) request).1 ≠
        .error (.EntityNotExistsError m)) ∧
      ((rowsInRange table request
            (wrapInt64 (wrapInt64 (request.FirstEventID - 1) + 1))).take
          request.PageSize.toNat = [] →
        (GetWorkflowExecutionHistory env (tableDB env table) request).1 = .ok emptyResponse) ∧
      ((rowsInRange table request
            (wrapInt64 (wrapInt64 (request.FirstEventID - 1) + 1))).take
          request.PageSize.toNat ≠ [] →
        (GetWorkflowExecutionHistory env (tableDB env table) request).1 =
          .ok (buildResponse env request (wrapInt64 (request.FirstEventID - 1))
            ((rowsInRange table request
              (wrapInt64 (wrapInt64 (request.FirstEventID - 1) + 1))).take
                request.PageSize.toNat))) ∧
      (isInt64 request.FirstEventID →
        wrapInt64 (wrapInt64 (request.FirstEventID - 1) + 1) = request.FirstEventID ∧
        ∀ r ∈ rowsInRange table request
            (wrapInt64 (wrapInt64 (request.FirstEventID - 1) + 1)),
          request.FirstEventID < r.FirstEventID) := by
  have hsel : (tableDB env table).SelectFromEvents
      (selectFilter request (wrapInt64 (request.FirstEventID - 1))) =
      .ok ((rowsInRange table request
        (wrapInt64 (wrapInt64 (request.FirstEventID - 1) + 1))).take request.PageSize.toNat) := by
    show Except.ok (selectFromEvents table _) = _
    rw [selectFromEvents_selectFilter]
  refine ⟨GetWorkflowExecutionHistory_not_entity_not_exists env _ request, ?_, ?_, ?_⟩
  · intro hempty
    rw [hempty] at hsel
    rw [GetWorkflowExecutionHistory_empty env _ request _ (startOffset_no_token env request htok)
      hsel]
  · intro hne
    rw [GetWorkflowExecutionHistory_rows env _ request _ _ (startOffset_no_token env request htok)
      hsel hne]
  · intro hint
    have hfirst := wrapInt64_pred_succ request.FirstEventID hint
    refine ⟨hfirst, ?_⟩
    intro r hr
    rw [hfirst] at hr
    obtain ⟨hmem, hd, hw, hrun, hge, -⟩ := mem_rowsInRange hr
    have hneq := hanchor r hmem hd hw hrun
    omega

/-- C5 (witness): the read of `TestGetHistoryEvents` from first-event-id 2 when
only the batch at first-event-id 1 is stored returns the empty response. -/
theorem C5_missing_anchor_reads_on_witness :
    (sampleRead (-1) 2 4 1).NextPageToken = [] ∧
      (∀ r ∈ [sampleRow 1 (-1)], r.DomainID = (sampleRead (-1) 2 4 1).DomainID →
        r.WorkflowID = (sampleRead (-1) 2 4 1).Execution.WorkflowId →
        r.RunID = (sampleRead (-1) 2 4 1).Execution.RunId →
        r.FirstEventID ≠ (sampleRead (-1) 2 4 1).FirstEventID) ∧
      (GetWorkflowExecutionHistory specEnv (tableDB specEnv [sampleRow 1 (-1)])
        (sampleRead (-1) 2 4 1)).1 = .ok emptyResponse :=
  ⟨rfl, by decide,
    (C5_missing_anchor_reads_on specEnv [sampleRow 1 (-1)] (sampleRead (-1) 2 4 1) rfl
      (by decide)).2.1 (by decide)⟩

end Cadence
